import Mathlib

/-!
# Kalem: physics engine, timeline, objects and convenience API

A shallow embedding of `src/engine/PhysicsEngine.cpp`, `src/engine/Timeline.cpp`,
the time scale of `src/engine/AnimationEngine.cpp`, the physics and progress parts of
`src/objects/AnimationObject.cpp`, the rectangle and circle code of
`src/objects/Shape.cpp` and the animation functions of `src/api/EasyAPI.cpp`.

Conventions of the embedding.

* `float` is read in exact arithmetic: every definition is generic in a linearly
  ordered field `K` (for instance `ℚ`, which contains every finite `float`).
  Rounding, infinities and NaN are outside these definitions, and the statements
  about them are statements in exact arithmetic.
* Where rounding decides which calls the code makes (the loop of `update`, the
  segment index of `sequence`), the code is given a second time over `F32`, the
  finite binary32 values with round-to-nearest-even (`updateLoop32`, `update32`,
  `sequence32`).
* A division by zero has no value in the code (`glm::normalize` of the zero vector
  gives NaN components); in a field `1 / 0 = 0`, so statements about `normalize`
  are read at non-zero vectors only, and the zero case is stated as such.
* `std::sqrt`, reached through `glm::length` and `glm::normalize`, is a parameter
  `sqrt : K → K`.  Theorems that depend on it say at which arguments it has to be
  exact (over the reals with the real square root it is exact everywhere);
  concrete evaluations use `Rat.sqrt`.
* A `std::shared_ptr<AnimationObject>` is a handle `Nat` into a heap, a map from
  handles to objects; two equal handles alias the same object.  The
  registry never holds a null pointer (`addObject` drops it), so the null checks
  of the helpers are always passed.
* Event listeners (`notifyPositionChanged`) are not modelled: no listener is
  registered by the physics code.
-/

namespace Kalem

/-! ## Vectors (`glm::vec3`, `glm::vec2`) -/

/-- Three-component vector, `glm::vec3`. -/
@[ext]
structure Vec3 (K : Type) where
  x : K
  y : K
  z : K
deriving DecidableEq

/-- Two-component vector, `glm::vec2`. -/
structure Vec2 (K : Type) where
  x : K
  y : K
deriving DecidableEq

namespace Vec3

variable {K : Type} [LinearOrderedField K]

/-- Componentwise sum, `a + b`. -/
def add (a b : Vec3 K) : Vec3 K := ⟨a.x + b.x, a.y + b.y, a.z + b.z⟩

/-- Componentwise difference, `a - b`. -/
def sub (a b : Vec3 K) : Vec3 K := ⟨a.x - b.x, a.y - b.y, a.z - b.z⟩

/-- Vector times scalar, `a * s` (also `s * a`). -/
def smul (a : Vec3 K) (s : K) : Vec3 K := ⟨a.x * s, a.y * s, a.z * s⟩

/-- Vector divided by scalar, `a / s`. -/
def sdiv (a : Vec3 K) (s : K) : Vec3 K := ⟨a.x / s, a.y / s, a.z / s⟩

/-- The vector `glm::vec3(0.0f)`. -/
def zero : Vec3 K := ⟨0, 0, 0⟩

/-- Scalar product, `glm::dot`. -/
def dot (a b : Vec3 K) : K := a.x * b.x + a.y * b.y + a.z * b.z

/-- Euclidean norm, `glm::length(a) = sqrt(dot(a, a))`. -/
def length (sqrt : K → K) (a : Vec3 K) : K := sqrt (dot a a)

/-- Unit vector, `glm::normalize(a) = a * inversesqrt(dot(a, a))`.  For the zero vector
the code divides by zero and every component is NaN; here `1 / 0 = 0` and the result
is the zero vector, so the value is that of the code only where
`sqrt (dot a a) ≠ 0`. -/
def normalize (sqrt : K → K) (a : Vec3 K) : Vec3 K := smul a (1 / sqrt (dot a a))

end Vec3

/-! ## Objects (`AnimationObject`) -/

/-- The transform, animation and physics members of `AnimationObject`. -/
@[ext]
structure AnimationObject (K : Type) where
  position : Vec3 K
  scale : Vec3 K
  rotation : Vec3 K
  opacity : K
  animationProgress : K
  mass : K
  velocity : Vec3 K
  acceleration : Vec3 K
  bounce : K
  friction : K
  isStatic : Bool
  gravityAffected : Bool
deriving DecidableEq

/-- The object store: a handle (shared pointer) names one object. -/
@[ext]
structure Heap (K : Type) where
  get : Nat → AnimationObject K

instance (K : Type) : CoeFun (Heap K) (fun _ => Nat → AnimationObject K) := ⟨Heap.get⟩

/-- Overwrite the object behind handle `o`; every other handle keeps its object. -/
def Heap.set {K : Type} (h : Heap K) (o : Nat) (v : AnimationObject K) : Heap K :=
  ⟨fun i => if i = o then v else h.get i⟩

section Objects

variable {K : Type} [LinearOrderedField K]

/-- The constructor `AnimationObject::AnimationObject`. -/
def AnimationObject.new : AnimationObject K :=
  { position := ⟨0, 0, 0⟩
    scale := ⟨1, 1, 1⟩
    rotation := ⟨0, 0, 0⟩
    opacity := 1
    animationProgress := 0
    mass := 1
    velocity := ⟨0, 0, 0⟩
    acceleration := ⟨0, 0, 0⟩
    bounce := 0
    friction := 1 / 10
    isStatic := false
    gravityAffected := false }

/-- The call `obj->setPosition(p)` on the object behind handle `o`. -/
def setPosition (o : Nat) (p : Vec3 K) (h : Heap K) : Heap K :=
  Heap.set h o { h o with position := p }

/-- The call `obj->setVelocity(v)` on the object behind handle `o`. -/
def setVelocity (o : Nat) (v : Vec3 K) (h : Heap K) : Heap K :=
  Heap.set h o { h o with velocity := v }

/-- The call `obj->setAcceleration(a)` on the object behind handle `o`. -/
def setAcceleration (o : Nat) (a : Vec3 K) (h : Heap K) : Heap K :=
  Heap.set h o { h o with acceleration := a }

end Objects

/-! ## Rectangles (`Shape`, `Rectangle`) -/

/-- A `Rectangle`: an `AnimationObject` with the `Shape::m_size` member. -/
structure Rectangle (K : Type) extends AnimationObject K where
  size : Vec2 K

namespace Rectangle

variable {K : Type} [LinearOrderedField K]

/-- The constructor `Rectangle(x, y, width, height)`: `setPosition(x, y, 0)` and
`setSize(width, height)`, which stores the size and, through
`Shape::updateBounds`, sets the scale to `(width, height, 1)`. -/
def new (x y width height : K) : Rectangle K :=
  { toAnimationObject :=
      { (AnimationObject.new : AnimationObject K) with
        position := ⟨x, y, 0⟩
        scale := ⟨width, height, 1⟩ }
    size := ⟨width, height⟩ }

/-- The bound `Shape::getMinBounds`, which `Rectangle::getMinBounds` forwards to. -/
def getMinBounds (r : Rectangle K) : Vec3 K :=
  Vec3.sub r.position ⟨r.size.x * r.scale.x * (1 / 2), r.size.y * r.scale.y * (1 / 2), 0⟩

/-- The bound `Shape::getMaxBounds`, which `Rectangle::getMaxBounds` forwards to. -/
def getMaxBounds (r : Rectangle K) : Vec3 K :=
  Vec3.add r.position ⟨r.size.x * r.scale.x * (1 / 2), r.size.y * r.scale.y * (1 / 2), 0⟩

/-- The test `Rectangle::intersects` against another `Rectangle`
(the `dynamic_cast` succeeds): axis-aligned bounding-box overlap. -/
def intersects (r other : Rectangle K) : Bool :=
  let min1 := r.getMinBounds
  let max1 := r.getMaxBounds
  let min2 := other.getMinBounds
  let max2 := other.getMaxBounds
  decide (min1.x ≤ max2.x) && decide (max1.x ≥ min2.x) &&
    decide (min1.y ≤ max2.y) && decide (max1.y ≥ min2.y)

end Rectangle

/-! ## Circles (`Circle`) -/

/-- A `Circle`: an `AnimationObject` with the `Shape::m_size` member and the member
`m_radius`. -/
structure Circle (K : Type) extends AnimationObject K where
  size : Vec2 K
  m_radius : K

namespace Circle

variable {K : Type} [LinearOrderedField K]

/-- The method `Circle::setSize`: it stores the radius `min(width, height) / 2` and
calls `Shape::setSize(radius * 2, radius * 2)`, which stores the size and, through
`Shape::updateBounds`, sets the scale to `(size.x, size.y, 1)`. -/
def setSize (width height : K) (c : Circle K) : Circle K :=
  let radius := min width height * (1 / 2)
  let size : Vec2 K := ⟨radius * 2, radius * 2⟩
  { c with
    m_radius := radius
    size := size
    scale := ⟨size.x, size.y, 1⟩ }

/-- The constructor `Circle(x, y, radius)`: the base constructors, `m_radius(radius)`,
`setPosition(x, y, 0)` and `setSize(radius * 2, radius * 2)`. -/
def new (x y radius : K) : Circle K :=
  setSize (radius * 2) (radius * 2)
    { toAnimationObject :=
        { (AnimationObject.new : AnimationObject K) with position := ⟨x, y, 0⟩ }
      size := ⟨1, 1⟩
      m_radius := radius }

/-- The method `Circle::getRadius`. -/
def getRadius (c : Circle K) : K := c.m_radius

/-- The test `Circle::intersects` against another `Circle` (the `dynamic_cast`
succeeds). -/
def intersects (sqrt : K → K) (c otherCircle : Circle K) : Bool :=
  let pos1 := c.position
  let pos2 := otherCircle.position
  let distance := Vec3.length sqrt (Vec3.sub pos1 pos2)
  let radius1 := c.m_radius * c.scale.x
  let radius2 := otherCircle.getRadius * otherCircle.scale.x
  decide (distance < radius1 + radius2)

/-- The method `Circle::pointInside`. -/
def pointInside (c : Circle K) (x y : K) : Bool :=
  let pos := c.position
  let dx := x - pos.x
  let dy := y - pos.y
  let radius := c.m_radius * c.scale.x
  decide (dx * dx + dy * dy ≤ radius * radius)

end Circle

/-! ## The engine (`PhysicsEngine`) -/

/-- The private struct `PhysicsEngine::WallConstraint`. -/
structure WallConstraint (K : Type) where
  x : K
  y : K
  width : K
  height : K

/-- The members of `PhysicsEngine`; `physicsObjects` is the registry of handles. -/
structure PhysicsEngine (K : Type) where
  enabled : Bool
  collisionDetectionEnabled : Bool
  gravity : Vec3 K
  airResistance : K
  timeStep : K
  physicsObjects : List Nat
  groundConstraintEnabled : Bool
  groundY : K
  wallConstraints : List (WallConstraint K)

section Engine

variable {K : Type} [LinearOrderedField K]

/-- The constructor `PhysicsEngine::PhysicsEngine`. -/
def PhysicsEngine.new : PhysicsEngine K :=
  { enabled := false
    collisionDetectionEnabled := true
    gravity := ⟨0, -(981 / 100), 0⟩
    airResistance := 1 / 10
    timeStep := 1 / 60
    physicsObjects := []
    groundConstraintEnabled := false
    groundY := 0
    wallConstraints := [] }

/-- The method `PhysicsEngine::addGroundConstraint`. -/
def addGroundConstraint (e : PhysicsEngine K) (y : K) : PhysicsEngine K :=
  { e with groundConstraintEnabled := true, groundY := y }

/-- The method `PhysicsEngine::addWallConstraint`. -/
def addWallConstraint (e : PhysicsEngine K) (x y width height : K) : PhysicsEngine K :=
  { e with wallConstraints := e.wallConstraints ++ [⟨x, y, width, height⟩] }

/-- The method `PhysicsEngine::addObject` for a non-null pointer. -/
def addObject (e : PhysicsEngine K) (o : Nat) : PhysicsEngine K :=
  { e with physicsObjects := e.physicsObjects ++ [o] }

/-- The method `PhysicsEngine::updateObjectPhysics`. -/
def updateObjectPhysics (e : PhysicsEngine K) (o : Nat) (deltaTime : K) (h : Heap K) :
    Heap K :=
  if (h o).isStatic then h
  else
    let h1 :=
      if (h o).gravityAffected then
        let currentAccel := (h o).acceleration
        setAcceleration o (Vec3.add currentAccel e.gravity) h
      else h
    let currentVel := (h1 o).velocity
    let currentAccel := (h1 o).acceleration
    let newVel := Vec3.add currentVel (Vec3.smul currentAccel deltaTime)
    let newVel := Vec3.smul newVel (1 - e.airResistance * deltaTime)
    let h2 := setVelocity o newVel h1
    let currentPos := (h2 o).position
    let newPos := Vec3.add currentPos (Vec3.smul newVel deltaTime)
    let h3 := setPosition o newPos h2
    setAcceleration o Vec3.zero h3

/-- One pass of the wall loop of `applyConstraints` on the local copies
`(pos, vel, modified)`. -/
def applyWall (bounce : K) (acc : Vec3 K × Vec3 K × Bool) (wall : WallConstraint K) :
    Vec3 K × Vec3 K × Bool :=
  let (pos, vel, modified) := acc
  let (pos, vel, modified) :=
    if pos.x < wall.x then
      ({ pos with x := wall.x },
        (if vel.x < 0 then { vel with x := -vel.x * bounce } else vel), true)
    else (pos, vel, modified)
  let (pos, vel, modified) :=
    if pos.x > wall.x + wall.width then
      ({ pos with x := wall.x + wall.width },
        (if vel.x > 0 then { vel with x := -vel.x * bounce } else vel), true)
    else (pos, vel, modified)
  let (pos, vel, modified) :=
    if pos.y < wall.y then
      ({ pos with y := wall.y },
        (if vel.y < 0 then { vel with y := -vel.y * bounce } else vel), true)
    else (pos, vel, modified)
  if pos.y > wall.y + wall.height then
    ({ pos with y := wall.y + wall.height },
      (if vel.y > 0 then { vel with y := -vel.y * bounce } else vel), true)
  else (pos, vel, modified)

/-- The method `PhysicsEngine::applyConstraints`. -/
def applyConstraints (e : PhysicsEngine K) (o : Nat) (h : Heap K) : Heap K :=
  let pos := (h o).position
  let vel := (h o).velocity
  let (pos, vel, modified) :=
    if e.groundConstraintEnabled && decide (pos.y < e.groundY) then
      ({ pos with y := e.groundY },
        (if vel.y < 0 then { vel with y := -vel.y * (h o).bounce } else vel), true)
    else (pos, vel, false)
  let (pos, vel, modified) := e.wallConstraints.foldl (applyWall (h o).bounce) (pos, vel, modified)
  if modified then setVelocity o vel (setPosition o pos h) else h

/-- The ground block of `applyConstraints` on the local copies `pos`, `vel` and
`modified` (initially `false`). -/
def applyGround (e : PhysicsEngine K) (bounce : K) (pos vel : Vec3 K) : Vec3 K × Vec3 K × Bool :=
  if e.groundConstraintEnabled && decide (pos.y < e.groundY) then
    ({ pos with y := e.groundY },
      (if vel.y < 0 then { vel with y := -vel.y * bounce } else vel), true)
  else (pos, vel, false)

/-- The per-wall clamp in the words of the specification: each of `x` and `y` is
clamped to the nearest bound of the rectangle, `z` is kept.  It is compared with the
wall loop of `applyConstraints`, which is `applyWall`. -/
def clampToWall (pos : Vec3 K) (wall : WallConstraint K) : Vec3 K :=
  { x := max wall.x (min pos.x (wall.x + wall.width))
    y := max wall.y (min pos.y (wall.y + wall.height))
    z := pos.z }

/-- The method `PhysicsEngine::checkCollision`. -/
def checkCollision (sqrt : K → K) (obj1 obj2 : AnimationObject K) : Bool :=
  let pos1 := obj1.position
  let pos2 := obj2.position
  let distance := Vec3.length sqrt (Vec3.sub pos1 pos2)
  let radius1 := obj1.scale.x
  let radius2 := obj2.scale.x
  decide (distance < radius1 + radius2)

/-- The method `PhysicsEngine::resolveCollision`. -/
def resolveCollision (sqrt : K → K) (o1 o2 : Nat) (h : Heap K) : Heap K :=
  let pos1 := (h o1).position
  let pos2 := (h o2).position
  let vel1 := (h o1).velocity
  let vel2 := (h o2).velocity
  let normal := Vec3.normalize sqrt (Vec3.sub pos1 pos2)
  let overlap := Vec3.length sqrt (Vec3.sub pos1 pos2) - ((h o1).scale.x + (h o2).scale.x)
  let h1 :=
    if overlap < 0 then
      let separation := Vec3.smul normal (-overlap * (1 / 2))
      setPosition o2 (Vec3.sub pos2 separation) (setPosition o1 (Vec3.add pos1 separation) h)
    else h
  let mass1 := (h1 o1).mass
  let mass2 := (h1 o2).mass
  let relativeVel := Vec3.dot (Vec3.sub vel1 vel2) normal
  if relativeVel > 0 then h1
  else
    let restitution := min (h1 o1).bounce (h1 o2).bounce
    let impulse := -(1 + restitution) * relativeVel / (1 / mass1 + 1 / mass2)
    let impulseVec := Vec3.smul normal impulse
    let h2 :=
      if (h1 o1).isStatic then h1
      else setVelocity o1 (Vec3.add vel1 (Vec3.sdiv impulseVec mass1)) h1
    if (h2 o2).isStatic then h2
    else setVelocity o2 (Vec3.sub vel2 (Vec3.sdiv impulseVec mass2)) h2

/-- The method `PhysicsEngine::calculateCollisionNormal`; `resolveCollision` computes
the same vector as its local `normal`. -/
def calculateCollisionNormal (sqrt : K → K) (obj1 obj2 : AnimationObject K) : Vec3 K :=
  let pos1 := obj1.position
  let pos2 := obj2.position
  Vec3.normalize sqrt (Vec3.sub pos1 pos2)

/-- The local `overlap` of `resolveCollision`, as a function of the two objects. -/
def overlapOf (sqrt : K → K) (obj1 obj2 : AnimationObject K) : K :=
  Vec3.length sqrt (Vec3.sub obj1.position obj2.position) - (obj1.scale.x + obj2.scale.x)

/-- The local `relativeVel` of `resolveCollision`, as a function of the two objects. -/
def relativeVelOf (sqrt : K → K) (obj1 obj2 : AnimationObject K) : K :=
  Vec3.dot (Vec3.sub obj1.velocity obj2.velocity) (calculateCollisionNormal sqrt obj1 obj2)

/-- The local `impulse` of `resolveCollision`, as a function of the two objects. -/
def impulseOf (sqrt : K → K) (obj1 obj2 : AnimationObject K) : K :=
  -(1 + min obj1.bounce obj2.bounce) * relativeVelOf sqrt obj1 obj2
    / (1 / obj1.mass + 1 / obj2.mass)

/-- The body of the inner loop of `updateCollisions` for the index pair `(i, j)`. -/
def collidePair (sqrt : K → K) (e : PhysicsEngine K) (i : Nat) (h : Heap K) (j : Nat) :
    Heap K :=
  let obj1 := e.physicsObjects.getD i 0
  let obj2 := e.physicsObjects.getD j 0
  if checkCollision sqrt (h obj1) (h obj2) then resolveCollision sqrt obj1 obj2 h else h

/-- The method `PhysicsEngine::updateCollisions`: all index pairs `i < j` of the
registry, `i` ascending and, for each `i`, `j` ascending. -/
def updateCollisions (sqrt : K → K) (e : PhysicsEngine K) (h : Heap K) : Heap K :=
  let n := e.physicsObjects.length
  (List.range n).foldl
    (fun h i => (List.range' (i + 1) (n - (i + 1))).foldl (collidePair sqrt e i) h) h

/-- The first loop of `PhysicsEngine::step`: integrate every registered non-static
object, in registration order. -/
def integrateAll (e : PhysicsEngine K) (deltaTime : K) (h : Heap K) : Heap K :=
  e.physicsObjects.foldl
    (fun h o => if (h o).isStatic then h else updateObjectPhysics e o deltaTime h) h

/-- The last loop of `PhysicsEngine::step`: apply the constraints to every registered
object, in registration order. -/
def constrainAll (e : PhysicsEngine K) (h : Heap K) : Heap K :=
  e.physicsObjects.foldl (fun h o => applyConstraints e o h) h

/-- The method `PhysicsEngine::step`. -/
def step (sqrt : K → K) (e : PhysicsEngine K) (deltaTime : K) (h : Heap K) : Heap K :=
  let h1 := integrateAll e deltaTime h
  let h2 := if e.collisionDetectionEnabled then updateCollisions sqrt e h1 else h1
  constrainAll e h2

/-- The `while` loop of `PhysicsEngine::update`, with a bound `fuel` on the number
of iterations: `none` when the bound is reached, otherwise the remaining time and
the heap at loop exit.  The subtraction `remainingTime -= m_timeStep` is exact here;
`updateLoop32` is the loop with the rounded binary32 subtraction. -/
def updateLoop (sqrt : K → K) (e : PhysicsEngine K) : Nat → K → Heap K → Option (K × Heap K)
  | 0, _, _ => none
  | fuel + 1, remainingTime, h =>
    if remainingTime ≥ e.timeStep then
      updateLoop sqrt e fuel (remainingTime - e.timeStep) (step sqrt e e.timeStep h)
    else some (remainingTime, h)

/-- The method `PhysicsEngine::update`; `none` when the loop did not finish within
`fuel` iterations. -/
def update (sqrt : K → K) (e : PhysicsEngine K) (fuel : Nat) (deltaTime : K) (h : Heap K) :
    Option (Heap K) :=
  if !e.enabled then some h
  else
    match updateLoop sqrt e fuel deltaTime h with
    | none => none
    | some (remainingTime, h1) =>
      if remainingTime > 0 then some (step sqrt e remainingTime h1) else some h1

/-- The `n` successive calls `update(deltaTime); ...; update(deltaTime)`, each with
the iteration bound `fuel`. -/
def updateTimes (sqrt : K → K) (e : PhysicsEngine K) (fuel : Nat) (deltaTime : K) :
    Nat → Heap K → Option (Heap K)
  | 0, h => some h
  | n + 1, h => (update sqrt e fuel deltaTime h).bind (updateTimes sqrt e fuel deltaTime n)

/-- The method `PhysicsEngine::setEnabled`. -/
def setEnabled (e : PhysicsEngine K) (enabled : Bool) : PhysicsEngine K :=
  { e with enabled := enabled }

/-- The method `PhysicsEngine::setGravity`. -/
def setGravity (e : PhysicsEngine K) (gravity : Vec3 K) : PhysicsEngine K :=
  { e with gravity := gravity }

/-- The method `PhysicsEngine::setAirResistance`. -/
def setAirResistance (e : PhysicsEngine K) (resistance : K) : PhysicsEngine K :=
  { e with airResistance := max 0 (min 1 resistance) }

/-- The method `PhysicsEngine::setTimeStep`. -/
def setTimeStep (e : PhysicsEngine K) (timeStep : K) : PhysicsEngine K :=
  { e with timeStep := max (1 / 1000) timeStep }

/-- The method `PhysicsEngine::removeObject` for a non-null pointer: every entry equal
to `o` leaves the registry. -/
def removeObject (e : PhysicsEngine K) (o : Nat) : PhysicsEngine K :=
  { e with physicsObjects := e.physicsObjects.filter (fun obj => !(obj == o)) }

/-- The method `PhysicsEngine::clearObjects`. -/
def clearObjects (e : PhysicsEngine K) : PhysicsEngine K :=
  { e with physicsObjects := [] }

/-- The method `PhysicsEngine::enableCollisionDetection`. -/
def enableCollisionDetection (e : PhysicsEngine K) (enable : Bool) : PhysicsEngine K :=
  { e with collisionDetectionEnabled := enable }

/-- The method `PhysicsEngine::applyForce`; `obj` is `none` for a null pointer. -/
def applyForce (obj : Option Nat) (force : Vec3 K) (h : Heap K) : Heap K :=
  match obj with
  | some o =>
    if (h o).isStatic then h
    else
      let currentAccel := (h o).acceleration
      setAcceleration o (Vec3.add currentAccel (Vec3.sdiv force (h o).mass)) h
  | none => h

/-- The method `PhysicsEngine::getObjectsInArea`: the loop appends to `result`; the
engine and the objects are only read. -/
def getObjectsInArea (sqrt : K → K) (e : PhysicsEngine K) (center : Vec3 K) (radius : K)
    (h : Heap K) : List Nat :=
  e.physicsObjects.foldl
    (fun result obj =>
      let pos := (h obj).position
      let distance := Vec3.length sqrt (Vec3.sub pos center)
      if distance ≤ radius then result ++ [obj] else result) []

/-- The method `PhysicsEngine::getObjectsInBox`: the loop appends to `result`; the
engine and the objects are only read. -/
def getObjectsInBox (e : PhysicsEngine K) (min max : Vec3 K) (h : Heap K) : List Nat :=
  e.physicsObjects.foldl
    (fun result obj =>
      let pos := (h obj).position
      if pos.x ≥ min.x ∧ pos.x ≤ max.x ∧ pos.y ≥ min.y ∧ pos.y ≤ max.y ∧
          pos.z ≥ min.z ∧ pos.z ≤ max.z then result ++ [obj]
      else result) []

end Engine

/-- One call of a public method of `PhysicsEngine` that changes the engine. -/
inductive EngineOp (K : Type) where
  | setEnabled (enabled : Bool)
  | setGravity (gravity : Vec3 K)
  | setAirResistance (resistance : K)
  | setTimeStep (timeStep : K)
  | addObject (obj : Nat)
  | removeObject (obj : Nat)
  | clearObjects
  | enableCollisionDetection (enable : Bool)
  | addGroundConstraint (y : K)
  | addWallConstraint (x y width height : K)

/-- The effect of one public call on the engine. -/
def EngineOp.apply {K : Type} [LinearOrderedField K] (e : PhysicsEngine K) :
    EngineOp K → PhysicsEngine K
  | .setEnabled enabled => Kalem.setEnabled e enabled
  | .setGravity gravity => Kalem.setGravity e gravity
  | .setAirResistance resistance => Kalem.setAirResistance e resistance
  | .setTimeStep timeStep => Kalem.setTimeStep e timeStep
  | .addObject obj => Kalem.addObject e obj
  | .removeObject obj => Kalem.removeObject e obj
  | .clearObjects => Kalem.clearObjects e
  | .enableCollisionDetection enable => Kalem.enableCollisionDetection e enable
  | .addGroundConstraint y => Kalem.addGroundConstraint e y
  | .addWallConstraint x y width height => Kalem.addWallConstraint e x y width height

/-- The engine reached from `e` by a sequence of public calls, first call first. -/
def PhysicsEngine.run {K : Type} [LinearOrderedField K] (e : PhysicsEngine K)
    (ops : List (EngineOp K)) : PhysicsEngine K :=
  ops.foldl EngineOp.apply e

/-! ## The timeline (`Timeline`) -/

/-- The private struct `Timeline::Marker`. -/
structure Marker (K : Type) where
  time : K
  name : String

/-- The private struct `Timeline::TimeCallback`.  A `std::function<void(float)>` is
either empty (`none`) or a function, named by a number; calling it is recorded in
`Timeline.invoked`. -/
structure TimeCallback (K : Type) where
  time : K
  callback : Option Nat

/-- The members of `Timeline`, and the record `invoked` of the callback calls made so
far: each entry is the called function and its argument, oldest first. -/
@[ext]
structure Timeline (K : Type) where
  m_isPlaying : Bool
  m_isPaused : Bool
  m_currentTime : K
  m_duration : K
  m_timeScale : K
  m_markers : List (Marker K)
  m_callbacks : List (TimeCallback K)
  invoked : List (Nat × K)

namespace Timeline

variable {K : Type} [LinearOrderedField K]

/-- The constructor `Timeline::Timeline`. -/
def new : Timeline K :=
  { m_isPlaying := false
    m_isPaused := false
    m_currentTime := 0
    m_duration := 0
    m_timeScale := 1
    m_markers := []
    m_callbacks := []
    invoked := [] }

/-- The method `Timeline::play`. -/
def play (t : Timeline K) : Timeline K :=
  { t with m_isPlaying := true, m_isPaused := false }

/-- The method `Timeline::pause`. -/
def pause (t : Timeline K) : Timeline K :=
  { t with m_isPaused := true, m_isPlaying := false }

/-- The method `Timeline::reset`. -/
def reset (t : Timeline K) : Timeline K :=
  { t with m_currentTime := 0, m_isPlaying := false, m_isPaused := false }

/-- The method `Timeline::stop`. -/
def stop (t : Timeline K) : Timeline K :=
  { t with m_isPlaying := false, m_isPaused := false, m_currentTime := 0 }

/-- The method `Timeline::setTimeScale`. -/
def setTimeScale (scale : K) (t : Timeline K) : Timeline K :=
  { t with m_timeScale := scale }

/-- The method `Timeline::setCurrentTime`. -/
def setCurrentTime (time : K) (t : Timeline K) : Timeline K :=
  { t with m_currentTime := max 0 (min time t.m_duration) }

/-- The method `Timeline::setDuration`. -/
def setDuration (duration : K) (t : Timeline K) : Timeline K :=
  let t1 := { t with m_duration := max 0 duration }
  if t1.m_currentTime > t1.m_duration then { t1 with m_currentTime := t1.m_duration } else t1

/-- The method `Timeline::isPlaying`. -/
def isPlaying (t : Timeline K) : Bool := t.m_isPlaying && !t.m_isPaused

/-- The method `Timeline::isPaused`. -/
def isPaused (t : Timeline K) : Bool := t.m_isPaused

/-- The method `Timeline::isStopped`. -/
def isStopped (t : Timeline K) : Bool := !t.m_isPlaying && !t.m_isPaused

/-- The body of the loop of `Timeline::checkCallbacks` for one registered callback. -/
def checkCallback (t : Timeline K) (cb : TimeCallback K) : Timeline K :=
  if t.m_currentTime ≥ cb.time then
    match cb.callback with
    | some f => { t with invoked := t.invoked ++ [(f, t.m_currentTime)] }
    | none => t
  else t

/-- The method `Timeline::checkCallbacks`. -/
def checkCallbacks (t : Timeline K) : Timeline K :=
  t.m_callbacks.foldl checkCallback t

/-- The method `Timeline::update`. -/
def update (deltaTime : K) (t : Timeline K) : Timeline K :=
  if t.m_isPlaying && !t.m_isPaused then
    let t1 := { t with m_currentTime := t.m_currentTime + deltaTime * t.m_timeScale }
    let t2 :=
      if t1.m_currentTime ≥ t1.m_duration ∧ t1.m_duration > 0 then
        { t1 with m_currentTime := t1.m_duration, m_isPlaying := false }
      else t1
    checkCallbacks t2
  else t

/-- The method `Timeline::sortMarkers`; `sort` stands for `std::sort` with the
comparator `a.time < b.time`. -/
def sortMarkers (sort : List (Marker K) → List (Marker K)) (t : Timeline K) : Timeline K :=
  { t with m_markers := sort t.m_markers }

/-- The method `Timeline::addMarker`. -/
def addMarker (sort : List (Marker K) → List (Marker K)) (time : K) (name : String)
    (t : Timeline K) : Timeline K :=
  sortMarkers sort { t with m_markers := t.m_markers ++ [{ time := time, name := name }] }

/-- The method `Timeline::removeMarker`. -/
def removeMarker (name : String) (t : Timeline K) : Timeline K :=
  { t with m_markers := t.m_markers.filter (fun marker => !(marker.name == name)) }

/-- The method `Timeline::jumpToMarker`. -/
def jumpToMarker (name : String) (t : Timeline K) : Timeline K :=
  match t.m_markers.find? (fun marker => marker.name == name) with
  | some marker => setCurrentTime marker.time t
  | none => t

/-- The method `Timeline::addTimeCallback`. -/
def addTimeCallback (time : K) (callback : Option Nat) (t : Timeline K) : Timeline K :=
  { t with m_callbacks := t.m_callbacks ++ [{ time := time, callback := callback }] }

/-- The method `Timeline::removeTimeCallback`. -/
def removeTimeCallback (time : K) (t : Timeline K) : Timeline K :=
  { t with m_callbacks := t.m_callbacks.filter (fun callback => !decide (callback.time = time)) }

end Timeline

/-- One call of a public operation of `Timeline`. -/
inductive TimelineOp (K : Type) where
  | play
  | pause
  | reset
  | stop
  | setTimeScale (scale : K)
  | setCurrentTime (time : K)
  | setDuration (duration : K)
  | update (deltaTime : K)
  | addMarker (time : K) (name : String)
  | removeMarker (name : String)
  | jumpToMarker (name : String)
  | addTimeCallback (time : K) (callback : Option Nat)
  | removeTimeCallback (time : K)

section TimelineRuns

variable {K : Type} [LinearOrderedField K]

/-- The effect of one public call on a timeline. -/
def TimelineOp.apply (sort : List (Marker K) → List (Marker K)) (t : Timeline K) :
    TimelineOp K → Timeline K
  | .play => t.play
  | .pause => t.pause
  | .reset => t.reset
  | .stop => t.stop
  | .setTimeScale scale => t.setTimeScale scale
  | .setCurrentTime time => t.setCurrentTime time
  | .setDuration duration => t.setDuration duration
  | .update deltaTime => t.update deltaTime
  | .addMarker time name => t.addMarker sort time name
  | .removeMarker name => t.removeMarker name
  | .jumpToMarker name => t.jumpToMarker name
  | .addTimeCallback time callback => t.addTimeCallback time callback
  | .removeTimeCallback time => t.removeTimeCallback time

/-- The timeline reached from `t` by a sequence of public calls, first call first. -/
def Timeline.run (sort : List (Marker K) → List (Marker K)) (t : Timeline K)
    (ops : List (TimelineOp K)) : Timeline K :=
  ops.foldl (TimelineOp.apply sort) t

/-- The order of markers that `std::sort` establishes with the comparator
`a.time < b.time`: no later marker has a smaller time. -/
def Marker.le (a b : Marker K) : Prop := a.time ≤ b.time

/-- The contract of `std::sort`: the result is a rearrangement of the input and is
ordered. -/
def IsSort (sort : List (Marker K) → List (Marker K)) : Prop :=
  ∀ l, (sort l).Perm l ∧ (sort l).Sorted Marker.le

/-- The markers "added and not since removed by name" of a sequence of calls, in the
words of the specification: `addMarker` appends, `removeMarker` drops the name. -/
def markersOf (l : List (Marker K)) : List (TimelineOp K) → List (Marker K)
  | [] => l
  | .addMarker time name :: ops => markersOf (l ++ [{ time := time, name := name }]) ops
  | .removeMarker name :: ops => markersOf (l.filter (fun marker => !(marker.name == name))) ops
  | _ :: ops => markersOf l ops

/-- The statement "each of the updates `dts`, made one after the other from `t`, is
made in state Playing and ends with a current time that has reached `time`". -/
def PlayingPast (time : K) : List K → Timeline K → Prop
  | [], _ => True
  | dt :: dts, t =>
    t.isPlaying = true ∧ time ≤ (t.update dt).m_currentTime ∧ PlayingPast time dts (t.update dt)

/-- The calls that one `checkCallbacks` makes at current time `now`, in the words of
the specification: the registered callbacks whose trigger time is `≤ now`, in
registration order, each with `now` as argument (an empty function is not called). -/
def firedAt (now : K) (callbacks : List (TimeCallback K)) : List (Nat × K) :=
  callbacks.filterMap
    (fun cb => if cb.time ≤ now then cb.callback.map (fun f => (f, now)) else none)

/-- The consecutive calls `update(dt)` for `dt` in `dts`. -/
def Timeline.updates (t : Timeline K) (dts : List K) : Timeline K :=
  dts.foldl (fun t dt => t.update dt) t

end TimelineRuns

/-! ## Object attributes and animation progress (`AnimationObject`) -/

namespace AnimationObject

variable {K : Type} [LinearOrderedField K]

/-- The method `AnimationObject::setMass`. -/
def setMass (mass : K) (obj : AnimationObject K) : AnimationObject K :=
  { obj with mass := max (1 / 1000) mass }

/-- The method `AnimationObject::setBounce`. -/
def setBounce (bounce : K) (obj : AnimationObject K) : AnimationObject K :=
  { obj with bounce := max 0 (min 1 bounce) }

/-- The method `AnimationObject::setFriction`. -/
def setFriction (friction : K) (obj : AnimationObject K) : AnimationObject K :=
  { obj with friction := max 0 (min 1 friction) }

/-- The method `AnimationObject::setOpacity`. -/
def setOpacity (opacity : K) (obj : AnimationObject K) : AnimationObject K :=
  { obj with opacity := max 0 (min 1 opacity) }

/-- The method `AnimationObject::setAnimationProgress`. -/
def setAnimationProgress (progress : K) (obj : AnimationObject K) : AnimationObject K :=
  { obj with animationProgress := max 0 (min 1 progress) }

/-- The method `AnimationObject::internalUpdate` (the base implementation). -/
def internalUpdate (deltaTime : K) (obj : AnimationObject K) : AnimationObject K :=
  if obj.animationProgress < 1 then
    let obj1 := { obj with animationProgress := obj.animationProgress + deltaTime * (1 / 2) }
    if obj1.animationProgress ≥ 1 then { obj1 with animationProgress := 1 } else obj1
  else obj

end AnimationObject

/-- One call of an attribute setter of `AnimationObject`. -/
inductive AttributeOp (K : Type) where
  | setMass (mass : K)
  | setBounce (bounce : K)
  | setFriction (friction : K)
  | setOpacity (opacity : K)

/-- One call that touches the animation progress of an `AnimationObject`: the setter,
or `update(deltaTime)`, whose `internalUpdate` advances the progress. -/
inductive ProgressOp (K : Type) where
  | setAnimationProgress (progress : K)
  | update (deltaTime : K)

section ObjectRuns

variable {K : Type} [LinearOrderedField K]

/-- The effect of one attribute setter call. -/
def AttributeOp.apply (obj : AnimationObject K) : AttributeOp K → AnimationObject K
  | .setMass mass => obj.setMass mass
  | .setBounce bounce => obj.setBounce bounce
  | .setFriction friction => obj.setFriction friction
  | .setOpacity opacity => obj.setOpacity opacity

/-- The effect of one progress call on the object. -/
def ProgressOp.apply (obj : AnimationObject K) : ProgressOp K → AnimationObject K
  | .setAnimationProgress progress => obj.setAnimationProgress progress
  | .update deltaTime => obj.internalUpdate deltaTime

/-- The requirement `dt ≥ 0` on the `update` calls of a sequence. -/
def ProgressOp.Forward : ProgressOp K → Prop
  | .setAnimationProgress _ => True
  | .update deltaTime => 0 ≤ deltaTime

end ObjectRuns

/-! ## The convenience API (`EasyAPI.cpp`) -/

/-- An animation function `std::function<void(AnimationObject*, float)>`: its
arguments are the object pointer (`none` for `nullptr`), the progress, and the heap
it acts on. -/
abbrev Animation (K : Type) := Option Nat → K → Heap K → Heap K

/-- What the convenience API touches: the objects, the progress callback
`m_animationCallback` stored on each object, and the timeline and running flag of
the engine. -/
structure ApiState (K : Type) where
  heap : Heap K
  callbacks : Nat → Option (K → Heap K → Heap K)
  timeline : Timeline K
  isRunning : Bool

section Api

variable {K : Type} [LinearOrderedField K]

/-- The call `obj->setRotation(r)` on the object behind handle `o`. -/
def setRotation (o : Nat) (r : Vec3 K) (h : Heap K) : Heap K :=
  Heap.set h o { h o with rotation := r }

/-- The call `obj->setScale(s)` on the object behind handle `o`. -/
def setScale (o : Nat) (s : Vec3 K) (h : Heap K) : Heap K :=
  Heap.set h o { h o with scale := s }

/-- The function `move_to`. -/
def move_to (x y : K) : Animation K := fun obj progress h =>
  match obj with
  | some o =>
    let startPos := (h o).position
    let endPos : Vec3 K := ⟨x, y, startPos.z⟩
    let newPos := Vec3.add startPos (Vec3.smul (Vec3.sub endPos startPos) progress)
    setPosition o newPos h
  | none => h

/-- The function `rotate_to`. -/
def rotate_to (angle : K) : Animation K := fun obj progress h =>
  match obj with
  | some o =>
    let rotation := (h o).rotation
    let startAngle := rotation.z
    let endAngle := angle
    let newAngle := startAngle + (endAngle - startAngle) * progress
    setRotation o ⟨rotation.x, rotation.y, newAngle⟩ h
  | none => h

/-- The function `scale_to`. -/
def scale_to (factor : K) : Animation K := fun obj progress h =>
  match obj with
  | some o =>
    let scale := (h o).scale
    let startScale := scale
    let endScale : Vec3 K := ⟨factor, factor, factor⟩
    let newScale := Vec3.add startScale (Vec3.smul (Vec3.sub endScale startScale) progress)
    setScale o newScale h
  | none => h

/-- The conversion `static_cast<int>(x)` of a `float`: truncation towards zero (values
outside the range of `int` are not modelled). -/
def truncToInt [FloorRing K] (x : K) : Int := if 0 ≤ x then ⌊x⌋ else ⌈x⌉

/-- The function `sequence`.  The test `currentSegment < animations.size()` compares
an `int` with an unsigned size, so a negative `currentSegment` fails it.  The
divisions, the product and the difference are exact here; `sequence32` is the
function with the rounded binary32 operations. -/
def sequence [FloorRing K] (animations : List (Animation K)) : Animation K :=
  fun obj progress h =>
    if animations.isEmpty then h
    else
      let segmentSize : K := 1 / (animations.length : K)
      let currentSegment : Int := truncToInt (progress / segmentSize)
      let segmentProgress := (progress - (currentSegment : K) * segmentSize) / segmentSize
      if 0 ≤ currentSegment ∧ currentSegment.toNat < animations.length then
        match animations[currentSegment.toNat]? with
        | some animation => animation obj segmentProgress h
        | none => h
      else h

/-- The method `AnimationEngine::play`. -/
def enginePlay (s : ApiState K) : ApiState K :=
  { s with isRunning := true, timeline := s.timeline.play }

/-- The function `animate`; `obj` is `none` for a null pointer and `animation` is
`none` for an empty `std::function`. -/
def animate (obj : Option Nat) (animation : Option (Animation K)) (_duration : K)
    (s : ApiState K) : ApiState K :=
  match obj, animation with
  | some o, some a =>
    enginePlay
      { s with
        callbacks := fun i => if i = o then some (fun progress h => a none progress h)
          else s.callbacks i }
  | _, _ => s

/-- The function `parallel`. -/
def parallel (objects : List (Option Nat)) (animations : List (Option (Animation K)))
    (duration : K) (s : ApiState K) : ApiState K :=
  if objects.length ≠ animations.length then s
  else
    (List.range objects.length).foldl
      (fun s i => animate (objects.getD i none) (animations.getD i none) duration s) s

/-- The method `AnimationObject::update` on the object behind handle `o`:
`internalUpdate`, then the stored progress callback, if any, with the progress. -/
def objectUpdate (o : Nat) (deltaTime : K) (s : ApiState K) : ApiState K :=
  let h1 := s.heap.set o ((s.heap o).internalUpdate deltaTime)
  match s.callbacks o with
  | some callback => { s with heap := callback (h1 o).animationProgress h1 }
  | none => { s with heap := h1 }

/-- The consecutive calls `obj->update(dt)` for `dt` in `dts`. -/
def objectUpdates (o : Nat) (dts : List K) (s : ApiState K) : ApiState K :=
  dts.foldl (fun s dt => objectUpdate o dt s) s

/-- The successive evaluations of an animation on the object behind `o` at the
progress values `ps`, first value first. -/
def evaluations (animation : Animation K) (o : Nat) (ps : List K) (h : Heap K) : Heap K :=
  ps.foldl (fun h progress => animation (some o) progress h) h

/-- The function `apply_force`; `obj` is `none` for a null pointer. -/
def apply_force (obj : Option Nat) (fx fy : K) (h : Heap K) : Heap K :=
  match obj with
  | some o =>
    let currentAccel := (h o).acceleration
    setAcceleration o ⟨currentAccel.x + fx, currentAccel.y + fy, currentAccel.z⟩ h
  | none => h

end Api

/-- The members of `AnimationEngine` that its time scale touches: the running flag,
the member `m_timeScale` and the timeline. -/
structure AnimationEngine (K : Type) where
  m_isRunning : Bool
  m_timeScale : K
  m_timeline : Timeline K

namespace AnimationEngine

variable {K : Type} [LinearOrderedField K]

/-- The constructor `AnimationEngine::AnimationEngine`. -/
def new : AnimationEngine K :=
  { m_isRunning := false, m_timeScale := 1, m_timeline := Timeline.new }

/-- The method `AnimationEngine::play`. -/
def play (e : AnimationEngine K) : AnimationEngine K :=
  { e with m_isRunning := true, m_timeline := e.m_timeline.play }

/-- The method `AnimationEngine::setTimeScale`. -/
def setTimeScale (scale : K) (e : AnimationEngine K) : AnimationEngine K :=
  let e1 := { e with m_timeScale := scale }
  { e1 with m_timeline := e1.m_timeline.setTimeScale scale }

/-- The method `AnimationEngine::update`, its first statement
`m_timeline->update(dt * m_timeScale)`; the statements after it (physics, scene,
rendering, input) do not touch the timeline or the time scale. -/
def update (dt : K) (e : AnimationEngine K) : AnimationEngine K :=
  { e with m_timeline := e.m_timeline.update (dt * e.m_timeScale) }

/-- The function `set_speed` on the global engine. -/
def set_speed (scale : K) (e : AnimationEngine K) : AnimationEngine K :=
  e.setTimeScale scale

end AnimationEngine

/-! ## Binary32 arithmetic (`float`) for the loop of `update` and for `sequence` -/

/-- A finite `float` (IEEE 754 binary32).  Every finite binary32 value is a multiple of
the smallest subnormal `2^-149`; `units` is that multiple, so the value is
`units * 2^-149`.  Infinities and NaN are outside the model.  Each operation below
rounds its exact result once, to nearest with ties to even, as the code does when
every `float` operation is carried out in binary32 on its own (no fused
multiply-add, no extended precision). -/
structure F32 where
  units : Int
deriving DecidableEq

namespace F32

/-- The number of halvings that bring `q` below `2^24`, the size of a binary32
significand; `fuel` bounds the count. -/
def excess : Nat → Nat → Nat
  | 0, _ => 0
  | fuel + 1, q => if q < 2 ^ 24 then 0 else excess fuel (q / 2) + 1

/-- Round-to-nearest, ties to the even significand, of the non-negative number `a / d`
counted in units of `2^-149`: with `s` the number of binary digits of `a / d` beyond
24, the result is the multiple of `2^s` nearest to `a / d`.  Overflow to infinity is
not modelled (the values stay below `2^128`). -/
def roundNat (a d : Nat) : Nat :=
  let s := excess (a / d) (a / d)
  let g := d * 2 ^ s
  let m := a / g
  let r := a % g
  (if 2 * r > g ∨ (2 * r = g ∧ m % 2 = 1) then m + 1 else m) * 2 ^ s

/-- The binary32 value nearest to `n / d` units; rounding is symmetric in the sign. -/
def round (n : Int) (d : Nat) : F32 :=
  ⟨if n < 0 then -(roundNat n.natAbs d : Int) else (roundNat n.natAbs d : Int)⟩

/-- The conversion of an `int` to `float`. -/
def ofInt (n : Int) : F32 := round (n * ((2 ^ 149 : Nat) : Int)) 1

/-- The conversion of a `size_t` to `float`, and the literals `1.0f`, `60.0f`. -/
def ofNat (n : Nat) : F32 := ofInt n

/-- The `float` difference `x - y`: the exact difference, rounded. -/
def sub (x y : F32) : F32 := round (x.units - y.units) 1

/-- The `float` product `x * y`: the exact product, rounded. -/
def mul (x y : F32) : F32 := round (x.units * y.units) (2 ^ 149)

/-- The `float` quotient `x / y` for `y ≠ 0`: the exact quotient, rounded. -/
def div (x y : F32) : F32 :=
  round
    (if y.units < 0 then -(x.units * ((2 ^ 149 : Nat) : Int)) else x.units * ((2 ^ 149 : Nat) : Int))
    y.units.natAbs

/-- The conversion `static_cast<int>(x)`: truncation towards zero (values outside the
range of `int` are not modelled). -/
def toInt (x : F32) : Int :=
  if x.units < 0 then -((x.units.natAbs / 2 ^ 149 : Nat) : Int)
  else ((x.units.natAbs / 2 ^ 149 : Nat) : Int)

/-- The rational number a binary32 value stands for. -/
def toRat (x : F32) : ℚ := (x.units : ℚ) / 2 ^ 149

end F32

/-- The `while` loop of `PhysicsEngine::update` with `remainingTime` and `m_timeStep`
as binary32 values: the comparison is exact and `remainingTime -= m_timeStep` is
rounded.  `step` is the effect of the call `step(dt)` on a state of type `σ`; `fuel`
bounds the number of iterations, `none` when the bound is reached. -/
def updateLoop32 {σ : Type} (step : F32 → σ → σ) (m_timeStep : F32) :
    Nat → F32 → σ → Option (F32 × σ)
  | 0, _, _ => none
  | fuel + 1, remainingTime, s =>
    if remainingTime.units ≥ m_timeStep.units then
      updateLoop32 step m_timeStep fuel (F32.sub remainingTime m_timeStep) (step m_timeStep s)
    else some (remainingTime, s)

/-- The method `PhysicsEngine::update` with binary32 times; `none` when the loop did
not finish within `fuel` iterations. -/
def update32 {σ : Type} (step : F32 → σ → σ) (m_enabled : Bool) (m_timeStep : F32) (fuel : Nat)
    (deltaTime : F32) (s : σ) : Option σ :=
  if !m_enabled then some s
  else
    match updateLoop32 step m_timeStep fuel deltaTime s with
    | none => none
    | some (remainingTime, s1) =>
      if remainingTime.units > 0 then some (step remainingTime s1) else some s1

/-- The time step the constructor stores, `m_timeStep(1.0f / 60.0f)`, in binary32. -/
def defaultTimeStep32 : F32 := F32.div (F32.ofNat 1) (F32.ofNat 60)

/-- An animation function with a binary32 progress, acting on a state of type `σ`. -/
abbrev Animation32 (σ : Type) := Option Nat → F32 → σ → σ

/-- The function `sequence` with binary32 arithmetic: `1.0f / animations.size()`,
`progress / segmentSize`, `currentSegment * segmentSize`, the difference and the last
quotient are each rounded. -/
def sequence32 {σ : Type} (animations : List (Animation32 σ)) : Animation32 σ :=
  fun obj progress s =>
    if animations.isEmpty then s
    else
      let segmentSize := F32.div (F32.ofNat 1) (F32.ofNat animations.length)
      let currentSegment : Int := F32.toInt (F32.div progress segmentSize)
      let segmentProgress :=
        F32.div (F32.sub progress (F32.mul (F32.ofInt currentSegment) segmentSize)) segmentSize
      if 0 ≤ currentSegment ∧ currentSegment.toNat < animations.length then
        match animations[currentSegment.toNat]? with
        | some animation => animation obj segmentProgress s
        | none => s
      else s

/-! ## Concrete objects used in the evaluations -/

/-- A non-static ball at `(x, y, 0)` with velocity `(vx, vy, 0)`, radius (`scale.x`)
`r`, mass `m` and bounce `b`. -/
def ball (x y vx vy r m b : ℚ) : AnimationObject ℚ :=
  { (AnimationObject.new : AnimationObject ℚ) with
    position := ⟨x, y, 0⟩
    velocity := ⟨vx, vy, 0⟩
    scale := ⟨r, r, 1⟩
    mass := m
    bounce := b }

/-- A heap with `a` behind handle `0` and `b` behind every other handle. -/
def heap2 (a b : AnimationObject ℚ) : Heap ℚ := ⟨fun i => if i = 0 then a else b⟩

/-- An enabled engine with default gravity, drag and time step, the ground
constraint at `y = 0` and the handles `0` and `1` registered. -/
def demoEngine : PhysicsEngine ℚ :=
  { addGroundConstraint (addObject (addObject PhysicsEngine.new 0) 1) 0 with enabled := true }

/-- A gravity-affected ball at `(0, 10, 0)` moving right behind handle `0`, a ball
at rest at `(5, 5, 0)` behind the other handles. -/
def demoHeap : Heap ℚ :=
  heap2 { ball 0 10 1 0 1 1 0 with gravityAffected := true } (ball 5 5 0 0 1 1 0)

/-- Two unit balls of mass 1 and bounce 1 on the x axis, `3/2` apart, moving towards
each other with velocities `2` and `-1`. -/
def headOnHeap : Heap ℚ := heap2 (ball 0 0 2 0 1 1 1) (ball (3 / 2) 0 (-1) 0 1 1 1)

/-- The pair of `headOnHeap` with masses 2 and 3 and bounces `1/2` and `4/5`. -/
def unequalHeap : Heap ℚ :=
  heap2 (ball 0 0 2 0 1 2 (1 / 2)) (ball (3 / 2) 0 (-1) 0 1 3 (4 / 5))

/-- Two overlapping unit balls on the x axis, 1 apart, moving away from each other. -/
def separatingHeap : Heap ℚ := heap2 (ball 0 0 (-1) 0 1 1 0) (ball 1 0 1 0 1 1 0)

/-- A static unit ball at the origin overlapped by a non-static unit ball at
`(1, 0, 0)`, both at rest. -/
def staticHeap : Heap ℚ :=
  heap2 { ball 0 0 0 0 1 1 0 with isStatic := true } (ball 1 0 0 0 1 1 0)

/-- The rectangle `Rectangle(0, 0, 1, 1)`. -/
def rectA : Rectangle ℚ := Rectangle.new 0 0 1 1

/-- The rectangle `Rectangle(3/2, 0, 1, 1)`. -/
def rectB : Rectangle ℚ := Rectangle.new (3 / 2) 0 1 1

/-- The heap with `rectA` behind handle `0` and `rectB` behind the other handles. -/
def rectHeap : Heap ℚ := heap2 rectA.toAnimationObject rectB.toAnimationObject

/-- A fresh engine with the handles `0` and `1` registered. -/
def rectEngine : PhysicsEngine ℚ := addObject (addObject PhysicsEngine.new 0) 1

/-- A static ball sunk to `y = -1` behind handle `0`, a ball at `(5, 5, 0)` behind the
other handles. -/
def sunkHeap : Heap ℚ :=
  heap2 { ball 0 (-1) 0 (-2) 1 1 (4 / 5) with isStatic := true } (ball 5 5 0 0 1 1 0)

/-- A fresh engine with the single wall `(0, 0, 10, 5)`. -/
def wallEngine1 : PhysicsEngine ℚ := addWallConstraint PhysicsEngine.new 0 0 10 5

/-- The engine `wallEngine1` with the second wall `(20, 0, 10, 5)`, apart from the
first. -/
def wallEngine2 : PhysicsEngine ℚ := addWallConstraint wallEngine1 20 0 10 5

/-- A ball at `(-2, 7)` with velocity `(-3, 1)` and bounce `1/2` behind handle `0`, a
ball at rest at `(3, 2)` behind the other handles. -/
def wallHeap : Heap ℚ := heap2 (ball (-2) 7 (-3) 1 1 1 (1 / 2)) (ball 3 2 0 0 1 1 0)

/-- The comparison of marker times is decidable. -/
instance Marker.decidableLe {K : Type} [LinearOrderedField K] :
    DecidableRel (Marker.le : Marker K → Marker K → Prop) :=
  fun a b => inferInstanceAs (Decidable (a.time ≤ b.time))

/-- A sorting function standing for `std::sort` in the evaluations: insertion sort by
time. -/
def markerSort (l : List (Marker ℚ)) : List (Marker ℚ) := l.insertionSort Marker.le

/-- A new timeline after `setDuration(5)` and `play()`. -/
def fiveSecondTimeline : Timeline ℚ := (Timeline.new.setDuration 5).play

/-- A sequence of calls that leaves the markers `b` at 2 and `b` at 3 on a timeline
of duration 5. -/
def markerOps : List (TimelineOp ℚ) :=
  [.setDuration 5, .addMarker 3 "b", .addMarker 1 "a", .addMarker 2 "b", .removeMarker "a"]

/-- A new, unbounded timeline after `addTimeCallback(1, f7)` and `play()`. -/
def callbackTimeline : Timeline ℚ := (Timeline.new.addTimeCallback 1 (some 7)).play

/-- The animation `A = move_to(100, 0)`. -/
def animA : Animation ℚ := move_to 100 0

/-- The animation `B = move_to(0, 100)`. -/
def animB : Animation ℚ := move_to 0 100

/-- An object at `(-300, 0)` behind handle `0`, an object at `(5, 5)` behind the other
handles, both at rest. -/
def stageHeap : Heap ℚ := heap2 (ball (-300) 0 0 0 1 1 0) (ball 5 5 0 0 1 1 0)

/-- The objects of `stageHeap` with no callback stored, a new timeline and an engine
that is not running. -/
def stageState : ApiState ℚ :=
  { heap := stageHeap, callbacks := fun _ => none, timeline := Timeline.new, isRunning := false }

/-- The default engine with collision detection switched off. -/
def quietEngine : PhysicsEngine ℚ :=
  { (PhysicsEngine.new : PhysicsEngine ℚ) with collisionDetectionEnabled := false }

/-- A moving object at the origin with velocity `(1, 0)` behind handle `0`, and a static
object at `(5, 5)` behind the other handles; neither is affected by gravity. -/
def driftHeap : Heap ℚ :=
  heap2 (ball 0 0 1 0 1 1 0) { ball 5 5 0 0 1 1 0 with isStatic := true }

/-- Four setter calls, three of them with an argument outside the setter's range. -/
def attributeOps : List (AttributeOp ℚ) :=
  [.setMass (-5), .setBounce 2, .setFriction (-1), .setOpacity (1 / 2)]

/-- Updates by non-negative steps around a `setAnimationProgress(7)`. -/
def progressOps : List (ProgressOp ℚ) :=
  [.update 1, .setAnimationProgress 7, .update 3, .update (1 / 2)]

/-- Two objects as the constructor leaves them, behind handle `0` and behind the other
handles: both at the origin with scale `(1, 1, 1)`. -/
def coincidentHeap : Heap ℚ := heap2 AnimationObject.new AnimationObject.new

/-- Calls that end with `setTimeStep(0)`, stored as `0.001`, on an enabled engine. -/
def timeStepOps : List (EngineOp ℚ) :=
  [.setTimeStep 5, .addObject 0, .setTimeStep 0, .setEnabled true]

/-- Calls that run an unbounded timeline to time 9, bound it to 5 seconds, seek past
the end and play on. -/
def overrunOps : List (TimelineOp ℚ) :=
  [.play, .update 9, .setDuration 5, .setCurrentTime 8, .play, .update 7]

/-- A `step` that only records its argument: the state is the list of the arguments
of the calls `step(dt)` made so far, oldest first. -/
def recordStep (dt : F32) (calls : List F32) : List F32 := calls ++ [dt]

/-- The list of `n` animations of which number `i` only records `(i, progress)` when
it is called. -/
def recorders (n : Nat) : List (Animation32 (List (Nat × F32))) :=
  (List.range n).map (fun i _ progress log => log ++ [(i, progress)])

/-! ## Integration (`updateObjectPhysics`) -/

section Setters

variable {K : Type}

@[simp]
theorem Heap.set_get_same (h : Heap K) (o : Nat) (v : AnimationObject K) :
    (h.set o v).get o = v := by
  simp [Heap.set]

@[simp]
theorem Heap.set_get_other (h : Heap K) (o j : Nat) (v : AnimationObject K) (hj : j ≠ o) :
    (h.set o v).get j = h.get j := by
  simp [Heap.set, hj]

theorem setPosition_same (o : Nat) (p : Vec3 K) (h : Heap K) :
    setPosition o p h o = { h o with position := p } := by
  simp [setPosition]

theorem setPosition_other (o j : Nat) (p : Vec3 K) (h : Heap K) (hj : j ≠ o) :
    setPosition o p h j = h j := by
  simp [setPosition, hj]

theorem setVelocity_same (o : Nat) (v : Vec3 K) (h : Heap K) :
    setVelocity o v h o = { h o with velocity := v } := by
  simp [setVelocity]

theorem setVelocity_other (o j : Nat) (v : Vec3 K) (h : Heap K) (hj : j ≠ o) :
    setVelocity o v h j = h j := by
  simp [setVelocity, hj]

theorem setAcceleration_same (o : Nat) (a : Vec3 K) (h : Heap K) :
    setAcceleration o a h o = { h o with acceleration := a } := by
  simp [setAcceleration]

theorem setAcceleration_other (o j : Nat) (a : Vec3 K) (h : Heap K) (hj : j ≠ o) :
    setAcceleration o a h j = h j := by
  simp [setAcceleration, hj]

end Setters

section Integration

variable {K : Type} [LinearOrderedField K]

/-- C3: `updateObjectPhysics` with step `dt` leaves the heap unchanged when the
object is static; for a non-static object with velocity `v`, position `p` and
accumulated acceleration `a` it stores velocity
`(v + aTotal * dt) * (1 - airResistance * dt)` with `aTotal = a + gravity` when the
object is gravity affected and `aTotal = a` otherwise, position `p + v' * dt` and
the zero acceleration, changes no other member and no other object. -/
theorem updateObjectPhysics_integrates (e : PhysicsEngine K) (o : Nat) (dt : K) (h : Heap K) :
    ((h o).isStatic = true → updateObjectPhysics e o dt h = h) ∧
    ((h o).isStatic = false →
      updateObjectPhysics e o dt h o =
        { h o with
          velocity := Vec3.smul (Vec3.add (h o).velocity (Vec3.smul
            (if (h o).gravityAffected then Vec3.add (h o).acceleration e.gravity
              else (h o).acceleration) dt)) (1 - e.airResistance * dt)
          position := Vec3.add (h o).position (Vec3.smul (Vec3.smul (Vec3.add (h o).velocity
            (Vec3.smul (if (h o).gravityAffected then Vec3.add (h o).acceleration e.gravity
              else (h o).acceleration) dt)) (1 - e.airResistance * dt)) dt)
          acceleration := Vec3.zero } ∧
      ∀ j, j ≠ o → updateObjectPhysics e o dt h j = h j) := by
  refine ⟨fun hs => by simp [updateObjectPhysics, hs], fun hs => ⟨?_, fun j hj => ?_⟩⟩
  · by_cases hg : (h o).gravityAffected = true <;>
      simp [updateObjectPhysics, hs, hg, setPosition, setVelocity, setAcceleration]
  · by_cases hg : (h o).gravityAffected = true <;>
      simp [updateObjectPhysics, hs, hg, setPosition, setVelocity, setAcceleration, hj]

/-- C3 at a concrete input: a gravity-affected ball at `(0, 10, 0)` with velocity
`(1, 0, 0)`, default gravity and drag, `dt = 1/2`. -/
theorem updateObjectPhysics_integrates_witness :
    (heap2 { ball 0 10 1 0 1 1 0 with gravityAffected := true } (ball 5 5 0 0 1 1 0) 0).isStatic
      = false ∧
    (updateObjectPhysics PhysicsEngine.new 0 (1 / 2)
      (heap2 { ball 0 10 1 0 1 1 0 with gravityAffected := true } (ball 5 5 0 0 1 1 0)) 0).velocity
      = ⟨19 / 20, -(18639 / 4000), 0⟩ ∧
    (updateObjectPhysics PhysicsEngine.new 0 (1 / 2)
      (heap2 { ball 0 10 1 0 1 1 0 with gravityAffected := true } (ball 5 5 0 0 1 1 0)) 0).position
      = ⟨19 / 40, 61361 / 8000, 0⟩ ∧
    (updateObjectPhysics PhysicsEngine.new 0 (1 / 2)
      (heap2 { ball 0 10 1 0 1 1 0 with gravityAffected := true } (ball 5 5 0 0 1 1 0)) 0).acceleration
      = Vec3.zero := by
  have key := ((updateObjectPhysics_integrates (PhysicsEngine.new : PhysicsEngine ℚ) 0 (1 / 2)
    (heap2 { ball 0 10 1 0 1 1 0 with gravityAffected := true } (ball 5 5 0 0 1 1 0))).2 rfl).1
  rw [key]
  refine ⟨rfl, ?_, ?_, rfl⟩ <;>
    norm_num [heap2, ball, AnimationObject.new, PhysicsEngine.new, Vec3.add, Vec3.smul]

end Integration

/-! ## Sub-stepping (`update`) -/

section SubStepping

variable {K : Type} [LinearOrderedField K]

theorem updateLoop_exit (sqrt : K → K) (e : PhysicsEngine K) (fuel : Nat) (r : K) (h : Heap K)
    (hr : r < e.timeStep) : updateLoop sqrt e (fuel + 1) r h = some (r, h) := by
  simp [updateLoop, not_le.mpr hr]

theorem updateLoop_iterate (sqrt : K → K) (e : PhysicsEngine K) (r : K) (hr0 : 0 ≤ r)
    (hr : r < e.timeStep) :
    ∀ (n fuel : Nat) (h : Heap K), n < fuel →
      updateLoop sqrt e fuel (n * e.timeStep + r) h
        = some (r, (step sqrt e e.timeStep)^[n] h) := by
  have hpos : 0 < e.timeStep := lt_of_le_of_lt hr0 hr
  intro n
  induction n with
  | zero =>
    intro fuel h hf
    obtain ⟨f, rfl⟩ := Nat.exists_eq_succ_of_ne_zero (Nat.pos_iff_ne_zero.mp hf)
    simpa using updateLoop_exit sqrt e f r h hr
  | succ n ih =>
    intro fuel h hf
    obtain ⟨f, rfl⟩ := Nat.exists_eq_succ_of_ne_zero (Nat.not_eq_zero_of_lt hf)
    have hn : (0 : K) ≤ (n : K) * e.timeStep := mul_nonneg (Nat.cast_nonneg n) hpos.le
    have hge : ((n + 1 : Nat) : K) * e.timeStep + r ≥ e.timeStep := by
      push_cast
      nlinarith
    have hsub : ((n + 1 : Nat) : K) * e.timeStep + r - e.timeStep = (n : K) * e.timeStep + r := by
      push_cast
      ring
    rw [updateLoop, if_pos hge, hsub, ih f _ (Nat.lt_of_succ_lt_succ hf),
      Function.iterate_succ_apply]

theorem update_of_loop (sqrt : K → K) (e : PhysicsEngine K) (he : e.enabled = true) (fuel : Nat)
    (dt r : K) (h h1 : Heap K) (hl : updateLoop sqrt e fuel dt h = some (r, h1)) :
    update sqrt e fuel dt h = some (if 0 < r then step sqrt e r h1 else h1) := by
  simp only [update, he, hl]
  by_cases hr : 0 < r <;> simp [hr]

/-- C2, amended: in exact arithmetic, for an enabled engine with time step `h > 0` (the constructor and
`setTimeStep` never store another one) and `dt ≥ 0`, `update(dt)` returns, as soon
as the iteration bound exceeds `k = floor(dt / h)`, the heap reached by `k`
applications of `step(h)` followed by `step(dt - k * h)` exactly when
`dt - k * h > 0`; for `dt ≤ 0` it returns the heap unchanged (no step at all). -/
theorem update_substep_decomposition [FloorRing K] (sqrt : K → K) (e : PhysicsEngine K)
    (he : e.enabled = true) (hh : 0 < e.timeStep) (dt : K) (h : Heap K) (fuel : Nat) :
    (0 ≤ dt → ⌊dt / e.timeStep⌋₊ < fuel →
      update sqrt e fuel dt h =
        some (if 0 < dt - ⌊dt / e.timeStep⌋₊ * e.timeStep
          then step sqrt e (dt - ⌊dt / e.timeStep⌋₊ * e.timeStep)
            ((step sqrt e e.timeStep)^[⌊dt / e.timeStep⌋₊] h)
          else (step sqrt e e.timeStep)^[⌊dt / e.timeStep⌋₊] h)) ∧
    (dt ≤ 0 → 0 < fuel → update sqrt e fuel dt h = some h) := by
  constructor
  · intro hdt hf
    have hq : 0 ≤ dt / e.timeStep := div_nonneg hdt hh.le
    have h1 : (⌊dt / e.timeStep⌋₊ : K) * e.timeStep ≤ dt :=
      (le_div_iff₀ hh).mp (Nat.floor_le hq)
    have h2 : dt < ((⌊dt / e.timeStep⌋₊ : K) + 1) * e.timeStep :=
      (div_lt_iff₀ hh).mp (Nat.lt_floor_add_one _)
    have hl := updateLoop_iterate sqrt e (dt - ⌊dt / e.timeStep⌋₊ * e.timeStep)
      (by linarith) (by linarith) ⌊dt / e.timeStep⌋₊ fuel h hf
    rw [show (⌊dt / e.timeStep⌋₊ : K) * e.timeStep + (dt - ⌊dt / e.timeStep⌋₊ * e.timeStep) = dt
      by ring] at hl
    exact update_of_loop sqrt e he fuel dt _ h _ hl
  · intro hdt hf
    obtain ⟨f, rfl⟩ := Nat.exists_eq_succ_of_ne_zero (Nat.pos_iff_ne_zero.mp hf)
    have hl := updateLoop_exit sqrt e f dt h (lt_of_le_of_lt hdt hh)
    rw [update_of_loop sqrt e he _ dt dt h h hl, if_neg (not_lt.mpr hdt)]

theorem updateTimes_single_step (sqrt : K → K) (e : PhysicsEngine K) (he : e.enabled = true)
    (hh : 0 < e.timeStep) (fuel : Nat) (hf : 1 < fuel) :
    ∀ (n : Nat) (h : Heap K),
      updateTimes sqrt e fuel e.timeStep n h = some ((step sqrt e e.timeStep)^[n] h) := by
  have hone : ∀ h : Heap K, update sqrt e fuel e.timeStep h = some (step sqrt e e.timeStep h) := by
    intro h
    have hl := updateLoop_iterate sqrt e 0 le_rfl hh 1 fuel h hf
    simp only [Nat.cast_one, one_mul, add_zero] at hl
    rw [update_of_loop sqrt e he fuel _ 0 h _ hl]
    simp
  intro n
  induction n with
  | zero => intro h; rfl
  | succ n ih =>
    intro h
    rw [updateTimes, hone h, Option.some_bind, ih, Function.iterate_succ_apply]

/-- C1: for an enabled engine with time step `h > 0`, whatever the registry,
gravity, drag and constraints, and for every natural `n`, one call `update(n * h)`
returns the same heap (so the same position, velocity and acceleration of every
object) as `n` successive calls `update(h)`: both return `n` applications of
`step(h)`, as soon as the iteration bounds allow `n` resp. one iteration. -/
theorem update_fixed_step_equivalence (sqrt : K → K) (e : PhysicsEngine K)
    (he : e.enabled = true) (hh : 0 < e.timeStep) (n : Nat) (h : Heap K) (fuel fuel1 : Nat)
    (hf : n < fuel) (hf1 : 1 < fuel1) :
    update sqrt e fuel (n * e.timeStep) h = some ((step sqrt e e.timeStep)^[n] h) ∧
    updateTimes sqrt e fuel1 e.timeStep n h = update sqrt e fuel (n * e.timeStep) h := by
  have hl := updateLoop_iterate sqrt e 0 le_rfl hh n fuel h hf
  rw [add_zero] at hl
  have hu : update sqrt e fuel (n * e.timeStep) h = some ((step sqrt e e.timeStep)^[n] h) := by
    rw [update_of_loop sqrt e he fuel _ 0 h _ hl]
    simp
  exact ⟨hu, by rw [hu, updateTimes_single_step sqrt e he hh fuel1 hf1 n h]⟩

/-- The amended C2 at a concrete input: `dt = 7/120` is three and a half time steps of `1/60`,
so `update` performs three full steps and one step of `1/120`; `dt = 0` performs
none. -/
theorem update_substep_decomposition_witness :
    update Rat.sqrt demoEngine 4 (7 / 120) demoHeap =
      some (step Rat.sqrt demoEngine (1 / 120) ((step Rat.sqrt demoEngine (1 / 60))^[3] demoHeap)) ∧
    update Rat.sqrt demoEngine 4 0 demoHeap = some demoHeap := by
  have hts : demoEngine.timeStep = 1 / 60 := by
    simp [demoEngine, addGroundConstraint, addObject, PhysicsEngine.new]
  have hk : ⌊(7 / 120 : ℚ) / demoEngine.timeStep⌋₊ = 3 := by
    rw [hts, Nat.floor_eq_iff (by norm_num)]
    norm_num
  have key := update_substep_decomposition Rat.sqrt demoEngine rfl (by rw [hts]; norm_num)
    (7 / 120) demoHeap 4
  have key0 := update_substep_decomposition Rat.sqrt demoEngine rfl (by rw [hts]; norm_num)
    0 demoHeap 4
  refine ⟨?_, key0.2 le_rfl (by decide)⟩
  have h1 := key.1 (by norm_num) (by rw [hk]; decide)
  have hrem : (7 / 120 : ℚ) - ((3 : ℕ) : ℚ) * (1 / 60) = 1 / 120 := by norm_num
  rw [hk, hts, hrem, if_pos (by norm_num)] at h1
  exact h1

/-- C1 at `n = 3` on a concrete engine and heap. -/
theorem update_fixed_step_equivalence_witness :
    update Rat.sqrt demoEngine 4 ((3 : ℕ) * demoEngine.timeStep) demoHeap =
      some ((step Rat.sqrt demoEngine demoEngine.timeStep)^[3] demoHeap) ∧
    updateTimes Rat.sqrt demoEngine 2 demoEngine.timeStep 3 demoHeap =
      update Rat.sqrt demoEngine 4 ((3 : ℕ) * demoEngine.timeStep) demoHeap :=
  update_fixed_step_equivalence Rat.sqrt demoEngine rfl
    (by norm_num [demoEngine, addGroundConstraint, addObject, PhysicsEngine.new])
    3 demoHeap 4 2 (by decide) (by decide)

end SubStepping

/-! ## Collision resolution (`resolveCollision`) -/

section Collision

variable {K : Type} [LinearOrderedField K]

/-- What `resolveCollision` stores in its first object, for two distinct objects. -/
theorem resolveCollision_fst (sqrt : K → K) (o1 o2 : Nat) (h : Heap K) (hne : o1 ≠ o2) :
    resolveCollision sqrt o1 o2 h o1 =
      { h o1 with
        position :=
          if overlapOf sqrt (h o1) (h o2) < 0 then
            Vec3.add (h o1).position (Vec3.smul (calculateCollisionNormal sqrt (h o1) (h o2))
              (-overlapOf sqrt (h o1) (h o2) * (1 / 2)))
          else (h o1).position
        velocity :=
          if 0 < relativeVelOf sqrt (h o1) (h o2) ∨ (h o1).isStatic = true then (h o1).velocity
          else Vec3.add (h o1).velocity (Vec3.sdiv
            (Vec3.smul (calculateCollisionNormal sqrt (h o1) (h o2)) (impulseOf sqrt (h o1) (h o2)))
            (h o1).mass) } := by
  have hne' : o2 ≠ o1 := fun e => hne e.symm
  apply AnimationObject.ext <;>
  by_cases hov : overlapOf sqrt (h o1) (h o2) < 0 <;>
  by_cases hrel : 0 < relativeVelOf sqrt (h o1) (h o2) <;>
  by_cases hs1 : (h o1).isStatic = true <;>
  by_cases hs2 : (h o2).isStatic = true <;>
  simp only [overlapOf, relativeVelOf, impulseOf, calculateCollisionNormal] at hov hrel ⊢ <;>
  simp [resolveCollision, setPosition, setVelocity, hne, hne', hov, hrel, hs1, hs2]

/-- What `resolveCollision` stores in its second object, for two distinct objects. -/
theorem resolveCollision_snd (sqrt : K → K) (o1 o2 : Nat) (h : Heap K) (hne : o1 ≠ o2) :
    resolveCollision sqrt o1 o2 h o2 =
      { h o2 with
        position :=
          if overlapOf sqrt (h o1) (h o2) < 0 then
            Vec3.sub (h o2).position (Vec3.smul (calculateCollisionNormal sqrt (h o1) (h o2))
              (-overlapOf sqrt (h o1) (h o2) * (1 / 2)))
          else (h o2).position
        velocity :=
          if 0 < relativeVelOf sqrt (h o1) (h o2) ∨ (h o2).isStatic = true then (h o2).velocity
          else Vec3.sub (h o2).velocity (Vec3.sdiv
            (Vec3.smul (calculateCollisionNormal sqrt (h o1) (h o2)) (impulseOf sqrt (h o1) (h o2)))
            (h o2).mass) } := by
  have hne' : o2 ≠ o1 := fun e => hne e.symm
  apply AnimationObject.ext <;>
  by_cases hov : overlapOf sqrt (h o1) (h o2) < 0 <;>
  by_cases hrel : 0 < relativeVelOf sqrt (h o1) (h o2) <;>
  by_cases hs1 : (h o1).isStatic = true <;>
  by_cases hs2 : (h o2).isStatic = true <;>
  simp only [overlapOf, relativeVelOf, impulseOf, calculateCollisionNormal] at hov hrel ⊢ <;>
  simp [resolveCollision, setPosition, setVelocity, hne, hne', hov, hrel, hs1, hs2]

/-- The call `resolveCollision(obj1, obj2)` touches no third object. -/
theorem resolveCollision_other (sqrt : K → K) (o1 o2 j : Nat) (h : Heap K)
    (h1 : j ≠ o1) (h2 : j ≠ o2) : resolveCollision sqrt o1 o2 h j = h j := by
  by_cases hov : overlapOf sqrt (h o1) (h o2) < 0 <;>
  by_cases hrel : 0 < relativeVelOf sqrt (h o1) (h o2) <;>
  by_cases hs1 : (h o1).isStatic = true <;>
  simp only [overlapOf, relativeVelOf, impulseOf, calculateCollisionNormal] at hov hrel ⊢ <;>
  simp only [resolveCollision, setPosition, setVelocity] <;>
  split_ifs <;> simp [h1, h2]

/-- The squared norm of a scaled vector. -/
theorem dot_smul_self (u : Vec3 K) (c : K) :
    Vec3.dot (Vec3.smul u c) (Vec3.smul u c) = c * c * Vec3.dot u u := by
  simp only [Vec3.dot, Vec3.smul]; ring

/-- A vanishing sum of three squares has vanishing terms. -/
theorem sum_three_squares_eq_zero (a b c : K) (h : a * a + b * b + c * c = 0) :
    a = 0 ∧ b = 0 ∧ c = 0 := by
  have ha := mul_self_nonneg a
  have hb := mul_self_nonneg b
  have hc := mul_self_nonneg c
  exact ⟨mul_self_eq_zero.mp (by linarith), mul_self_eq_zero.mp (by linarith),
    mul_self_eq_zero.mp (by linarith)⟩

/-- The velocity update of object 1 for equal masses and restitution 1 on an axis. -/
theorem elastic_exchange_fst (u : Vec3 K) (a b c m s : K) (hm : m ≠ 0) (hs0 : s ≠ 0)
    (hs : s * s = c * c * Vec3.dot u u) :
    Vec3.add (Vec3.smul u a) (Vec3.sdiv (Vec3.smul (Vec3.smul (Vec3.smul u c) (1 / s))
      (-(1 + min 1 1) * Vec3.dot (Vec3.sub (Vec3.smul u a) (Vec3.smul u b))
        (Vec3.smul (Vec3.smul u c) (1 / s)) / (1 / m + 1 / m))) m) = Vec3.smul u b := by
  simp only [Vec3.dot] at hs
  apply Vec3.ext <;>
    simp only [Vec3.add, Vec3.sub, Vec3.smul, Vec3.sdiv, Vec3.dot, min_self] <;> field_simp
  · linear_combination (2 * m * u.x * (a - b)) * hs
  · linear_combination (2 * m * u.y * (a - b)) * hs
  · linear_combination (2 * m * u.z * (a - b)) * hs

/-- The velocity update of object 2 for equal masses and restitution 1 on an axis. -/
theorem elastic_exchange_snd (u : Vec3 K) (a b c m s : K) (hm : m ≠ 0) (hs0 : s ≠ 0)
    (hs : s * s = c * c * Vec3.dot u u) :
    Vec3.sub (Vec3.smul u b) (Vec3.sdiv (Vec3.smul (Vec3.smul (Vec3.smul u c) (1 / s))
      (-(1 + min 1 1) * Vec3.dot (Vec3.sub (Vec3.smul u a) (Vec3.smul u b))
        (Vec3.smul (Vec3.smul u c) (1 / s)) / (1 / m + 1 / m))) m) = Vec3.smul u a := by
  simp only [Vec3.dot] at hs
  apply Vec3.ext <;>
    simp only [Vec3.add, Vec3.sub, Vec3.smul, Vec3.sdiv, Vec3.dot, min_self] <;> field_simp
  · linear_combination (-(2 * m * u.x * (a - b))) * hs
  · linear_combination (-(2 * m * u.y * (a - b))) * hs
  · linear_combination (-(2 * m * u.z * (a - b))) * hs

/-- C4: two non-static objects of equal mass `m > 0`, both with bounce 1,
whose positions differ along an axis `u` (`pos1 - pos2 = c * u`, positions distinct)
and whose velocities lie on that axis (`a * u` and `b * u`), approaching each other
(relative velocity along the normal negative): `resolveCollision` leaves object 1
with the previous velocity of object 2 and object 2 with the previous velocity of
object 1.  The square root is exact at the squared centre distance. -/
theorem resolveCollision_equal_mass_exchange (sqrt : K → K) (o1 o2 : Nat) (h : Heap K)
    (hs1 : (h o1).isStatic = false) (hs2 : (h o2).isStatic = false)
    (m : K) (hm : 0 < m) (hm1 : (h o1).mass = m) (hm2 : (h o2).mass = m)
    (hb1 : (h o1).bounce = 1) (hb2 : (h o2).bounce = 1)
    (u : Vec3 K) (c a b : K)
    (hpos : (h o1).position ≠ (h o2).position)
    (haxis : Vec3.sub (h o1).position (h o2).position = Vec3.smul u c)
    (hv1 : (h o1).velocity = Vec3.smul u a) (hv2 : (h o2).velocity = Vec3.smul u b)
    (hsqrt : sqrt (Vec3.dot (Vec3.sub (h o1).position (h o2).position)
        (Vec3.sub (h o1).position (h o2).position))
      * sqrt (Vec3.dot (Vec3.sub (h o1).position (h o2).position)
        (Vec3.sub (h o1).position (h o2).position))
      = Vec3.dot (Vec3.sub (h o1).position (h o2).position)
        (Vec3.sub (h o1).position (h o2).position))
    (happroach : relativeVelOf sqrt (h o1) (h o2) < 0) :
    (resolveCollision sqrt o1 o2 h o1).velocity = (h o2).velocity ∧
    (resolveCollision sqrt o1 o2 h o2).velocity = (h o1).velocity := by
  have hne : o1 ≠ o2 := fun e => hpos (by rw [e])
  have hrel : ¬ 0 < relativeVelOf sqrt (h o1) (h o2) := not_lt.mpr happroach.le
  have hm0 : m ≠ 0 := hm.ne'
  have hd : Vec3.sub (h o1).position (h o2).position ≠ Vec3.zero := by
    intro hz
    apply hpos
    have hx := congrArg Vec3.x hz
    have hy := congrArg Vec3.y hz
    have hzz := congrArg Vec3.z hz
    simp only [Vec3.sub, Vec3.zero] at hx hy hzz
    exact Vec3.ext (sub_eq_zero.mp hx) (sub_eq_zero.mp hy) (sub_eq_zero.mp hzz)
  rw [haxis] at hsqrt hd
  rw [dot_smul_self] at hsqrt
  have hcu : c * c * Vec3.dot u u ≠ 0 := by
    intro hz
    apply hd
    have hsq : (u.x * c) * (u.x * c) + (u.y * c) * (u.y * c) + (u.z * c) * (u.z * c) = 0 := by
      have := hz
      simp only [Vec3.dot] at this
      linear_combination this
    obtain ⟨hx, hy, hz'⟩ := sum_three_squares_eq_zero _ _ _ hsq
    simp only [Vec3.smul, Vec3.zero, hx, hy, hz']
  set s := sqrt (c * c * Vec3.dot u u) with hsdef
  have hs0 : s ≠ 0 := by
    intro hz
    rw [hz, mul_zero] at hsqrt
    exact hcu hsqrt.symm
  rw [resolveCollision_fst sqrt o1 o2 h hne, resolveCollision_snd sqrt o1 o2 h hne]
  simp only [hrel, hs1, hs2, false_or, Bool.false_eq_true, if_false]
  simp only [impulseOf, relativeVelOf, calculateCollisionNormal, Vec3.normalize, haxis,
    dot_smul_self, hm1, hm2, hb1, hb2, hv1, hv2, ← hsdef]
  exact ⟨elastic_exchange_fst u a b c m s hm0 hs0 hsqrt, elastic_exchange_snd u a b c m s hm0 hs0 hsqrt⟩

/-- C5: for two non-static objects at distinct positions with masses
`m1, m2 > 0` and velocities `v1, v2`, `resolveCollision` yields velocities with
`m1 * v1' + m2 * v2' = m1 * v1 + m2 * v2` as vectors, whatever the bounce
coefficients (and whatever the square root returns). -/
theorem resolveCollision_conserves_momentum (sqrt : K → K) (o1 o2 : Nat) (h : Heap K)
    (hs1 : (h o1).isStatic = false) (hs2 : (h o2).isStatic = false)
    (hm1 : 0 < (h o1).mass) (hm2 : 0 < (h o2).mass)
    (hpos : (h o1).position ≠ (h o2).position) :
    Vec3.add (Vec3.smul (resolveCollision sqrt o1 o2 h o1).velocity (h o1).mass)
        (Vec3.smul (resolveCollision sqrt o1 o2 h o2).velocity (h o2).mass)
      = Vec3.add (Vec3.smul (h o1).velocity (h o1).mass)
        (Vec3.smul (h o2).velocity (h o2).mass) := by
  have hne : o1 ≠ o2 := fun e => hpos (by rw [e])
  rw [resolveCollision_fst sqrt o1 o2 h hne, resolveCollision_snd sqrt o1 o2 h hne]
  by_cases hrel : 0 < relativeVelOf sqrt (h o1) (h o2)
  · simp [hrel]
  · have h1 : (h o1).mass ≠ 0 := hm1.ne'
    have h2 : (h o2).mass ≠ 0 := hm2.ne'
    simp only [hrel, hs1, hs2, false_or, Bool.false_eq_true, if_false]
    apply Vec3.ext <;> simp only [Vec3.add, Vec3.sub, Vec3.smul, Vec3.sdiv] <;> field_simp

/-- C6, amended: for two distinct objects whose relative velocity along the normal
from object 2 to object 1 is `≥ 0`, `resolveCollision` leaves the velocities of both
objects unchanged, and changes no member of any object other than the position. -/
theorem resolveCollision_separating_keeps_velocity (sqrt : K → K) (o1 o2 : Nat) (h : Heap K)
    (hne : o1 ≠ o2) (hsep : 0 ≤ relativeVelOf sqrt (h o1) (h o2)) :
    (resolveCollision sqrt o1 o2 h o1).velocity = (h o1).velocity ∧
    (resolveCollision sqrt o1 o2 h o2).velocity = (h o2).velocity ∧
    ∀ j, resolveCollision sqrt o1 o2 h j
      = { h j with position := (resolveCollision sqrt o1 o2 h j).position } := by
  have hv : (resolveCollision sqrt o1 o2 h o1).velocity = (h o1).velocity ∧
      (resolveCollision sqrt o1 o2 h o2).velocity = (h o2).velocity := by
    rw [resolveCollision_fst sqrt o1 o2 h hne, resolveCollision_snd sqrt o1 o2 h hne]
    by_cases hrel : 0 < relativeVelOf sqrt (h o1) (h o2)
    · simp [hrel]
    · have h0 : relativeVelOf sqrt (h o1) (h o2) = 0 := le_antisymm (not_lt.mp hrel) hsep
      have hi : impulseOf sqrt (h o1) (h o2) = 0 := by simp [impulseOf, h0]
      constructor <;> split_ifs <;> first | rfl | (apply Vec3.ext <;> simp [hi, Vec3.add, Vec3.sub, Vec3.smul, Vec3.sdiv])
  refine ⟨hv.1, hv.2, fun j => ?_⟩
  by_cases h1 : j = o1
  · subst h1
    apply AnimationObject.ext <;> first | exact hv.1 | simp [resolveCollision_fst sqrt j o2 h hne]
  · by_cases h2 : j = o2
    · subst h2
      apply AnimationObject.ext <;> first | exact hv.2 | simp [resolveCollision_snd sqrt o1 j h hne]
    · rw [resolveCollision_other sqrt o1 o2 j h h1 h2]

/-- The vector returned by `normalize` has norm 1 where the square root is exact. -/
theorem unit_normal (sqrt : K → K) (v : Vec3 K) (d : K) (hd : sqrt (Vec3.dot v v) = d) (hd0 : d ≠ 0)
    (hexact : d * d = Vec3.dot v v) :
    Vec3.dot (Vec3.normalize sqrt v) (Vec3.normalize sqrt v) = 1 := by
  simp only [Vec3.normalize, hd]
  simp only [Vec3.dot, Vec3.smul] at hexact ⊢
  field_simp
  linear_combination -hexact

/-- The squared centre distance after moving both centres `(r - d) / 2` apart is `r * r`. -/
theorem separated_dot (sqrt : K → K) (p1 p2 : Vec3 K) (d r : K)
    (hd : sqrt (Vec3.dot (Vec3.sub p1 p2) (Vec3.sub p1 p2)) = d) (hd0 : d ≠ 0)
    (hexact : d * d = Vec3.dot (Vec3.sub p1 p2) (Vec3.sub p1 p2)) :
    Vec3.dot
      (Vec3.sub (Vec3.add p1 (Vec3.smul (Vec3.normalize sqrt (Vec3.sub p1 p2)) ((r - d) / 2)))
        (Vec3.sub p2 (Vec3.smul (Vec3.normalize sqrt (Vec3.sub p1 p2)) ((r - d) / 2))))
      (Vec3.sub (Vec3.add p1 (Vec3.smul (Vec3.normalize sqrt (Vec3.sub p1 p2)) ((r - d) / 2)))
        (Vec3.sub p2 (Vec3.smul (Vec3.normalize sqrt (Vec3.sub p1 p2)) ((r - d) / 2))))
      = r * r := by
  simp only [Vec3.normalize, hd]
  simp only [Vec3.dot, Vec3.smul, Vec3.sub, Vec3.add] at hexact ⊢
  field_simp
  linear_combination (-(4 * r * r)) * hexact

/-- C8: for two objects with radii `r1, r2` (`scale.x`) and centre distance
`d`, `0 < d < r1 + r2`, `resolveCollision` moves object 1 by `+n * (r1 + r2 - d) / 2`
and object 2 by `-n * (r1 + r2 - d) / 2`, with `n` the unit normal from object 2 to
object 1; no mass enters.  Afterwards the centre distance is exactly `r1 + r2` and
`checkCollision` on the pair is false.  The square root is exact at the squared
centre distances before and after. -/
theorem resolveCollision_positional_correction (sqrt : K → K) (o1 o2 : Nat) (h : Heap K)
    (r1 r2 d : K)
    (hr1 : (h o1).scale.x = r1) (hr2 : (h o2).scale.x = r2)
    (hd : Vec3.length sqrt (Vec3.sub (h o1).position (h o2).position) = d)
    (hexact : d * d = Vec3.dot (Vec3.sub (h o1).position (h o2).position)
      (Vec3.sub (h o1).position (h o2).position))
    (hd0 : 0 < d) (hlt : d < r1 + r2)
    (hexact2 : sqrt ((r1 + r2) * (r1 + r2)) = r1 + r2) :
    Vec3.dot (calculateCollisionNormal sqrt (h o1) (h o2))
      (calculateCollisionNormal sqrt (h o1) (h o2)) = 1 ∧
    (resolveCollision sqrt o1 o2 h o1).position =
      Vec3.add (h o1).position
        (Vec3.smul (calculateCollisionNormal sqrt (h o1) (h o2)) ((r1 + r2 - d) / 2)) ∧
    (resolveCollision sqrt o1 o2 h o2).position =
      Vec3.sub (h o2).position
        (Vec3.smul (calculateCollisionNormal sqrt (h o1) (h o2)) ((r1 + r2 - d) / 2)) ∧
    Vec3.length sqrt (Vec3.sub (resolveCollision sqrt o1 o2 h o1).position
      (resolveCollision sqrt o1 o2 h o2).position) = r1 + r2 ∧
    checkCollision sqrt (resolveCollision sqrt o1 o2 h o1) (resolveCollision sqrt o1 o2 h o2)
      = false := by
  have hne : o1 ≠ o2 := by
    intro e
    rw [e] at hexact
    simp only [Vec3.dot, Vec3.sub, sub_self, mul_zero, add_zero] at hexact
    exact hd0.ne' (mul_self_eq_zero.mp hexact)
  have hov : overlapOf sqrt (h o1) (h o2) < 0 := by
    simp only [overlapOf, hd, hr1, hr2]
    linarith
  have hamount : -overlapOf sqrt (h o1) (h o2) * (1 / 2) = (r1 + r2 - d) / 2 := by
    simp only [overlapOf, hd, hr1, hr2]
    ring
  have hp1 : (resolveCollision sqrt o1 o2 h o1).position =
      Vec3.add (h o1).position
        (Vec3.smul (calculateCollisionNormal sqrt (h o1) (h o2)) ((r1 + r2 - d) / 2)) := by
    rw [resolveCollision_fst sqrt o1 o2 h hne]
    simp only [hov, if_true, hamount]
  have hp2 : (resolveCollision sqrt o1 o2 h o2).position =
      Vec3.sub (h o2).position
        (Vec3.smul (calculateCollisionNormal sqrt (h o1) (h o2)) ((r1 + r2 - d) / 2)) := by
    rw [resolveCollision_snd sqrt o1 o2 h hne]
    simp only [hov, if_true, hamount]
  have hlen : Vec3.length sqrt (Vec3.sub (resolveCollision sqrt o1 o2 h o1).position
      (resolveCollision sqrt o1 o2 h o2).position) = r1 + r2 := by
    rw [hp1, hp2]
    simp only [Vec3.length, calculateCollisionNormal]
    rw [separated_dot sqrt _ _ d (r1 + r2) hd hd0.ne' hexact, hexact2]
  have hsc1 : (resolveCollision sqrt o1 o2 h o1).scale = (h o1).scale := by
    rw [resolveCollision_fst sqrt o1 o2 h hne]
  have hsc2 : (resolveCollision sqrt o1 o2 h o2).scale = (h o2).scale := by
    rw [resolveCollision_snd sqrt o1 o2 h hne]
  refine ⟨unit_normal sqrt _ d hd hd0.ne' hexact, hp1, hp2, hlen, ?_⟩
  simp only [checkCollision, hlen, hsc1, hsc2, hr1, hr2, lt_irrefl, decide_False]

/-- The rational square root of 1. -/
theorem rat_sqrt_one : Rat.sqrt 1 = 1 := by
  have h := Rat.sqrt_eq 1
  rwa [mul_one, abs_one] at h

/-- The rational square root of `9/4`. -/
theorem rat_sqrt_nine_quarters : Rat.sqrt (9 / 4) = 3 / 2 := by
  have h := Rat.sqrt_eq (3 / 2)
  rw [abs_of_pos (by norm_num)] at h
  rw [← h]
  norm_num

/-- The rational square root of 4. -/
theorem rat_sqrt_four : Rat.sqrt 4 = 2 := by
  have h := Rat.sqrt_eq 2
  rw [abs_of_pos (by norm_num)] at h
  rw [← h]
  norm_num

/-- C4 on `headOnHeap`: the velocities `2` and `-1` are exchanged. -/
theorem resolveCollision_equal_mass_exchange_witness :
    (resolveCollision Rat.sqrt 0 1 headOnHeap 0).velocity = ⟨-1, 0, 0⟩ ∧
    (resolveCollision Rat.sqrt 0 1 headOnHeap 1).velocity = ⟨2, 0, 0⟩ :=
  resolveCollision_equal_mass_exchange Rat.sqrt 0 1 headOnHeap rfl rfl 1 one_pos
    rfl rfl rfl rfl ⟨1, 0, 0⟩ (-(3 / 2)) 2 (-1)
    (by norm_num [headOnHeap, heap2, ball])
    (by norm_num [headOnHeap, heap2, ball, Vec3.sub, Vec3.smul])
    (by norm_num [headOnHeap, heap2, ball, Vec3.smul])
    (by norm_num [headOnHeap, heap2, ball, Vec3.smul])
    (by norm_num [headOnHeap, heap2, ball, Vec3.sub, Vec3.dot, rat_sqrt_nine_quarters])
    (by norm_num [relativeVelOf, calculateCollisionNormal, Vec3.normalize, Vec3.smul, headOnHeap,
      heap2, ball, Vec3.sub, Vec3.dot, rat_sqrt_nine_quarters])

/-- C5 on `unequalHeap`: the total momentum `2 * 2 + 3 * (-1) = 1` along x is kept. -/
theorem resolveCollision_conserves_momentum_witness :
    Vec3.add (Vec3.smul (resolveCollision Rat.sqrt 0 1 unequalHeap 0).velocity 2)
        (Vec3.smul (resolveCollision Rat.sqrt 0 1 unequalHeap 1).velocity 3)
      = ⟨1, 0, 0⟩ :=
  (resolveCollision_conserves_momentum Rat.sqrt 0 1 unequalHeap rfl rfl
    (by norm_num [unequalHeap, heap2, ball]) (by norm_num [unequalHeap, heap2, ball])
    (by norm_num [unequalHeap, heap2, ball])).trans
    (by norm_num [unequalHeap, heap2, ball, Vec3.add, Vec3.smul])

/-- C6 fails as stated: the balls of `separatingHeap` collide (distance 1 < 2) and
separate (relative velocity 2 along the normal), yet `resolveCollision` moves the
first from `(0, 0, 0)` to `(-1/2, 0, 0)`. -/
theorem resolveCollision_separating_moves_positions :
    ¬ (checkCollision Rat.sqrt (separatingHeap 0) (separatingHeap 1) = true →
      0 ≤ relativeVelOf Rat.sqrt (separatingHeap 0) (separatingHeap 1) →
      (resolveCollision Rat.sqrt 0 1 separatingHeap 0).position = (separatingHeap 0).position ∧
      (resolveCollision Rat.sqrt 0 1 separatingHeap 1).position = (separatingHeap 1).position ∧
      (resolveCollision Rat.sqrt 0 1 separatingHeap 0).velocity = (separatingHeap 0).velocity ∧
      (resolveCollision Rat.sqrt 0 1 separatingHeap 1).velocity = (separatingHeap 1).velocity) := by
  intro hc
  have hcol : checkCollision Rat.sqrt (separatingHeap 0) (separatingHeap 1) = true := by
    norm_num [checkCollision, separatingHeap, heap2, ball, Vec3.length, Vec3.sub, Vec3.dot,
      rat_sqrt_one]
  have hrel : relativeVelOf Rat.sqrt (separatingHeap 0) (separatingHeap 1) = 2 := by
    norm_num [relativeVelOf, calculateCollisionNormal, Vec3.normalize, Vec3.smul, separatingHeap,
      heap2, ball, Vec3.sub, Vec3.dot, rat_sqrt_one]
  have hpos : (resolveCollision Rat.sqrt 0 1 separatingHeap 0).position = ⟨-(1 / 2), 0, 0⟩ := by
    norm_num [resolveCollision, setPosition, setVelocity, Heap.set, Vec3.normalize, Vec3.smul,
      Vec3.add, separatingHeap, heap2, ball, Vec3.length, Vec3.sub, Vec3.dot, rat_sqrt_one]
  have h := (hc hcol (by rw [hrel]; norm_num)).1
  rw [hpos] at h
  norm_num [separatingHeap, heap2, ball] at h

/-- C6, amended, on `separatingHeap`. -/
theorem resolveCollision_separating_keeps_velocity_witness :
    (resolveCollision Rat.sqrt 0 1 separatingHeap 0).velocity = ⟨-1, 0, 0⟩ ∧
    (resolveCollision Rat.sqrt 0 1 separatingHeap 1).velocity = ⟨1, 0, 0⟩ ∧
    ∀ j, resolveCollision Rat.sqrt 0 1 separatingHeap j
      = { separatingHeap j with position := (resolveCollision Rat.sqrt 0 1 separatingHeap j).position } :=
  resolveCollision_separating_keeps_velocity Rat.sqrt 0 1 separatingHeap (by decide)
    (by norm_num [relativeVelOf, calculateCollisionNormal, Vec3.normalize, Vec3.smul, separatingHeap,
      heap2, ball, Vec3.sub, Vec3.dot, rat_sqrt_one])

/-- C7 at the failing input `staticHeap`: the static object behind handle 0 collides
with the object behind handle 1, and `resolveCollision` moves it from `(0, 0, 0)` to
`(-1/2, 0, 0)`. -/
theorem resolveCollision_moves_static :
    (staticHeap 0).isStatic = true ∧
    checkCollision Rat.sqrt (staticHeap 0) (staticHeap 1) = true ∧
    (staticHeap 0).position = ⟨0, 0, 0⟩ ∧
    (resolveCollision Rat.sqrt 0 1 staticHeap 0).position = ⟨-(1 / 2), 0, 0⟩ := by
  refine ⟨rfl, ?_, rfl, ?_⟩
  · norm_num [checkCollision, staticHeap, heap2, ball, Vec3.length, Vec3.sub, Vec3.dot,
      rat_sqrt_one]
  · norm_num [resolveCollision, setPosition, setVelocity, Heap.set, Vec3.normalize, Vec3.smul,
      Vec3.add, staticHeap, heap2, ball, AnimationObject.new, Vec3.length, Vec3.sub, Vec3.dot, rat_sqrt_one]

/-- C8 on `headOnHeap`: radii 1 and 1, distance `3/2`; each centre moves `1/4`
outwards and the distance becomes 2. -/
theorem resolveCollision_positional_correction_witness :
    (resolveCollision Rat.sqrt 0 1 headOnHeap 0).position = ⟨-(1 / 4), 0, 0⟩ ∧
    (resolveCollision Rat.sqrt 0 1 headOnHeap 1).position = ⟨7 / 4, 0, 0⟩ ∧
    Vec3.length Rat.sqrt (Vec3.sub (resolveCollision Rat.sqrt 0 1 headOnHeap 0).position
      (resolveCollision Rat.sqrt 0 1 headOnHeap 1).position) = 2 ∧
    checkCollision Rat.sqrt (resolveCollision Rat.sqrt 0 1 headOnHeap 0)
      (resolveCollision Rat.sqrt 0 1 headOnHeap 1) = false := by
  have key := resolveCollision_positional_correction Rat.sqrt 0 1 headOnHeap 1 1 (3 / 2)
    rfl rfl
    (by norm_num [headOnHeap, heap2, ball, Vec3.length, Vec3.sub, Vec3.dot, rat_sqrt_nine_quarters])
    (by norm_num [headOnHeap, heap2, ball, Vec3.sub, Vec3.dot])
    (by norm_num) (by norm_num)
    (by norm_num [rat_sqrt_four])
  refine ⟨?_, ?_, ?_, key.2.2.2.2⟩
  · rw [key.2.1]
    norm_num [calculateCollisionNormal, Vec3.normalize, Vec3.smul, Vec3.add, headOnHeap, heap2,
      ball, Vec3.sub, Vec3.dot, rat_sqrt_nine_quarters]
  · rw [key.2.2.1]
    norm_num [calculateCollisionNormal, Vec3.normalize, Vec3.smul, Vec3.add, headOnHeap, heap2,
      ball, Vec3.sub, Vec3.dot, rat_sqrt_nine_quarters]
  · rw [key.2.2.2.1]
    norm_num

end Collision

/-! ## Collision detection (`updateCollisions`, `checkCollision`) -/

section Detection

variable {K : Type} [LinearOrderedField K]

/-- C9, amended: for every two Rectangle objects registered in the engine, the test
by which `updateCollisions` decides whether the pair at registry indices `i, j`
collides is the generic circle test (centre distance `< scale1.x + scale2.x`),
whatever `Rectangle::intersects` returns on the pair; in particular, when the two
rectangles make up the registry, `updateCollisions` resolves them exactly when the
circle test holds. -/
theorem updateCollisions_uses_circle_test (sqrt : K → K) (e : PhysicsEngine K) (h : Heap K)
    (r1 r2 : Rectangle K) :
    (∀ i j : Nat, h (e.physicsObjects.getD i 0) = r1.toAnimationObject →
      h (e.physicsObjects.getD j 0) = r2.toAnimationObject →
      collidePair sqrt e i h j =
        if Vec3.length sqrt (Vec3.sub r1.position r2.position) < r1.scale.x + r2.scale.x
        then resolveCollision sqrt (e.physicsObjects.getD i 0) (e.physicsObjects.getD j 0) h
        else h) ∧
    (∀ a b : Nat, e.physicsObjects = [a, b] → h a = r1.toAnimationObject →
      h b = r2.toAnimationObject →
      updateCollisions sqrt e h =
        if Vec3.length sqrt (Vec3.sub r1.position r2.position) < r1.scale.x + r2.scale.x
        then resolveCollision sqrt a b h else h) := by
  constructor
  · intro i j h1 h2
    simp only [collidePair, checkCollision, h1, h2, decide_eq_true_eq]
  · intro a b hreg h1 h2
    simp [updateCollisions, hreg, List.range_succ, List.range', collidePair, checkCollision,
      h1, h2]

/-- C9 fails as stated: for `Rectangle(0, 0, 1, 1)` and `Rectangle(3/2, 0, 1, 1)` the
predicate `checkCollision` used by `updateCollisions` is true (distance `3/2 < 2`)
and `Rectangle::intersects` is false (the boxes `[-1/2, 1/2]` and `[1, 2]` are apart). -/
theorem checkCollision_ne_rectangle_intersects :
    ¬ (checkCollision Rat.sqrt rectA.toAnimationObject rectB.toAnimationObject
      = Rectangle.intersects rectA rectB) := by
  have h1 : checkCollision Rat.sqrt rectA.toAnimationObject rectB.toAnimationObject = true := by
    norm_num [checkCollision, rectA, rectB, Rectangle.new, Vec3.length, Vec3.sub, Vec3.dot,
      rat_sqrt_nine_quarters]
  have h2 : Rectangle.intersects rectA rectB = false := by
    norm_num [Rectangle.intersects, Rectangle.getMinBounds, Rectangle.getMaxBounds, rectA, rectB,
      Rectangle.new, Vec3.sub, Vec3.add]
  rw [h1, h2]
  decide

/-- C9, amended, on `rectEngine` and `rectHeap`: the pair is resolved although
`Rectangle::intersects` is false. -/
theorem updateCollisions_uses_circle_test_witness :
    Rectangle.intersects rectA rectB = false ∧
    updateCollisions Rat.sqrt rectEngine rectHeap = resolveCollision Rat.sqrt 0 1 rectHeap := by
  have key := (updateCollisions_uses_circle_test Rat.sqrt rectEngine rectHeap rectA rectB).2
    0 1 rfl rfl rfl
  refine ⟨?_, ?_⟩
  · norm_num [Rectangle.intersects, Rectangle.getMinBounds, Rectangle.getMaxBounds, rectA, rectB,
      Rectangle.new, Vec3.sub, Vec3.add]
  · rw [key, if_pos]
    norm_num [rectA, rectB, Rectangle.new, Vec3.length, Vec3.sub, Vec3.dot,
      rat_sqrt_nine_quarters]

end Detection

/-! ## Constraints (`applyConstraints`) -/

section Constraints

variable {K : Type} [LinearOrderedField K]

/-- The call `applyConstraints(obj)` touches no other object. -/
theorem applyConstraints_other (e : PhysicsEngine K) (o j : Nat) (g : Heap K) (hj : j ≠ o) :
    applyConstraints e o g j = g j := by
  unfold applyConstraints
  simp only []
  split_ifs <;> simp [setPosition, setVelocity, hj]

/-- Without walls, an object at or above the ground is left alone. -/
theorem applyConstraints_above (e : PhysicsEngine K) (o : Nat) (g : Heap K)
    (hw : e.wallConstraints = []) (hy : e.groundY ≤ (g o).position.y) :
    applyConstraints e o g = g := by
  simp [applyConstraints, hw, not_lt.mpr hy]

/-- Without walls, an object below the enabled ground is put on it. -/
theorem applyConstraints_below (e : PhysicsEngine K) (o : Nat) (g : Heap K)
    (hg : e.groundConstraintEnabled = true) (hw : e.wallConstraints = [])
    (hy : (g o).position.y < e.groundY) :
    (applyConstraints e o g o).position.y = e.groundY := by
  simp [applyConstraints, hw, hg, hy, setPosition, setVelocity]

/-- The constraint pass leaves an object at or above the ground unchanged. -/
theorem foldl_applyConstraints_above (e : PhysicsEngine K) (hw : e.wallConstraints = [])
    (o : Nat) : ∀ (l : List Nat) (g : Heap K), e.groundY ≤ (g o).position.y →
      l.foldl (fun h a => applyConstraints e a h) g o = g o := by
  intro l
  induction l with
  | nil => intro g _; rfl
  | cons a t ih =>
    intro g hy
    have hstep : applyConstraints e a g o = g o := by
      by_cases ha : o = a
      · subst ha
        rw [applyConstraints_above e o g hw hy]
      · exact applyConstraints_other e a o g ha
    rw [List.foldl_cons, ih _ (by rw [hstep]; exact hy), hstep]

/-- The constraint pass puts a registered object below the ground on it. -/
theorem foldl_applyConstraints_below (e : PhysicsEngine K)
    (hg : e.groundConstraintEnabled = true) (hw : e.wallConstraints = []) (o : Nat) :
    ∀ (l : List Nat) (g : Heap K), o ∈ l → (g o).position.y < e.groundY →
      (l.foldl (fun h a => applyConstraints e a h) g o).position.y = e.groundY := by
  intro l
  induction l with
  | nil => intro g ho; simp at ho
  | cons a t ih =>
    intro g ho hy
    rw [List.foldl_cons]
    by_cases ha : o = a
    · subst ha
      have hset := applyConstraints_below e o g hg hw hy
      rw [foldl_applyConstraints_above e hw o t _ (by rw [hset]), hset]
    · have hin : o ∈ t := by
        rcases List.mem_cons.mp ho with h | h
        · exact absurd h ha
        · exact h
      exact ih _ hin (by rw [applyConstraints_other e a o g ha]; exact hy)

/-- The ground clamp in the arithmetic of the embedding, where every vector has a
normalisation: with the ground constraint enabled at `groundY` and no wall, after
`step(dt)` every registered object, static or not, has `position.y ≥ groundY`; the
constraint pass that ends the step puts a registered object whose `y` is below
`groundY` at exactly `groundY` and leaves an object at or above `groundY` unchanged.
In the code the first part fails where the collision pass normalises a zero vector:
the positions become NaN. -/
theorem step_ground_clamp (sqrt : K → K) (e : PhysicsEngine K) (dt : K) (h : Heap K)
    (hg : e.groundConstraintEnabled = true) (hw : e.wallConstraints = []) :
    (∀ o ∈ e.physicsObjects, e.groundY ≤ (step sqrt e dt h o).position.y) ∧
    (∀ (g : Heap K), ∀ o ∈ e.physicsObjects, (g o).position.y < e.groundY →
      (constrainAll e g o).position.y = e.groundY) ∧
    (∀ (g : Heap K) (o : Nat), e.groundY ≤ (g o).position.y → constrainAll e g o = g o) := by
  have hb : ∀ (g : Heap K), ∀ o ∈ e.physicsObjects, (g o).position.y < e.groundY →
      (constrainAll e g o).position.y = e.groundY :=
    fun g o ho hy => foldl_applyConstraints_below e hg hw o _ g ho hy
  have ha : ∀ (g : Heap K) (o : Nat), e.groundY ≤ (g o).position.y →
      constrainAll e g o = g o :=
    fun g o hy => foldl_applyConstraints_above e hw o _ g hy
  refine ⟨fun o ho => ?_, hb, ha⟩
  simp only [step]
  generalize (if e.collisionDetectionEnabled = true then
    updateCollisions sqrt e (integrateAll e dt h) else integrateAll e dt h) = g
  rcases lt_or_le (g o).position.y e.groundY with hy | hy
  · exact (hb g o ho hy).ge
  · rw [ha g o hy]; exact hy

/-- The ground clamp on `demoEngine` (ground at `y = 0`) and `sunkHeap`, whose objects
are apart: the static ball at `y = -1` is put at `y = 0`, the ball at `y = 5` is left
alone. -/
theorem step_ground_clamp_witness :
    (∀ o ∈ demoEngine.physicsObjects,
      demoEngine.groundY ≤ (step Rat.sqrt demoEngine (1 / 60) sunkHeap o).position.y) ∧
    (constrainAll demoEngine sunkHeap 0).position.y = 0 ∧
    constrainAll demoEngine sunkHeap 1 = sunkHeap 1 := by
  have key := step_ground_clamp Rat.sqrt demoEngine (1 / 60) sunkHeap rfl rfl
  have hgy : demoEngine.groundY = 0 := by
    simp [demoEngine, addGroundConstraint]
  refine ⟨key.1, ?_, key.2.2 sunkHeap 1 ?_⟩
  · rw [← hgy]
    exact key.2.1 sunkHeap 0 (by simp [demoEngine, addGroundConstraint, addObject, PhysicsEngine.new])
      (by rw [hgy]; norm_num [sunkHeap, heap2, ball])
  · rw [hgy]
    norm_num [sunkHeap, heap2, ball]

end Constraints

/-! ## Ground and wall constraints (`applyConstraints`) -/

section Walls

variable {K : Type} [LinearOrderedField K]

/-- C11: with only the ground constraint configured, for an object with bounce `b` in
`[0, 1]` that is below `groundY` with `velocity.y = u < 0`, `applyConstraints` sets
`velocity.y` to `-b * u`, so the reflected speed is `b * |u|` (equal to `|u|` for
`b = 1`, and the velocity is 0 for `b = 0`), and leaves `velocity.x` and
`velocity.z` unchanged. -/
theorem applyConstraints_ground_bounce (e : PhysicsEngine K) (o : Nat) (g : Heap K)
    (hg : e.groundConstraintEnabled = true) (hw : e.wallConstraints = [])
    (hy : (g o).position.y < e.groundY) (hu : (g o).velocity.y < 0)
    (hb0 : 0 ≤ (g o).bounce) (_hb1 : (g o).bounce ≤ 1) :
    (applyConstraints e o g o).velocity.y = -((g o).bounce * (g o).velocity.y) ∧
    |(applyConstraints e o g o).velocity.y| = (g o).bounce * |(g o).velocity.y| ∧
    (applyConstraints e o g o).velocity.x = (g o).velocity.x ∧
    (applyConstraints e o g o).velocity.z = (g o).velocity.z ∧
    ((g o).bounce = 1 → |(applyConstraints e o g o).velocity.y| = |(g o).velocity.y|) ∧
    ((g o).bounce = 0 → (applyConstraints e o g o).velocity.y = 0) := by
  have hv : (applyConstraints e o g o).velocity
      = { (g o).velocity with y := -(g o).velocity.y * (g o).bounce } := by
    simp [applyConstraints, hw, hg, hy, hu, setPosition, setVelocity]
  have h1 : (applyConstraints e o g o).velocity.y = -((g o).bounce * (g o).velocity.y) := by
    rw [hv]; ring
  have h2 : |(applyConstraints e o g o).velocity.y| = (g o).bounce * |(g o).velocity.y| := by
    rw [h1, abs_neg, abs_mul, abs_of_nonneg hb0]
  refine ⟨h1, h2, by rw [hv], by rw [hv], fun hb => ?_, fun hb => ?_⟩
  · rw [h2, hb, one_mul]
  · rw [h1, hb, zero_mul, neg_zero]

/-- A coordinate below the interval is clamped to its lower end. -/
theorem clamp_below (x lo wd : K) (h : x < lo) (hwd : 0 ≤ wd) :
    max lo (min x (lo + wd)) = lo := by
  rw [min_eq_left (by linarith), max_eq_left h.le]

/-- A coordinate above the interval is clamped to its upper end. -/
theorem clamp_above (x lo wd : K) (h : lo + wd < x) (hwd : 0 ≤ wd) :
    max lo (min x (lo + wd)) = lo + wd := by
  rw [min_eq_right h.le, max_eq_right (by linarith)]

/-- A coordinate inside the interval is kept. -/
theorem clamp_inside (x lo wd : K) (h1 : ¬ x < lo) (h2 : ¬ lo + wd < x) :
    max lo (min x (lo + wd)) = x := by
  rw [min_eq_left (not_lt.mp h2), max_eq_right (not_lt.mp h1)]

/-- One pass of the wall loop, for a wall of non-negative width and height. -/
theorem applyWall_spec (b : K) (pos vel : Vec3 K) (m : Bool) (w : WallConstraint K)
    (hwd : 0 ≤ w.width) (hht : 0 ≤ w.height) :
    applyWall b (pos, vel, m) w =
      (clampToWall pos w,
        { x := if (pos.x < w.x ∧ vel.x < 0) ∨ (w.x + w.width < pos.x ∧ 0 < vel.x)
            then -vel.x * b else vel.x
          y := if (pos.y < w.y ∧ vel.y < 0) ∨ (w.y + w.height < pos.y ∧ 0 < vel.y)
            then -vel.y * b else vel.y
          z := vel.z },
        m || decide (pos.x < w.x ∨ w.x + w.width < pos.x ∨ pos.y < w.y ∨ w.y + w.height < pos.y)) := by
  have hx0 : ¬ w.x + w.width < w.x := by linarith
  have hy0 : ¬ w.y + w.height < w.y := by linarith
  have hcx : max w.x (min pos.x (w.x + w.width)) =
      if pos.x < w.x then w.x else if w.x + w.width < pos.x then w.x + w.width else pos.x := by
    split_ifs with h1 h2
    · exact clamp_below _ _ _ h1 hwd
    · exact clamp_above _ _ _ h2 hwd
    · exact clamp_inside _ _ _ h1 h2
  have hcy : max w.y (min pos.y (w.y + w.height)) =
      if pos.y < w.y then w.y else if w.y + w.height < pos.y then w.y + w.height else pos.y := by
    split_ifs with h1 h2
    · exact clamp_below _ _ _ h1 hht
    · exact clamp_above _ _ _ h2 hht
    · exact clamp_inside _ _ _ h1 h2
  have hxab : pos.x < w.x → ¬ w.x + w.width < pos.x := fun h => by linarith
  have hyab : pos.y < w.y → ¬ w.y + w.height < pos.y := fun h => by linarith
  by_cases hxa : pos.x < w.x <;> by_cases hxb : w.x + w.width < pos.x <;>
  by_cases hya : pos.y < w.y <;> by_cases hyb : w.y + w.height < pos.y <;>
  first
  | exact absurd hxb (hxab hxa)
  | exact absurd hyb (hyab hya)
  | (simp only [applyWall, clampToWall, hcx, hcy, hxa, hxb, hya, hyb, hx0, hy0, if_true, if_false,
      true_and, false_and, or_false, false_or, true_or, or_true, Bool.or_true, Bool.or_false,
      decide_True, decide_False]
     first
     | done
     | (refine Prod.ext ?_ (Prod.ext ?_ ?_)
        · rfl
        · apply Vec3.ext <;> simp only [] <;> split_ifs <;> rfl
        · simp))

/-- The method `applyConstraints` in terms of its ground block and its wall loop. -/
theorem applyConstraints_eq (e : PhysicsEngine K) (o : Nat) (g : Heap K) :
    applyConstraints e o g =
      if (e.wallConstraints.foldl (applyWall (g o).bounce)
          (applyGround e (g o).bounce (g o).position (g o).velocity)).2.2 = true
      then setVelocity o (e.wallConstraints.foldl (applyWall (g o).bounce)
          (applyGround e (g o).bounce (g o).position (g o).velocity)).2.1
        (setPosition o (e.wallConstraints.foldl (applyWall (g o).bounce)
          (applyGround e (g o).bounce (g o).position (g o).velocity)).1 g)
      else g := by
  unfold applyConstraints applyGround
  by_cases hc : (e.groundConstraintEnabled && decide ((g o).position.y < e.groundY)) = true
  · simp only [hc, if_true]
  · simp only [hc]

/-- The position left by the wall loop is the fold of the per-wall clamps. -/
theorem foldl_applyWall_position (b : K) :
    ∀ (ws : List (WallConstraint K)) (pos vel : Vec3 K) (m : Bool),
      (∀ w ∈ ws, 0 ≤ w.width ∧ 0 ≤ w.height) →
      (ws.foldl (applyWall b) (pos, vel, m)).1 = ws.foldl clampToWall pos := by
  intro ws
  induction ws with
  | nil => intro pos vel m _; rfl
  | cons w ws ih =>
    intro pos vel m hnn
    have hw := hnn w (List.mem_cons_self _ _)
    rw [List.foldl_cons, List.foldl_cons, applyWall_spec b pos vel m w hw.1 hw.2]
    exact ih _ _ _ (fun w' hw' => hnn w' (List.mem_cons_of_mem _ hw'))

/-- The clamp keeps a position that violates no side of the wall. -/
theorem clampToWall_of_inside (pos : Vec3 K) (w : WallConstraint K)
    (h : ¬ (pos.x < w.x ∨ w.x + w.width < pos.x ∨ pos.y < w.y ∨ w.y + w.height < pos.y)) :
    clampToWall pos w = pos := by
  simp only [not_or] at h
  obtain ⟨h1, h2, h3, h4⟩ := h
  apply Vec3.ext
  · exact clamp_inside _ _ _ h1 h2
  · exact clamp_inside _ _ _ h3 h4
  · rfl

/-- A wall loop that ends unmodified changed nothing. -/
theorem foldl_applyWall_unmodified (b : K) :
    ∀ (ws : List (WallConstraint K)) (pos vel : Vec3 K) (m : Bool),
      (∀ w ∈ ws, 0 ≤ w.width ∧ 0 ≤ w.height) →
      (ws.foldl (applyWall b) (pos, vel, m)).2.2 = false →
      m = false ∧ ws.foldl (applyWall b) (pos, vel, m) = (pos, vel, false) := by
  intro ws
  induction ws with
  | nil =>
    intro pos vel m _ hm
    simp only [List.foldl_nil] at hm ⊢
    exact ⟨hm, by rw [hm]⟩
  | cons w ws ih =>
    intro pos vel m hnn hm
    have hw := hnn w (List.mem_cons_self _ _)
    rw [List.foldl_cons, applyWall_spec b pos vel m w hw.1 hw.2] at hm ⊢
    obtain ⟨h1, h2⟩ := ih _ _ _ (fun w' hw' => hnn w' (List.mem_cons_of_mem _ hw')) hm
    rw [Bool.or_eq_false_iff] at h1
    obtain ⟨hm0, hout⟩ := h1
    have hin : ¬ (pos.x < w.x ∨ w.x + w.width < pos.x ∨ pos.y < w.y ∨ w.y + w.height < pos.y) := by
      simpa using hout
    refine ⟨hm0, ?_⟩
    rw [h2, clampToWall_of_inside pos w hin]
    simp only [not_or] at hin
    obtain ⟨a1, a2, a3, a4⟩ := hin
    simp [a1, a2, a3, a4]

/-- A ground block that ends unmodified changed nothing. -/
theorem applyGround_unmodified (e : PhysicsEngine K) (b : K) (pos vel : Vec3 K)
    (h : (applyGround e b pos vel).2.2 = false) : applyGround e b pos vel = (pos, vel, false) := by
  unfold applyGround at h ⊢
  split_ifs at h ⊢ with hc
  rfl

/-- The clamp puts `x` and `y` inside a wall of non-negative width and height. -/
theorem clampToWall_inside (pos : Vec3 K) (w : WallConstraint K)
    (hwd : 0 ≤ w.width) (hht : 0 ≤ w.height) :
    w.x ≤ (clampToWall pos w).x ∧ (clampToWall pos w).x ≤ w.x + w.width ∧
    w.y ≤ (clampToWall pos w).y ∧ (clampToWall pos w).y ≤ w.y + w.height := by
  simp only [clampToWall]
  exact ⟨le_max_left _ _, max_le (by linarith) (min_le_right _ _),
    le_max_left _ _, max_le (by linarith) (min_le_right _ _)⟩

/-- What `applyConstraints` stores in its object, for walls of non-negative size. -/
theorem applyConstraints_same (e : PhysicsEngine K) (o : Nat) (g : Heap K)
    (hnn : ∀ w ∈ e.wallConstraints, 0 ≤ w.width ∧ 0 ≤ w.height) :
    applyConstraints e o g o =
      { g o with
        position := (e.wallConstraints.foldl (applyWall (g o).bounce)
          (applyGround e (g o).bounce (g o).position (g o).velocity)).1
        velocity := (e.wallConstraints.foldl (applyWall (g o).bounce)
          (applyGround e (g o).bounce (g o).position (g o).velocity)).2.1 } := by
  rw [applyConstraints_eq]
  by_cases hm : (e.wallConstraints.foldl (applyWall (g o).bounce)
      (applyGround e (g o).bounce (g o).position (g o).velocity)).2.2 = true
  · rw [if_pos hm]
    simp [setVelocity, setPosition]
  · rw [if_neg hm]
    have hm' := Bool.eq_false_iff.mpr hm
    obtain ⟨h0, hfold⟩ := foldl_applyWall_unmodified (g o).bounce e.wallConstraints
      (applyGround e (g o).bounce (g o).position (g o).velocity).1
      (applyGround e (g o).bounce (g o).position (g o).velocity).2.1
      (applyGround e (g o).bounce (g o).position (g o).velocity).2.2 hnn hm'
    have hgr := applyGround_unmodified e (g o).bounce (g o).position (g o).velocity h0
    have hfold' : e.wallConstraints.foldl (applyWall (g o).bounce)
        (applyGround e (g o).bounce (g o).position (g o).velocity)
        = ((g o).position, (g o).velocity, false) := by
      rw [hgr] at hfold ⊢
      exact hfold
    rw [hfold']

/-- C12: with exactly one wall `(x, y, width, height)`, `width ≥ 0`, `height ≥ 0`, and
no ground constraint, `applyConstraints` clamps each of `position.x` and
`position.y` to the nearest bound of the wall, so that `x` lies in `[x, x + width]`
and `y` in `[y, y + height]`, keeps `z`, and replaces a velocity component `v` by
`-v * bounce` exactly when the object was outside on a side and `v` pointed further
outward on that side; nothing else in the object changes. -/
theorem applyConstraints_single_wall (e : PhysicsEngine K) (o : Nat) (g : Heap K)
    (w : WallConstraint K) (hg : e.groundConstraintEnabled = false)
    (hw : e.wallConstraints = [w]) (hwd : 0 ≤ w.width) (hht : 0 ≤ w.height) :
    applyConstraints e o g o =
      { g o with
        position := clampToWall (g o).position w
        velocity :=
          { x := if ((g o).position.x < w.x ∧ (g o).velocity.x < 0) ∨
                (w.x + w.width < (g o).position.x ∧ 0 < (g o).velocity.x)
              then -(g o).velocity.x * (g o).bounce else (g o).velocity.x
            y := if ((g o).position.y < w.y ∧ (g o).velocity.y < 0) ∨
                (w.y + w.height < (g o).position.y ∧ 0 < (g o).velocity.y)
              then -(g o).velocity.y * (g o).bounce else (g o).velocity.y
            z := (g o).velocity.z } } ∧
    w.x ≤ (applyConstraints e o g o).position.x ∧
    (applyConstraints e o g o).position.x ≤ w.x + w.width ∧
    w.y ≤ (applyConstraints e o g o).position.y ∧
    (applyConstraints e o g o).position.y ≤ w.y + w.height ∧
    (applyConstraints e o g o).position.z = (g o).position.z := by
  have hnn : ∀ w' ∈ e.wallConstraints, 0 ≤ w'.width ∧ 0 ≤ w'.height := by
    intro w' hw'
    rw [hw, List.mem_singleton] at hw'
    rw [hw']
    exact ⟨hwd, hht⟩
  have hgr : applyGround e (g o).bounce (g o).position (g o).velocity
      = ((g o).position, (g o).velocity, false) := by
    simp [applyGround, hg]
  have key := applyConstraints_same e o g hnn
  rw [hw, hgr, List.foldl_cons, List.foldl_nil,
    applyWall_spec (g o).bounce (g o).position (g o).velocity false w hwd hht] at key
  have hb := clampToWall_inside (g o).position w hwd hht
  refine ⟨key, ?_, ?_, ?_, ?_, ?_⟩ <;> rw [key]
  · exact hb.1
  · exact hb.2.1
  · exact hb.2.2.1
  · exact hb.2.2.2
  · rfl

/-- C13: for a non-empty list of walls of non-negative width and height, the position
produced by `applyConstraints` is the left-to-right fold, in registration order, of
the per-wall clamps (started from the position left by the ground block), and it
lies inside the last-registered wall in `x` and `y`. -/
theorem applyConstraints_walls_in_order (e : PhysicsEngine K) (o : Nat) (g : Heap K)
    (hnn : ∀ w ∈ e.wallConstraints, 0 ≤ w.width ∧ 0 ≤ w.height)
    (hne : e.wallConstraints ≠ []) :
    (applyConstraints e o g o).position =
      e.wallConstraints.foldl clampToWall
        (applyGround e (g o).bounce (g o).position (g o).velocity).1 ∧
    (e.wallConstraints.getLast hne).x ≤ (applyConstraints e o g o).position.x ∧
    (applyConstraints e o g o).position.x ≤
      (e.wallConstraints.getLast hne).x + (e.wallConstraints.getLast hne).width ∧
    (e.wallConstraints.getLast hne).y ≤ (applyConstraints e o g o).position.y ∧
    (applyConstraints e o g o).position.y ≤
      (e.wallConstraints.getLast hne).y + (e.wallConstraints.getLast hne).height := by
  have hpos : (applyConstraints e o g o).position =
      e.wallConstraints.foldl clampToWall
        (applyGround e (g o).bounce (g o).position (g o).velocity).1 := by
    rw [applyConstraints_same e o g hnn]
    exact foldl_applyWall_position (g o).bounce e.wallConstraints _ _ _ hnn
  refine ⟨hpos, ?_⟩
  rw [hpos]
  have hlast := hnn _ (List.getLast_mem hne)
  have hsplit : e.wallConstraints.foldl clampToWall
      (applyGround e (g o).bounce (g o).position (g o).velocity).1
      = clampToWall (e.wallConstraints.dropLast.foldl clampToWall
          (applyGround e (g o).bounce (g o).position (g o).velocity).1)
        (e.wallConstraints.getLast hne) := by
    conv_lhs => rw [← List.dropLast_append_getLast hne]
    rw [List.foldl_append, List.foldl_cons, List.foldl_nil]
  rw [hsplit]
  exact clampToWall_inside _ _ hlast.1 hlast.2

/-- C11 on `demoEngine` and `sunkHeap`: bounce `4/5`, `velocity.y = -2` becomes `8/5`. -/
theorem applyConstraints_ground_bounce_witness :
    (applyConstraints demoEngine 0 sunkHeap 0).velocity.y = 8 / 5 ∧
    |(applyConstraints demoEngine 0 sunkHeap 0).velocity.y| = 4 / 5 * |(-2 : ℚ)| ∧
    (applyConstraints demoEngine 0 sunkHeap 0).velocity.x = 0 ∧
    (applyConstraints demoEngine 0 sunkHeap 0).velocity.z = 0 := by
  have key := applyConstraints_ground_bounce demoEngine 0 sunkHeap rfl rfl
    (by norm_num [demoEngine, addGroundConstraint, sunkHeap, heap2, ball])
    (by norm_num [sunkHeap, heap2, ball])
    (by norm_num [sunkHeap, heap2, ball]) (by norm_num [sunkHeap, heap2, ball])
  refine ⟨?_, key.2.1, key.2.2.1, key.2.2.2.1⟩
  rw [key.1]
  norm_num [sunkHeap, heap2, ball]

/-- C12 on `wallEngine1` and `wallHeap`: the object at `(-2, 7)` with velocity
`(-3, 1)` and bounce `1/2` ends at `(0, 5)` with velocity `(3/2, -1/2)`. -/
theorem applyConstraints_single_wall_witness :
    (applyConstraints wallEngine1 0 wallHeap 0).position = ⟨0, 5, 0⟩ ∧
    (applyConstraints wallEngine1 0 wallHeap 0).velocity = ⟨3 / 2, -(1 / 2), 0⟩ := by
  have key := (applyConstraints_single_wall wallEngine1 0 wallHeap ⟨0, 0, 10, 5⟩ rfl rfl (by norm_num) (by norm_num)).1
  rw [key]
  constructor
  · norm_num [clampToWall, wallHeap, heap2, ball]
  · norm_num [wallHeap, heap2, ball]

/-- C13 on `wallEngine2` and `wallHeap`: the object at `(3, 2)`, inside the first
wall, ends at `(20, 2)`: inside the second wall and outside the first. -/
theorem applyConstraints_walls_in_order_witness :
    (applyConstraints wallEngine2 1 wallHeap 1).position = ⟨20, 2, 0⟩ ∧
    (20 : ℚ) ≤ (applyConstraints wallEngine2 1 wallHeap 1).position.x ∧
    (applyConstraints wallEngine2 1 wallHeap 1).position.x ≤ 20 + 10 ∧
    ¬ (applyConstraints wallEngine2 1 wallHeap 1).position.x ≤ 0 + 10 := by
  have hws : wallEngine2.wallConstraints = [⟨0, 0, 10, 5⟩, ⟨20, 0, 10, 5⟩] := rfl
  have key := applyConstraints_walls_in_order wallEngine2 1 wallHeap
    (by rw [hws]; intro w hw; simp at hw; rcases hw with h | h <;> rw [h] <;> norm_num)
    (by rw [hws]; simp)
  have hpos : (applyConstraints wallEngine2 1 wallHeap 1).position = ⟨20, 2, 0⟩ := by
    rw [key.1, hws]
    norm_num [applyGround, wallEngine2, wallEngine1, addWallConstraint, PhysicsEngine.new,
      clampToWall, wallHeap, heap2, ball]
  refine ⟨hpos, ?_, ?_, ?_⟩ <;> rw [hpos] <;> norm_num

end Walls

/-! ## Timeline playback (`Timeline::update`) -/

section TimelinePlayback

variable {K : Type} [LinearOrderedField K]

/-- One pass of the callback loop appends the call it makes, and nothing else. -/
theorem timeline_checkCallback_eq (t : Timeline K) (cb : TimeCallback K) :
    t.checkCallback cb = { t with invoked := t.invoked ++ firedAt t.m_currentTime [cb] } := by
  unfold Timeline.checkCallback firedAt
  by_cases h : cb.time ≤ t.m_currentTime
  · cases hc : cb.callback <;> simp [h, hc]
  · simp [h]

/-- The callback loop appends the calls it makes, and changes nothing else. -/
theorem timeline_foldl_checkCallback (cbs : List (TimeCallback K)) :
    ∀ t : Timeline K, cbs.foldl Timeline.checkCallback t
      = { t with invoked := t.invoked ++ firedAt t.m_currentTime cbs } := by
  induction cbs with
  | nil => intro t; simp [firedAt]
  | cons cb cbs ih =>
    intro t
    rw [List.foldl_cons, ih, timeline_checkCallback_eq]
    simp [firedAt, List.filterMap_cons]
    cases h : (if cb.time ≤ t.m_currentTime then Option.map (fun f => (f, t.m_currentTime)) cb.callback else none) <;> simp

/-- The method `checkCallbacks` appends `firedAt` of the current time. -/
theorem timeline_checkCallbacks_eq (t : Timeline K) :
    t.checkCallbacks = { t with invoked := t.invoked ++ firedAt t.m_currentTime t.m_callbacks } :=
  timeline_foldl_checkCallback t.m_callbacks t

/-- The method `update` in state Playing. -/
theorem timeline_update_playing (t : Timeline K) (dt : K) (hp : t.isPlaying = true) :
    t.update dt =
      if t.m_currentTime + dt * t.m_timeScale ≥ t.m_duration ∧ t.m_duration > 0 then
        { t with
          m_currentTime := t.m_duration
          m_isPlaying := false
          invoked := t.invoked ++ firedAt t.m_duration t.m_callbacks }
      else
        { t with
          m_currentTime := t.m_currentTime + dt * t.m_timeScale
          invoked := t.invoked
            ++ firedAt (t.m_currentTime + dt * t.m_timeScale) t.m_callbacks } := by
  have hp' : (t.m_isPlaying && !t.m_isPaused) = true := hp
  unfold Timeline.update
  rw [if_pos hp']
  simp only [timeline_checkCallbacks_eq]
  split_ifs <;> rfl

/-- The method `update` outside state Playing. -/
theorem timeline_update_not_playing (t : Timeline K) (dt : K) (hp : t.isPlaying = false) :
    t.update dt = t := by
  have hp' : ¬ (t.m_isPlaying && !t.m_isPaused) = true := by
    simp only [Timeline.isPlaying] at hp
    simp [hp]
  unfold Timeline.update
  rw [if_neg hp']

/-- C14: for a timeline in state Playing with duration `D > 0`, if
`currentTime + dt * timeScale ≥ D` then `update(dt)` leaves `currentTime = D` and
the timeline Stopped (`isStopped` true, `isPlaying` and `isPaused` false). -/
theorem timeline_update_auto_stop (t : Timeline K) (dt : K) (hp : t.isPlaying = true) (hD : 0 < t.m_duration)
    (hend : t.m_currentTime + dt * t.m_timeScale ≥ t.m_duration) :
    (t.update dt).m_currentTime = t.m_duration ∧ (t.update dt).isStopped = true ∧
    (t.update dt).isPlaying = false ∧ (t.update dt).isPaused = false := by
  have hflags : t.m_isPlaying = true ∧ t.m_isPaused = false := by
    simpa [Timeline.isPlaying] using hp
  rw [timeline_update_playing t dt hp, if_pos ⟨hend, hD⟩]
  simp [Timeline.isStopped, Timeline.isPlaying, Timeline.isPaused, hflags.2]

/-- C15: in state Paused or Stopped `update(dt)` leaves the whole timeline unchanged
(so no callback is called); in state Playing with duration 0, or with
`currentTime + dt * timeScale < duration`, it sets `currentTime` to
`currentTime + dt * timeScale` and stays Playing. -/
theorem timeline_update_only_while_playing (t : Timeline K) (dt : K) :
    (t.isPaused = true ∨ t.isStopped = true → t.update dt = t) ∧
    (t.isPlaying = true →
      t.m_duration = 0 ∨ t.m_currentTime + dt * t.m_timeScale < t.m_duration →
      (t.update dt).m_currentTime = t.m_currentTime + dt * t.m_timeScale ∧
      (t.update dt).isPlaying = true) := by
  constructor
  · intro h
    apply timeline_update_not_playing
    rcases h with h | h
    · simp only [Timeline.isPaused] at h
      simp [Timeline.isPlaying, h]
    · simp only [Timeline.isStopped, Bool.and_eq_true, Bool.not_eq_true'] at h
      simp [Timeline.isPlaying, h.1]
  · intro hp hd
    have hflags : t.m_isPlaying = true ∧ t.m_isPaused = false := by
      simpa [Timeline.isPlaying] using hp
    have hno : ¬ (t.m_currentTime + dt * t.m_timeScale ≥ t.m_duration ∧ t.m_duration > 0) := by
      rintro ⟨h1, h2⟩
      rcases hd with hd | hd
      · rw [hd] at h2; exact lt_irrefl _ h2
      · exact absurd h1 (not_le.mpr hd)
    rw [timeline_update_playing t dt hp, if_neg hno]
    simp [Timeline.isPlaying, hflags.1, hflags.2]

/-- The method `update` keeps the paused flag and never sets the playing flag. -/
theorem timeline_update_flags (t : Timeline K) (dt : K) :
    (t.update dt).m_isPaused = t.m_isPaused ∧
    ((t.update dt).m_isPlaying = true → t.m_isPlaying = true) := by
  cases hp : t.isPlaying
  · rw [timeline_update_not_playing t dt hp]
    exact ⟨rfl, id⟩
  · have hflags : t.m_isPlaying = true ∧ t.m_isPaused = false := by
      simpa [Timeline.isPlaying] using hp
    rw [timeline_update_playing t dt hp]
    split_ifs <;> simp [hflags.1]

/-- No public call makes the playing and the paused flag both true. -/
theorem timeline_apply_flags (sort : List (Marker K) → List (Marker K)) (t : Timeline K)
    (op : TimelineOp K) (h : ¬ (t.m_isPlaying = true ∧ t.m_isPaused = true)) :
    ¬ ((op.apply sort t).m_isPlaying = true ∧ (op.apply sort t).m_isPaused = true) := by
  cases op with
  | play => simp [TimelineOp.apply, Timeline.play]
  | pause => simp [TimelineOp.apply, Timeline.pause]
  | reset => simp [TimelineOp.apply, Timeline.reset]
  | stop => simp [TimelineOp.apply, Timeline.stop]
  | setTimeScale scale => exact h
  | setCurrentTime time => exact h
  | setDuration duration =>
    simp only [TimelineOp.apply, Timeline.setDuration]
    split_ifs <;> exact h
  | update deltaTime =>
    simp only [TimelineOp.apply]
    obtain ⟨h1, h2⟩ := timeline_update_flags t deltaTime
    rintro ⟨ha, hb⟩
    exact h ⟨h2 ha, h1 ▸ hb⟩
  | addMarker time name => exact h
  | removeMarker name => exact h
  | jumpToMarker name =>
    simp only [TimelineOp.apply, Timeline.jumpToMarker]
    split <;> exact h
  | addTimeCallback time callback => exact h
  | removeTimeCallback time => exact h

/-- No sequence of public calls makes the playing and the paused flag both true. -/
theorem timeline_run_flags (sort : List (Marker K) → List (Marker K)) (ops : List (TimelineOp K)) :
    ∀ t : Timeline K, ¬ (t.m_isPlaying = true ∧ t.m_isPaused = true) →
      ¬ ((t.run sort ops).m_isPlaying = true ∧ (t.run sort ops).m_isPaused = true) := by
  induction ops with
  | nil => intro t h; exact h
  | cons op ops ih =>
    intro t h
    exact ih _ (timeline_apply_flags sort t op h)

/-- C16: in every state reached from a new timeline by a sequence of public calls
(whatever `std::sort` does), the playing and the paused flag are not both true, and
exactly one of `isPlaying()`, `isPaused()`, `isStopped()` holds. -/
theorem timeline_flags_exclusive (sort : List (Marker K) → List (Marker K)) (ops : List (TimelineOp K)) :
    ¬ (((Timeline.new : Timeline K).run sort ops).m_isPlaying = true ∧
      ((Timeline.new : Timeline K).run sort ops).m_isPaused = true) ∧
    ((((Timeline.new : Timeline K).run sort ops).isPlaying = true ∧
        ((Timeline.new : Timeline K).run sort ops).isPaused = false ∧
        ((Timeline.new : Timeline K).run sort ops).isStopped = false) ∨
      (((Timeline.new : Timeline K).run sort ops).isPlaying = false ∧
        ((Timeline.new : Timeline K).run sort ops).isPaused = true ∧
        ((Timeline.new : Timeline K).run sort ops).isStopped = false) ∨
      (((Timeline.new : Timeline K).run sort ops).isPlaying = false ∧
        ((Timeline.new : Timeline K).run sort ops).isPaused = false ∧
        ((Timeline.new : Timeline K).run sort ops).isStopped = true)) := by
  have h := timeline_run_flags sort ops (Timeline.new : Timeline K) (by simp [Timeline.new])
  refine ⟨h, ?_⟩
  generalize (Timeline.new : Timeline K).run sort ops = t at h ⊢
  simp only [Timeline.isPlaying, Timeline.isPaused, Timeline.isStopped]
  cases h1 : t.m_isPlaying <;> cases h2 : t.m_isPaused <;> simp_all

/-- C17 at the failing inputs: from a new timeline, `setTimeScale(-1); play();
update(1)` and `play(); update(-1)` both end with `currentTime = -1`. -/
theorem timeline_update_negative_time :
    ((Timeline.new : Timeline ℚ).run id
      [TimelineOp.setTimeScale (-1), TimelineOp.play, TimelineOp.update 1]).m_currentTime = -1 ∧
    ((Timeline.new : Timeline ℚ).run id [TimelineOp.play, TimelineOp.update (-1)]).m_currentTime
      = -1 := by
  constructor <;>
    norm_num [Timeline.run, TimelineOp.apply, Timeline.new, Timeline.play, Timeline.setTimeScale,
      Timeline.update, Timeline.checkCallbacks]

end TimelinePlayback

/-! ## Timeline markers and callbacks -/

section TimelineMarkers

variable {K : Type} [LinearOrderedField K]

/-- The method `update` keeps the markers. -/
theorem timeline_update_markers (t : Timeline K) (dt : K) :
    (t.update dt).m_markers = t.m_markers := by
  cases hp : t.isPlaying
  · rw [timeline_update_not_playing t dt hp]
  · rw [timeline_update_playing t dt hp]
    split_ifs <;> rfl

/-- The method `setDuration` keeps the markers. -/
theorem timeline_setDuration_markers (t : Timeline K) (d : K) :
    (t.setDuration d).m_markers = t.m_markers := by
  simp only [Timeline.setDuration]
  split_ifs <;> rfl

/-- The method `jumpToMarker` keeps the markers. -/
theorem timeline_jumpToMarker_markers (t : Timeline K) (name : String) :
    (t.jumpToMarker name).m_markers = t.m_markers := by
  simp only [Timeline.jumpToMarker]
  split <;> rfl

/-- Every sequence of public calls keeps the markers ordered and, up to
rearrangement, equal to the markers added and not since removed. -/
theorem timeline_run_markers (sort : List (Marker K) → List (Marker K)) (hs : IsSort sort)
    (ops : List (TimelineOp K)) :
    ∀ (t : Timeline K) (l : List (Marker K)), t.m_markers.Sorted Marker.le →
      t.m_markers.Perm l →
      (t.run sort ops).m_markers.Sorted Marker.le ∧
        (t.run sort ops).m_markers.Perm (markersOf l ops) := by
  induction ops with
  | nil => intro t l h1 h2; exact ⟨h1, h2⟩
  | cons op ops ih =>
    intro t l h1 h2
    have hrun : t.run sort (op :: ops) = (op.apply sort t).run sort ops := rfl
    rw [hrun]
    cases op with
    | play => exact ih _ l h1 h2
    | pause => exact ih _ l h1 h2
    | reset => exact ih _ l h1 h2
    | stop => exact ih _ l h1 h2
    | setTimeScale scale => exact ih _ l h1 h2
    | setCurrentTime time => exact ih _ l h1 h2
    | setDuration duration =>
      exact ih _ l (by simpa [TimelineOp.apply, timeline_setDuration_markers] using h1)
        (by simpa [TimelineOp.apply, timeline_setDuration_markers] using h2)
    | update deltaTime =>
      exact ih _ l (by simpa [TimelineOp.apply, timeline_update_markers] using h1)
        (by simpa [TimelineOp.apply, timeline_update_markers] using h2)
    | addMarker time name =>
      have hp := (hs (t.m_markers ++ [{ time := time, name := name }])).1
      have hsd := (hs (t.m_markers ++ [{ time := time, name := name }])).2
      exact ih (TimelineOp.apply sort t (TimelineOp.addMarker time name))
        (l ++ [{ time := time, name := name }]) hsd (hp.trans (List.Perm.append_right _ h2))
    | removeMarker name =>
      exact ih (TimelineOp.apply sort t (TimelineOp.removeMarker name))
        (l.filter (fun marker => !(marker.name == name)))
        (List.Sorted.filter _ h1) (List.Perm.filter _ h2)
    | jumpToMarker name =>
      exact ih _ l (by simpa [TimelineOp.apply, timeline_jumpToMarker_markers] using h1)
        (by simpa [TimelineOp.apply, timeline_jumpToMarker_markers] using h2)
    | addTimeCallback time callback => exact ih _ l h1 h2
    | removeTimeCallback time => exact ih _ l h1 h2

/-- C18: after any sequence of `addMarker` and `removeMarker` calls (and of any other
public calls) on a new timeline, the marker list is ordered by non-decreasing time
and is a rearrangement of the markers added and not since removed by name;
`std::sort` is any function that returns an ordered rearrangement of its input. -/
theorem timeline_markers_sorted (sort : List (Marker K) → List (Marker K)) (hs : IsSort sort)
    (ops : List (TimelineOp K)) :
    ((Timeline.new : Timeline K).run sort ops).m_markers.Sorted Marker.le ∧
    ((Timeline.new : Timeline K).run sort ops).m_markers.Perm (markersOf [] ops) :=
  timeline_run_markers sort hs ops Timeline.new [] List.sorted_nil (List.Perm.refl _)

/-- In an ordered list the first marker with a property has the least time among them. -/
theorem find_first_is_least (p : Marker K → Bool) :
    ∀ (l : List (Marker K)) (m : Marker K), l.Sorted Marker.le → l.find? p = some m →
      m ∈ l ∧ p m = true ∧ ∀ m' ∈ l, p m' = true → m.time ≤ m'.time := by
  intro l
  induction l with
  | nil => intro m _ h; simp at h
  | cons a l ih =>
    intro m hs hf
    have hsl := List.sorted_cons.mp hs
    by_cases hpa : p a = true
    · rw [List.find?_cons_of_pos _ hpa] at hf
      have hma : a = m := Option.some.inj hf
      subst hma
      refine ⟨List.mem_cons_self _ _, hpa, ?_⟩
      intro m' hm' _
      rcases List.mem_cons.mp hm' with h | h
      · rw [h]
      · exact hsl.1 m' h
    · rw [List.find?_cons_of_neg _ hpa] at hf
      obtain ⟨h1, h2, h3⟩ := ih m hsl.2 hf
      refine ⟨List.mem_cons_of_mem _ h1, h2, ?_⟩
      intro m' hm' hpm'
      rcases List.mem_cons.mp hm' with h | h
      · rw [h] at hpm'; exact absurd hpm' hpa
      · exact h3 m' h hpm'

/-- C19: in every state reached from a new timeline, for a name carried by at least
one marker `jumpToMarker(name)` sets `currentTime` to `max(0, min(t, duration))`
with `t` the smallest time among the markers with that name, and changes nothing
else; for a name carried by no marker it leaves the timeline unchanged. -/
theorem timeline_jumpToMarker_first (sort : List (Marker K) → List (Marker K)) (hs : IsSort sort)
    (ops : List (TimelineOp K)) (name : String) :
    ((∃ m ∈ ((Timeline.new : Timeline K).run sort ops).m_markers, m.name = name) →
      ∃ m ∈ ((Timeline.new : Timeline K).run sort ops).m_markers, m.name = name ∧
        (∀ m' ∈ ((Timeline.new : Timeline K).run sort ops).m_markers,
          m'.name = name → m.time ≤ m'.time) ∧
        ((Timeline.new : Timeline K).run sort ops).jumpToMarker name =
          { (Timeline.new : Timeline K).run sort ops with
            m_currentTime :=
              max 0 (min m.time ((Timeline.new : Timeline K).run sort ops).m_duration) }) ∧
    ((∀ m ∈ ((Timeline.new : Timeline K).run sort ops).m_markers, m.name ≠ name) →
      ((Timeline.new : Timeline K).run sort ops).jumpToMarker name
        = (Timeline.new : Timeline K).run sort ops) := by
  have hsorted := (timeline_run_markers sort hs ops Timeline.new [] List.sorted_nil
    (List.Perm.refl _)).1
  generalize (Timeline.new : Timeline K).run sort ops = t at hsorted ⊢
  constructor
  · rintro ⟨m0, hm0, hn0⟩
    cases hf : t.m_markers.find? (fun marker => marker.name == name) with
    | none =>
      have := List.find?_eq_none.mp hf m0 hm0
      simp [hn0] at this
    | some m =>
      obtain ⟨h1, h2, h3⟩ := find_first_is_least _ t.m_markers m hsorted hf
      refine ⟨m, h1, by simpa using h2, fun m' hm' hn' => h3 m' hm' (by simpa using hn'), ?_⟩
      simp only [Timeline.jumpToMarker, hf, Timeline.setCurrentTime]
  · intro hnone
    have hf : t.m_markers.find? (fun marker => marker.name == name) = none := by
      rw [List.find?_eq_none]
      intro m hm
      simpa using hnone m hm
    simp only [Timeline.jumpToMarker, hf]

/-- The method `update` keeps the registered callbacks. -/
theorem timeline_update_callbacks (t : Timeline K) (dt : K) :
    (t.update dt).m_callbacks = t.m_callbacks := by
  cases hp : t.isPlaying
  · rw [timeline_update_not_playing t dt hp]
  · rw [timeline_update_playing t dt hp]
    split_ifs <;> rfl

/-- The calls made by one `update` in state Playing. -/
theorem timeline_update_invoked (t : Timeline K) (dt : K) (hp : t.isPlaying = true) :
    (t.update dt).invoked = t.invoked ++ firedAt (t.update dt).m_currentTime t.m_callbacks := by
  rw [timeline_update_playing t dt hp]
  split_ifs <;> rfl

/-- Once its thresholds are passed, a function is called once per registration. -/
theorem count_firedAt (f : Nat) (now : K) :
    ∀ cbs : List (TimeCallback K), (∀ cb ∈ cbs, cb.callback = some f → cb.time ≤ now) →
      ((firedAt now cbs).map Prod.fst).count f
        = (cbs.map TimeCallback.callback).count (some f) := by
  intro cbs
  induction cbs with
  | nil => intro _; rfl
  | cons cb cbs ih =>
    intro h
    have ih' := ih (fun cb' hcb' => h cb' (List.mem_cons_of_mem _ hcb'))
    have hfired : firedAt now (cb :: cbs)
        = (if cb.time ≤ now then (cb.callback.map (fun g => (g, now))).toList else [])
          ++ firedAt now cbs := by
      simp only [firedAt, List.filterMap_cons]
      by_cases hle : cb.time ≤ now
      · cases hc : cb.callback <;> simp [hle, hc]
      · simp [hle]
    rw [hfired, List.map_append, List.count_append, ih', List.map_cons, List.count_cons]
    cases hc : cb.callback with
    | none => simp
    | some g =>
      by_cases hg : g = f
      · subst hg
        have hle := h cb (List.mem_cons_self _ _) hc
        simp [hle, add_comm]
      · by_cases hle : cb.time ≤ now
        · simp [hle, hg, List.count_cons]
        · simp [hle, hg]

/-- C20: an `update(dt)` made in state Playing calls, in registration order and with
the current time after the advance (and clamp) as argument, exactly the registered
callbacks whose trigger time is `≤` that current time; hence `k` consecutive updates
made in state Playing, each ending at or after the thresholds of a function `f`, call
`f` `k` times per registration of `f`. -/
theorem timeline_callbacks_fire_every_update (t : Timeline K) :
    (∀ dt : K, t.isPlaying = true →
      (t.update dt).invoked = t.invoked ++ firedAt (t.update dt).m_currentTime t.m_callbacks) ∧
    (∀ (f : Nat) (time : K) (dts : List K), PlayingPast time dts t →
      (∀ cb ∈ t.m_callbacks, cb.callback = some f → cb.time ≤ time) →
      (((t.updates dts).invoked).map Prod.fst).count f =
        (t.invoked.map Prod.fst).count f
          + dts.length * (t.m_callbacks.map TimeCallback.callback).count (some f)) := by
  refine ⟨fun dt hp => timeline_update_invoked t dt hp, ?_⟩
  intro f time dts
  induction dts generalizing t with
  | nil => intro _ _; simp [Timeline.updates]
  | cons dt dts ih =>
    intro hpast hcb
    obtain ⟨hp, hreach, hrest⟩ := hpast
    have hcbs := timeline_update_callbacks t dt
    have hstep : ((t.update dt).invoked.map Prod.fst).count f
        = (t.invoked.map Prod.fst).count f
          + (t.m_callbacks.map TimeCallback.callback).count (some f) := by
      rw [timeline_update_invoked t dt hp, List.map_append, List.count_append,
        count_firedAt f _ t.m_callbacks (fun cb h1 h2 => le_trans (hcb cb h1 h2) hreach)]
    have hupd : t.updates (dt :: dts) = (t.update dt).updates dts := rfl
    rw [hupd, ih (t.update dt) hrest (by rw [hcbs]; exact hcb), hstep, hcbs, List.length_cons]
    ring

end TimelineMarkers

/-! ## Timeline: evaluations -/

section TimelineEvaluations

/-- Insertion sort meets the contract of `std::sort`. -/
theorem markerSort_isSort : IsSort markerSort := by
  intro l
  haveI : IsTotal (Marker ℚ) Marker.le := ⟨fun a b => le_total a.time b.time⟩
  haveI : IsTrans (Marker ℚ) Marker.le := ⟨fun a b c hab hbc => le_trans hab hbc⟩
  exact ⟨List.perm_insertionSort _ l, List.sorted_insertionSort _ l⟩

/-- The members of `fiveSecondTimeline`. -/
theorem fiveSecondTimeline_eq :
    fiveSecondTimeline = { (Timeline.new : Timeline ℚ) with m_duration := 5, m_isPlaying := true } := by
  norm_num [fiveSecondTimeline, Timeline.setDuration, Timeline.play, Timeline.new]

/-- C14 with duration 5, time scale 1, current time 0: `update(10)` gives current
time 5 and Stopped. -/
theorem timeline_update_auto_stop_witness :
    (fiveSecondTimeline.update 10).m_currentTime = 5 ∧
    (fiveSecondTimeline.update 10).isStopped = true ∧
    (fiveSecondTimeline.update 10).isPlaying = false ∧
    (fiveSecondTimeline.update 10).isPaused = false := by
  have key := timeline_update_auto_stop fiveSecondTimeline 10
    (by simp [fiveSecondTimeline_eq, Timeline.isPlaying, Timeline.new])
    (by norm_num [fiveSecondTimeline_eq])
    (by norm_num [fiveSecondTimeline_eq, Timeline.new])
  have hd : fiveSecondTimeline.m_duration = 5 := by rw [fiveSecondTimeline_eq]
  rw [hd] at key
  exact key

/-- C15 on `fiveSecondTimeline`: paused, `update(2)` changes nothing; playing, it
advances to 2 and stays Playing. -/
theorem timeline_update_only_while_playing_witness :
    fiveSecondTimeline.pause.update 2 = fiveSecondTimeline.pause ∧
    (fiveSecondTimeline.update 2).m_currentTime = 2 ∧
    (fiveSecondTimeline.update 2).isPlaying = true := by
  have key := timeline_update_only_while_playing fiveSecondTimeline 2
  have keyp := timeline_update_only_while_playing fiveSecondTimeline.pause 2
  have h2 := key.2 (by simp [fiveSecondTimeline_eq, Timeline.isPlaying, Timeline.new])
    (Or.inr (by norm_num [fiveSecondTimeline_eq, Timeline.new]))
  refine ⟨keyp.1 (Or.inl (by simp [Timeline.pause, Timeline.isPaused])), ?_, h2.2⟩
  rw [h2.1]
  norm_num [fiveSecondTimeline_eq, Timeline.new]

/-- The markers left by `markerOps`. -/
theorem markerOps_markers :
    ((Timeline.new : Timeline ℚ).run markerSort markerOps).m_markers
      = [{ time := 2, name := "b" }, { time := 3, name := "b" }] := by
  norm_num [Timeline.run, markerOps, TimelineOp.apply, Timeline.setDuration, Timeline.addMarker,
    Timeline.sortMarkers, Timeline.removeMarker, Timeline.new, markerSort, List.insertionSort,
    List.orderedInsert, Marker.le]
  decide

/-- C18 on `markerOps`: the markers left have times 2 and 3, in this order. -/
theorem timeline_markers_sorted_witness :
    ((Timeline.new : Timeline ℚ).run markerSort markerOps).m_markers.Sorted Marker.le ∧
    ((Timeline.new : Timeline ℚ).run markerSort markerOps).m_markers.Perm
      (markersOf [] markerOps) ∧
    ((Timeline.new : Timeline ℚ).run markerSort markerOps).m_markers.map Marker.time = [2, 3] := by
  have key := timeline_markers_sorted markerSort markerSort_isSort markerOps
  refine ⟨key.1, key.2, ?_⟩
  rw [markerOps_markers]
  rfl

/-- C19 after `markerOps` (duration 5, markers `b` at 2 and 3): `jumpToMarker("b")`
sets the current time to 2, `jumpToMarker("c")` changes nothing. -/
theorem timeline_jumpToMarker_first_witness :
    (((Timeline.new : Timeline ℚ).run markerSort markerOps).jumpToMarker "b").m_currentTime = 2 ∧
    ((Timeline.new : Timeline ℚ).run markerSort markerOps).jumpToMarker "c"
      = (Timeline.new : Timeline ℚ).run markerSort markerOps := by
  have key := timeline_jumpToMarker_first markerSort markerSort_isSort markerOps
  have hd : ((Timeline.new : Timeline ℚ).run markerSort markerOps).m_duration = 5 := by
    norm_num [Timeline.run, markerOps, TimelineOp.apply, Timeline.setDuration, Timeline.addMarker,
      Timeline.sortMarkers, Timeline.removeMarker, Timeline.new]
  constructor
  · obtain ⟨m, hm, _, hleast, heq⟩ := (key "b").1
      ⟨{ time := 2, name := "b" }, by rw [markerOps_markers]; simp, rfl⟩
    have h2 : m.time ≤ 2 :=
      hleast { time := 2, name := "b" } (by rw [markerOps_markers]; simp) rfl
    have h2' : 2 ≤ m.time := by
      rw [markerOps_markers] at hm
      simp only [List.mem_cons, List.mem_singleton, List.not_mem_nil, or_false] at hm
      rcases hm with h | h
      · rw [h]
      · rw [h]
        norm_num
    have hmt : m.time = 2 := le_antisymm h2 h2'
    rw [heq, hmt, hd]
    norm_num
  · apply (key "c").2
    intro m hm
    rw [markerOps_markers] at hm
    simp only [List.mem_cons, List.mem_singleton, List.not_mem_nil, or_false] at hm
    rcases hm with h | h <;> (rw [h]; decide)

/-- The members of `callbackTimeline`. -/
theorem callbackTimeline_eq :
    callbackTimeline = { (Timeline.new : Timeline ℚ) with
      m_isPlaying := true, m_callbacks := [{ time := 1, callback := some 7 }] } := by
  simp [callbackTimeline, Timeline.addTimeCallback, Timeline.play, Timeline.new]

/-- C20 on `callbackTimeline`: the first `update(2)` calls function 7 with argument 2,
and three consecutive updates call it three times. -/
theorem timeline_callbacks_fire_every_update_witness :
    (callbackTimeline.update 2).invoked = [(7, 2)] ∧
    (((callbackTimeline.updates [2, 1, 1]).invoked).map Prod.fst).count 7 = 3 := by
  have key := timeline_callbacks_fire_every_update callbackTimeline
  have hp : callbackTimeline.isPlaying = true := by
    simp [callbackTimeline_eq, Timeline.isPlaying, Timeline.new]
  constructor
  · rw [key.1 2 hp]
    norm_num [callbackTimeline_eq, Timeline.new, Timeline.update, Timeline.checkCallbacks,
      Timeline.checkCallback, firedAt, List.filterMap_cons]
  · have h := key.2 7 1 [2, 1, 1]
      (by
        norm_num [PlayingPast, callbackTimeline_eq, Timeline.new, Timeline.update, Timeline.isPlaying,
          Timeline.checkCallbacks, Timeline.checkCallback])
      (by
        intro cb hcb _
        rw [callbackTimeline_eq] at hcb
        simp only [List.mem_singleton] at hcb
        rw [hcb])
    rw [h]
    simp [callbackTimeline_eq, Timeline.new]

end TimelineEvaluations

/-! ## Object attributes, progress and `move_to` -/

section Attributes

variable {K : Type} [LinearOrderedField K]

/-- C24: one evaluation of `move_to(x, y)` at progress `t` on the object at position
`p0 = (x0, y0, z0)` sets its position to `p0 + t * ((x, y, z0) - p0)`; `z`, the
rotation, the scale, every other member and every other object are unchanged. -/
theorem move_to_interpolates (x y : K) (o : Nat) (t : K) (h : Heap K) :
    move_to x y (some o) t h o =
      { h o with
        position := Vec3.add (h o).position
          (Vec3.smul (Vec3.sub ⟨x, y, (h o).position.z⟩ (h o).position) t) } ∧
    (move_to x y (some o) t h o).position.z = (h o).position.z ∧
    (move_to x y (some o) t h o).rotation = (h o).rotation ∧
    (move_to x y (some o) t h o).scale = (h o).scale ∧
    ∀ j, j ≠ o → move_to x y (some o) t h j = h j := by
  refine ⟨by simp [move_to, setPosition], ?_, by simp [move_to, setPosition],
    by simp [move_to, setPosition], fun j hj => by simp [move_to, setPosition, hj]⟩
  simp [move_to, setPosition, Vec3.add, Vec3.smul, Vec3.sub]

/-- C28: in every state of an `AnimationObject` reached from construction by a
sequence of `setMass`, `setBounce`, `setFriction` and `setOpacity` calls with
arbitrary arguments, `mass ≥ 0.001` and bounce, friction and opacity lie in
`[0, 1]`; each setter stores its argument clamped into its range, so an in-range
argument is stored as it is. -/
theorem attributes_clamped (ops : List (AttributeOp K)) :
    (1 / 1000 ≤ (ops.foldl AttributeOp.apply (AnimationObject.new : AnimationObject K)).mass ∧
      0 ≤ (ops.foldl AttributeOp.apply (AnimationObject.new : AnimationObject K)).bounce ∧
      (ops.foldl AttributeOp.apply (AnimationObject.new : AnimationObject K)).bounce ≤ 1 ∧
      0 ≤ (ops.foldl AttributeOp.apply (AnimationObject.new : AnimationObject K)).friction ∧
      (ops.foldl AttributeOp.apply (AnimationObject.new : AnimationObject K)).friction ≤ 1 ∧
      0 ≤ (ops.foldl AttributeOp.apply (AnimationObject.new : AnimationObject K)).opacity ∧
      (ops.foldl AttributeOp.apply (AnimationObject.new : AnimationObject K)).opacity ≤ 1) ∧
    (∀ (obj : AnimationObject K) (v : K),
      (obj.setMass v).mass = max (1 / 1000) v ∧ (obj.setBounce v).bounce = max 0 (min 1 v) ∧
      (obj.setFriction v).friction = max 0 (min 1 v) ∧
      (obj.setOpacity v).opacity = max 0 (min 1 v) ∧
      (1 / 1000 ≤ v → (obj.setMass v).mass = v) ∧
      (0 ≤ v → v ≤ 1 → (obj.setBounce v).bounce = v ∧ (obj.setFriction v).friction = v ∧
        (obj.setOpacity v).opacity = v)) := by
  constructor
  · have hinv : ∀ (ops : List (AttributeOp K)) (obj : AnimationObject K),
        (1 / 1000 ≤ obj.mass ∧ 0 ≤ obj.bounce ∧ obj.bounce ≤ 1 ∧ 0 ≤ obj.friction ∧
          obj.friction ≤ 1 ∧ 0 ≤ obj.opacity ∧ obj.opacity ≤ 1) →
        (1 / 1000 ≤ (ops.foldl AttributeOp.apply obj).mass ∧
          0 ≤ (ops.foldl AttributeOp.apply obj).bounce ∧
          (ops.foldl AttributeOp.apply obj).bounce ≤ 1 ∧
          0 ≤ (ops.foldl AttributeOp.apply obj).friction ∧
          (ops.foldl AttributeOp.apply obj).friction ≤ 1 ∧
          0 ≤ (ops.foldl AttributeOp.apply obj).opacity ∧
          (ops.foldl AttributeOp.apply obj).opacity ≤ 1) := by
      intro ops
      induction ops with
      | nil => intro obj h; exact h
      | cons op ops ih =>
        intro obj h
        obtain ⟨h1, h2, h3, h4, h5, h6, h7⟩ := h
        apply ih
        cases op with
        | setMass mass =>
          exact ⟨le_max_left _ _, h2, h3, h4, h5, h6, h7⟩
        | setBounce bounce =>
          exact ⟨h1, le_max_left _ _, max_le zero_le_one (min_le_left _ _), h4, h5, h6, h7⟩
        | setFriction friction =>
          exact ⟨h1, h2, h3, le_max_left _ _, max_le zero_le_one (min_le_left _ _), h6, h7⟩
        | setOpacity opacity =>
          exact ⟨h1, h2, h3, h4, h5, le_max_left _ _, max_le zero_le_one (min_le_left _ _)⟩
    apply hinv
    simp only [AnimationObject.new]
    norm_num
  · intro obj v
    refine ⟨rfl, rfl, rfl, rfl, fun hv => ?_, fun h0 h1 => ⟨?_, ?_, ?_⟩⟩
    · exact max_eq_right hv
    · show max 0 (min 1 v) = v
      rw [min_eq_right h1, max_eq_right h0]
    · show max 0 (min 1 v) = v
      rw [min_eq_right h1, max_eq_right h0]
    · show max 0 (min 1 v) = v
      rw [min_eq_right h1, max_eq_right h0]

/-- The progress stored by `internalUpdate`. -/
theorem internalUpdate_progress (dt : K) (obj : AnimationObject K) :
    (obj.internalUpdate dt).animationProgress =
      if obj.animationProgress < 1 then
        (if obj.animationProgress + dt * (1 / 2) ≥ 1 then 1
          else obj.animationProgress + dt * (1 / 2))
      else obj.animationProgress := by
  simp only [AnimationObject.internalUpdate]
  split_ifs <;> rfl

/-- The method `internalUpdate` with `dt ≥ 0` keeps the progress in `[0, 1]`. -/
theorem internalUpdate_range (dt : K) (hdt : 0 ≤ dt) (obj : AnimationObject K)
    (h0 : 0 ≤ obj.animationProgress) (h1 : obj.animationProgress ≤ 1) :
    0 ≤ (obj.internalUpdate dt).animationProgress ∧
      (obj.internalUpdate dt).animationProgress ≤ 1 := by
  rw [internalUpdate_progress]
  have hd : 0 ≤ dt * (1 / 2) := by positivity
  split_ifs with ha hb
  · exact ⟨zero_le_one, le_rfl⟩
  · exact ⟨by linarith, (not_le.mp hb).le⟩
  · exact ⟨h0, h1⟩

/-- C29: in every state of an `AnimationObject` reached from construction by a
sequence of `setAnimationProgress(p)` with arbitrary `p` and `update(dt)` with
`dt ≥ 0`, the animation progress lies in `[0, 1]`, and an update of an object whose
progress is 1 leaves the object as it is. -/
theorem progress_normalized (ops : List (ProgressOp K)) (hops : ∀ op ∈ ops, op.Forward) :
    0 ≤ (ops.foldl ProgressOp.apply (AnimationObject.new : AnimationObject K)).animationProgress ∧
    (ops.foldl ProgressOp.apply (AnimationObject.new : AnimationObject K)).animationProgress ≤ 1 ∧
    ∀ (obj : AnimationObject K) (dt : K), obj.animationProgress = 1 →
      obj.internalUpdate dt = obj := by
  have hinv : ∀ (ops : List (ProgressOp K)) (obj : AnimationObject K),
      (∀ op ∈ ops, op.Forward) → 0 ≤ obj.animationProgress → obj.animationProgress ≤ 1 →
      0 ≤ (ops.foldl ProgressOp.apply obj).animationProgress ∧
        (ops.foldl ProgressOp.apply obj).animationProgress ≤ 1 := by
    intro ops
    induction ops with
    | nil => intro obj _ h0 h1; exact ⟨h0, h1⟩
    | cons op ops ih =>
      intro obj hf h0 h1
      have hop := hf op (List.mem_cons_self _ _)
      have hrest : ∀ op' ∈ ops, op'.Forward := fun op' h => hf op' (List.mem_cons_of_mem _ h)
      cases op with
      | setAnimationProgress progress =>
        exact ih _ hrest (le_max_left _ _) (max_le zero_le_one (min_le_left _ _))
      | update deltaTime =>
        have hr := internalUpdate_range deltaTime hop obj h0 h1
        exact ih _ hrest hr.1 hr.2
  have h := hinv ops AnimationObject.new hops (by simp [AnimationObject.new])
    (by simp [AnimationObject.new])
  refine ⟨h.1, h.2, ?_⟩
  intro obj dt h1
  unfold AnimationObject.internalUpdate
  rw [if_neg (by rw [h1]; exact lt_irrefl _)]


end Attributes

/-! ## Primitive animations and `sequence` -/

section Animations

variable {K : Type} [LinearOrderedField K]

/-- C24 for the object at `(-300, 0)`, `move_to(300, 0)` and progress `1/2`: the
position becomes `(0, 0)`. -/
theorem move_to_interpolates_witness :
    (move_to (300 : ℚ) 0 (some 0) (1 / 2) (heap2 (ball (-300) 0 0 0 1 1 0) (ball 5 5 0 0 1 1 0))
      0).position = ⟨0, 0, 0⟩ := by
  rw [(move_to_interpolates (300 : ℚ) 0 0 (1 / 2) (heap2 (ball (-300) 0 0 0 1 1 0) (ball 5 5 0 0 1 1 0))).1]
  norm_num [heap2, ball, Vec3.add, Vec3.smul, Vec3.sub]


end Animations

section Sequences

variable {K : Type} [LinearOrderedField K] [FloorRing K]

/-- The segment index and the local progress computed by `sequence`. -/
theorem sequence_index (n : Nat) (hn : 0 < n) (p : K) (hp : 0 ≤ p) :
    truncToInt (p / (1 / (n : K))) = (⌊p * n⌋₊ : Int) ∧
    (p - ((⌊p * n⌋₊ : Int) : K) * (1 / (n : K))) / (1 / (n : K)) = p * n - ⌊p * n⌋₊ := by
  have hn0 : (n : K) ≠ 0 := Nat.cast_ne_zero.mpr hn.ne'
  have hdiv : p / (1 / (n : K)) = p * n := by field_simp
  have hpn : 0 ≤ p * n := mul_nonneg hp (Nat.cast_nonneg n)
  constructor
  · rw [hdiv, truncToInt, if_pos hpn]
    exact (Int.natCast_floor_eq_floor hpn).symm
  · rw [Int.cast_natCast]
    field_simp

/-- C21, amended: in exact arithmetic, for a non-empty list of `N` animations and a progress `p` with `0 ≤ p < 1`,
the function returned by `sequence` invokes exactly the animation at index
`i = floor(p * N)`, on the given object, with local progress `p * N - i`. -/
theorem sequence_partition (animations : List (Animation K)) (hne : animations ≠ []) (p : K)
    (hp0 : 0 ≤ p) (hp1 : p < 1) (obj : Option Nat) (h : Heap K) :
    ∃ a, animations[⌊p * animations.length⌋₊]? = some a ∧
      sequence animations obj p h = a obj (p * animations.length - ⌊p * animations.length⌋₊) h := by
  have hlen : 0 < animations.length := List.length_pos.mpr hne
  have hlt : ⌊p * animations.length⌋₊ < animations.length := by
    rw [Nat.floor_lt (mul_nonneg hp0 (Nat.cast_nonneg _))]
    have : (0 : K) < animations.length := Nat.cast_pos.mpr hlen
    nlinarith
  obtain ⟨hidx, hprog⟩ := sequence_index animations.length hlen p hp0
  refine ⟨animations[⌊p * animations.length⌋₊], List.getElem?_eq_getElem hlt, ?_⟩
  unfold sequence
  have hemp : animations.isEmpty = false := by
    cases animations with
    | nil => exact absurd rfl hne
    | cons a l => rfl
  simp only [hemp, hidx, hprog, Int.toNat_ofNat, Nat.cast_nonneg, hlt, and_self, if_true,
    List.getElem?_eq_getElem hlt, Bool.false_eq_true, if_false]

end Sequences

/-! ## `sequence` at and beyond the end point -/

section SequenceEnd

variable {K : Type} [LinearOrderedField K] [FloorRing K]

/-- From progress 1 on, the segment index is at least `N` and `sequence` skips. -/
theorem sequence_skips_from_one (animations : List (Animation K)) (hne : animations ≠ [])
    (p : K) (hp : 1 ≤ p) (obj : Option Nat) (h : Heap K) :
    sequence animations obj p h = h := by
  have hlen : 0 < animations.length := List.length_pos.mpr hne
  have hpos : (0 : K) < animations.length := Nat.cast_pos.mpr hlen
  have hn0 : (animations.length : K) ≠ 0 := hpos.ne'
  have hdiv : p / (1 / (animations.length : K)) = p * animations.length := by field_simp
  have hge : (animations.length : K) ≤ p * animations.length := by nlinarith
  have hidx : (animations.length : Int) ≤ truncToInt (p / (1 / (animations.length : K))) := by
    rw [hdiv, truncToInt, if_pos (le_trans hpos.le hge), Int.le_floor]
    exact_mod_cast hge
  have hguard : ¬ (0 ≤ truncToInt (p / (1 / (animations.length : K))) ∧
      (truncToInt (p / (1 / (animations.length : K)))).toNat < animations.length) := by
    rintro ⟨h0, h1⟩
    have := (Int.toNat_lt h0).mp h1
    exact absurd hidx (not_le.mpr this)
  unfold sequence
  split_ifs with hemp
  · rfl
  · simp only [hguard, if_false]

/-- C22, amended: in exact arithmetic, for a non-empty list of `N` animations, the function returned by
`sequence` evaluated at progress exactly 1 computes the segment index `N`, which its
bounds test rejects: it invokes no animation and leaves every object unchanged; the
same holds for every progress `≥ 1`. -/
theorem sequence_at_end_invokes_nothing (animations : List (Animation K)) (hne : animations ≠ [])
    (obj : Option Nat) (h : Heap K) :
    sequence animations obj 1 h = h ∧
    ∀ p : K, 1 ≤ p → sequence animations obj p h = h :=
  ⟨sequence_skips_from_one animations hne 1 le_rfl obj h,
    fun p hp => sequence_skips_from_one animations hne p hp obj h⟩

end SequenceEnd

section SequenceEvaluations

/-- The amended C21 for `sequence([A, B])`: at `1/4` it invokes `A` with `1/2`, at `3/4` it
invokes `B` with `1/2`. -/
theorem sequence_partition_witness :
    sequence [animA, animB] (some 0) (1 / 4) stageHeap = animA (some 0) (1 / 2) stageHeap ∧
    sequence [animA, animB] (some 0) (3 / 4) stageHeap = animB (some 0) (1 / 2) stageHeap := by
  have h0 : ⌊(1 / 4 : ℚ) * ([animA, animB].length : ℚ)⌋₊ = 0 := by
    rw [Nat.floor_eq_zero]; norm_num
  have h1 : ⌊(3 / 4 : ℚ) * ([animA, animB].length : ℚ)⌋₊ = 1 := by
    rw [Nat.floor_eq_iff (by norm_num)]; norm_num
  constructor
  · obtain ⟨a, ha, heq⟩ := sequence_partition [animA, animB] (by simp) (1 / 4 : ℚ)
      (by norm_num) (by norm_num) (some 0) stageHeap
    rw [h0] at ha heq
    simp only [List.getElem?_cons_zero, Option.some.injEq] at ha
    rw [heq, ← ha]
    norm_num
  · obtain ⟨a, ha, heq⟩ := sequence_partition [animA, animB] (by simp) (3 / 4 : ℚ)
      (by norm_num) (by norm_num) (some 0) stageHeap
    rw [h1] at ha heq
    simp only [List.getElem?_cons_succ, List.getElem?_cons_zero, Option.some.injEq] at ha
    rw [heq, ← ha]
    norm_num

/-- In exact arithmetic `sequence([A, B])` at progress 1 does not do what `B` does at
progress 1 (it leaves the object at `x = -300`, `B` moves it to `x = 0`). -/
theorem sequence_at_one_not_last :
    ¬ (sequence [animA, animB] (some 0) 1 stageHeap = animB (some 0) 1 stageHeap) := by
  rw [sequence_skips_from_one [animA, animB] (by simp) 1 le_rfl (some 0) stageHeap]
  intro h
  have hx := congrArg (fun g : Heap ℚ => (g 0).position.x) h
  norm_num [animB, move_to, setPosition, stageHeap, heap2, ball, Vec3.add, Vec3.smul, Vec3.sub]
    at hx

/-- The amended C22 for `sequence([A, B])` on `stageHeap`. -/
theorem sequence_at_end_invokes_nothing_witness :
    sequence [animA, animB] (some 0) 1 stageHeap = stageHeap ∧
    ∀ p : ℚ, 1 ≤ p → sequence [animA, animB] (some 0) p stageHeap = stageHeap :=
  sequence_at_end_invokes_nothing [animA, animB] (by simp) (some 0) stageHeap

end SequenceEvaluations

/-! ## Successive evaluations, `animate` and `parallel` -/

section Evaluations

variable {K : Type} [LinearOrderedField K]

/-- What successive evaluations compute: every evaluation of a primitive animation
starts from the value the object has at that evaluation.  After successive evaluations at
`p1, ..., pk` from start value `s`, `move_to(x, y)` leaves position
`target + (s - target) * (1 - p1) * ... * (1 - pk)` in `x` and `y` (and `z` as it
was), and `rotate_to` and `scale_to` do the same for the Z rotation and the three
scale components; for `k = 1` this is `s + p1 * (target - s)`. -/
theorem evaluations_compound (x y angle factor : K) (o : Nat) (ps : List K) :
    ∀ h : Heap K,
      (evaluations (move_to x y) o ps h o).position =
        ⟨x + ((h o).position.x - x) * (ps.map (fun p => 1 - p)).prod,
          y + ((h o).position.y - y) * (ps.map (fun p => 1 - p)).prod, (h o).position.z⟩ ∧
      (evaluations (rotate_to angle) o ps h o).rotation =
        ⟨(h o).rotation.x, (h o).rotation.y,
          angle + ((h o).rotation.z - angle) * (ps.map (fun p => 1 - p)).prod⟩ ∧
      (evaluations (scale_to factor) o ps h o).scale =
        ⟨factor + ((h o).scale.x - factor) * (ps.map (fun p => 1 - p)).prod,
          factor + ((h o).scale.y - factor) * (ps.map (fun p => 1 - p)).prod,
          factor + ((h o).scale.z - factor) * (ps.map (fun p => 1 - p)).prod⟩ := by
  induction ps with
  | nil =>
    intro h
    simp [evaluations]
  | cons p ps ih =>
    intro h
    have hm := ih (move_to x y (some o) p h)
    have hr := ih (rotate_to angle (some o) p h)
    have hs := ih (scale_to factor (some o) p h)
    have em : evaluations (move_to x y) o (p :: ps) h
        = evaluations (move_to x y) o ps (move_to x y (some o) p h) := rfl
    have er : evaluations (rotate_to angle) o (p :: ps) h
        = evaluations (rotate_to angle) o ps (rotate_to angle (some o) p h) := rfl
    have es : evaluations (scale_to factor) o (p :: ps) h
        = evaluations (scale_to factor) o ps (scale_to factor (some o) p h) := rfl
    rw [em, er, es, hm.1, hr.2.1, hs.2.2]
    refine ⟨?_, ?_, ?_⟩
    · apply Vec3.ext <;>
        simp [move_to, setPosition, Vec3.add, Vec3.smul, Vec3.sub, List.prod_cons] <;> ring
    · apply Vec3.ext
      all_goals simp [rotate_to, setRotation, List.prod_cons]
      ring
    · apply Vec3.ext <;>
        simp [scale_to, setScale, Vec3.add, Vec3.smul, Vec3.sub, List.prod_cons] <;> ring

end Evaluations

section AnimateEvaluations

/-- C25 at the failing input: from `(5, 5)`, `move_to(1, 0)` evaluated at `1/2` and
again at `1/2` leaves the object at `(2, 5/4)`; the interpolation from the start value
at the last progress, `s + 1/2 * (target - s)`, is `(3, 5/2)`. -/
theorem evaluations_not_from_start :
    (stageHeap 1).position = ⟨5, 5, 0⟩ ∧
    (evaluations (move_to (1 : ℚ) 0) 1 [1 / 2, 1 / 2] stageHeap 1).position = ⟨2, 5 / 4, 0⟩ ∧
    Vec3.add (stageHeap 1).position
        (Vec3.smul (Vec3.sub ⟨1, 0, (stageHeap 1).position.z⟩ (stageHeap 1).position) (1 / 2))
      = ⟨3, 5 / 2, 0⟩ := by
  refine ⟨rfl, ?_, ?_⟩
  · norm_num [evaluations, move_to, setPosition, Heap.set, stageHeap, heap2, ball, Vec3.add,
      Vec3.smul, Vec3.sub]
  · norm_num [stageHeap, heap2, ball, Vec3.add, Vec3.smul, Vec3.sub]

/-- C26 at the failing input: after `animate(obj, move_to(300, 0), 5)` the callback
stored on `obj` calls the animation with a null target, so invoked with progress
`1/2` it leaves the object at `(-300, 0)`, whereas the animation called on `obj`
puts it at `(0, 0)`. -/
theorem animate_passes_null_target :
    (∃ callback, (animate (some 0) (some (move_to 300 0)) 5 stageState).callbacks 0 = some callback ∧
      callback = (fun progress h => move_to 300 0 none progress h) ∧
      callback (1 / 2) stageHeap = stageHeap) ∧
    (move_to (300 : ℚ) 0 (some 0) (1 / 2) stageHeap 0).position = ⟨0, 0, 0⟩ ∧
    (stageHeap 0).position = ⟨-300, 0, 0⟩ := by
  refine ⟨⟨fun progress h => move_to 300 0 none progress h, ?_, rfl, rfl⟩, ?_, rfl⟩
  · simp [animate, enginePlay]
  · norm_num [move_to, setPosition, stageHeap, heap2, ball, Vec3.add, Vec3.smul, Vec3.sub]

/-- C27 at the failing input: after `animate(obj, f, 5)`, one update with
`dt = 5/2` gives progress 1, not `1/2`, and one update with `dt = 1` gives `1/2`,
not `1/5`: the progress advances by `dt / 2` whatever the duration. -/
theorem animate_ignores_duration :
    ((objectUpdate 0 (5 / 2) (animate (some 0) (some (move_to 300 0)) 5 stageState)).heap
      0).animationProgress = 1 ∧
    ((objectUpdate 0 1 (animate (some 0) (some (move_to 300 0)) 5 stageState)).heap
      0).animationProgress = 1 / 2 := by
  constructor <;>
    norm_num [objectUpdate, animate, enginePlay, stageState, move_to, stageHeap, heap2, ball,
      AnimationObject.new, AnimationObject.internalUpdate, Heap.set]

end AnimateEvaluations

section Parallel

variable {K : Type}

/-- A loop over the indices of two lists of equal length is a fold over their pairs. -/
theorem foldl_range_getD {α β σ : Type} (f : α → β → σ → σ) (da : α) (db : β) :
    ∀ (l1 : List α) (l2 : List β) (s : σ), l1.length = l2.length →
      (List.range l1.length).foldl (fun s i => f (l1.getD i da) (l2.getD i db) s) s
        = (l1.zip l2).foldl (fun s p => f p.1 p.2 s) s := by
  intro l1
  induction l1 with
  | nil => intro l2 s _; rfl
  | cons a l1 ih =>
    intro l2 s hlen
    cases l2 with
    | nil => simp at hlen
    | cons b l2 =>
      have hlen' : l1.length = l2.length := by simpa using hlen
      rw [List.length_cons, List.range_succ_eq_map, List.foldl_cons, List.foldl_map,
        List.zip_cons_cons, List.foldl_cons]
      simpa using ih l2 (f a b s) hlen'

/-- The function `animate` touches the callback of no other object. -/
theorem animate_callbacks_other (o j : Nat) (a : Animation K) (d : K) (s : ApiState K)
    (hj : j ≠ o) : (animate (some o) (some a) d s).callbacks j = s.callbacks j := by
  simp [animate, enginePlay, hj]

/-- The callback that `animate` stores. -/
theorem animate_callbacks_same (o : Nat) (a : Animation K) (d : K) (s : ApiState K) :
    (animate (some o) (some a) d s).callbacks o = some (fun progress h => a none progress h) := by
  simp [animate, enginePlay]

/-- Animating other objects keeps the callback of an object. -/
theorem foldl_animate_callbacks_other (d : K) (j : Nat) :
    ∀ (os : List Nat) (as : List (Animation K)) (s : ApiState K), j ∉ os →
      (((os.map some).zip (as.map some)).foldl (fun s p => animate p.1 p.2 d s) s).callbacks j
        = s.callbacks j := by
  intro os
  induction os with
  | nil => intro as s _; rfl
  | cons o os ih =>
    intro as s hj
    cases as with
    | nil => rfl
    | cons a as =>
      have hjo : j ≠ o := fun e => hj (e ▸ List.mem_cons_self _ _)
      have hjos : j ∉ os := fun e => hj (List.mem_cons_of_mem _ e)
      simp only [List.map_cons, List.zip_cons_cons, List.foldl_cons]
      rw [ih as _ hjos, animate_callbacks_other o j a d s hjo]

/-- Animating distinct objects in turn leaves each with its own callback. -/
theorem foldl_animate_callbacks_nodup (d : K) :
    ∀ (os : List Nat) (as : List (Animation K)) (s : ApiState K), os.Nodup →
      ∀ (i : Nat) (hi : i < os.length) (hi' : i < as.length),
        (((os.map some).zip (as.map some)).foldl (fun s p => animate p.1 p.2 d s) s).callbacks
            (os.get ⟨i, hi⟩)
          = some (fun progress h => (as.get ⟨i, hi'⟩) none progress h) := by
  intro os
  induction os with
  | nil => intro as s _ i hi; simp at hi
  | cons o os ih =>
    intro as s hnd i hi hi'
    cases as with
    | nil => simp at hi'
    | cons a as =>
      have hnd' := List.nodup_cons.mp hnd
      simp only [List.map_cons, List.zip_cons_cons, List.foldl_cons]
      cases i with
      | zero =>
        show (((os.map some).zip (as.map some)).foldl (fun s p => animate p.1 p.2 d s)
          (animate (some o) (some a) d s)).callbacks o = some (fun progress h => a none progress h)
        rw [foldl_animate_callbacks_other d o os as _ hnd'.1, animate_callbacks_same]
      | succ i =>
        exact ih as _ hnd'.2 i (Nat.lt_of_succ_lt_succ hi) (Nat.lt_of_succ_lt_succ hi')

/-- C23: when the object list and the animation list differ in length, `parallel`
changes nothing (no callback, no object, no timeline state); when the lengths are
equal it is `animate(objects[i], animations[i], duration)` for every `i` in turn,
and for distinct objects each object `i` ends with the callback of animation `i`. -/
theorem parallel_pairs (objects : List (Option Nat)) (animations : List (Option (Animation K)))
    (d : K) (s : ApiState K) :
    (objects.length ≠ animations.length → parallel objects animations d s = s) ∧
    (objects.length = animations.length →
      parallel objects animations d s
        = (objects.zip animations).foldl (fun s p => animate p.1 p.2 d s) s) ∧
    (∀ (os : List Nat) (as : List (Animation K)), objects = os.map some →
      animations = as.map some → os.length = as.length → os.Nodup →
      ∀ (i : Nat) (hi : i < os.length) (hi' : i < as.length),
        (parallel objects animations d s).callbacks (os.get ⟨i, hi⟩)
          = some (fun progress h => (as.get ⟨i, hi'⟩) none progress h)) := by
  have hzip : objects.length = animations.length →
      parallel objects animations d s
        = (objects.zip animations).foldl (fun s p => animate p.1 p.2 d s) s := by
    intro hlen
    unfold parallel
    rw [if_neg (not_not.mpr hlen)]
    exact foldl_range_getD (fun o a s => animate o a d s) none none objects animations s hlen
  refine ⟨fun hne => by unfold parallel; rw [if_pos hne], hzip, ?_⟩
  intro os as ho ha hlen hnd i hi hi'
  rw [hzip (by rw [ho, ha, List.length_map, List.length_map, hlen]), ho, ha]
  exact foldl_animate_callbacks_nodup d os as s hnd i hi hi'

end Parallel

/-! ## Duplicate registration (`addObject`, `step`) -/

section Registration

variable {K : Type} [LinearOrderedField K]

/-- Integration of one object changes no `isStatic` flag. -/
theorem updateObjectPhysics_isStatic (e : PhysicsEngine K) (o j : Nat) (dt : K) (h : Heap K) :
    (updateObjectPhysics e o dt h j).isStatic = (h j).isStatic := by
  by_cases hs : (h o).isStatic = true
  · simp [updateObjectPhysics, hs]
  · by_cases hj : j = o
    · subst hj
      by_cases hg : (h j).gravityAffected = true <;>
        simp [updateObjectPhysics, hs, hg, setPosition, setVelocity, setAcceleration]
    · by_cases hg : (h o).gravityAffected = true <;>
        simp [updateObjectPhysics, hs, hg, setPosition, setVelocity, setAcceleration, hj]

/-- The integration pass over a registry changes no `isStatic` flag. -/
theorem integrate_static (e : PhysicsEngine K) (dt : K) (o : Nat) :
    ∀ (l : List Nat) (h : Heap K),
      (l.foldl (fun h a => if (h a).isStatic then h else updateObjectPhysics e a dt h) h
        o).isStatic = (h o).isStatic := by
  intro l
  induction l with
  | nil => intro h; rfl
  | cons a l ih =>
    intro h
    rw [List.foldl_cons, ih]
    split_ifs
    · rfl
    · exact updateObjectPhysics_isStatic e a o dt h

/-- Without walls, applying the constraints to an object a second time changes nothing. -/
theorem applyConstraints_twice (e : PhysicsEngine K) (o : Nat) (g : Heap K)
    (hw : e.wallConstraints = []) :
    applyConstraints e o (applyConstraints e o g) = applyConstraints e o g := by
  by_cases hc : e.groundConstraintEnabled = true ∧ (g o).position.y < e.groundY
  · have hy := applyConstraints_below e o g hc.1 hw hc.2
    exact applyConstraints_above e o _ hw hy.ge
  · have hsame : applyConstraints e o g = g := by
      by_cases hg : e.groundConstraintEnabled = true
      · exact applyConstraints_above e o g hw (not_lt.mp (fun h => hc ⟨hg, h⟩))
      · simp [applyConstraints, hw, hg]
    rw [hsame, hsame]

/-- C30, amended: for a static object `o`, with collision detection off and no wall
constraint, registering `o` twice and then calling `step(dt)` leaves every object in
the same state as registering `o` once and then calling `step(dt)`; the registry
itself keeps both entries (it is the old registry followed by `o, o`). -/
theorem addObject_twice_static_idempotent (sqrt : K → K) (e : PhysicsEngine K) (o : Nat) (dt : K) (h : Heap K)
    (hs : (h o).isStatic = true) (hc : e.collisionDetectionEnabled = false)
    (hw : e.wallConstraints = []) :
    step sqrt (addObject (addObject e o) o) dt h = step sqrt (addObject e o) dt h ∧
    (addObject (addObject e o) o).physicsObjects = e.physicsObjects ++ [o, o] := by
  refine ⟨?_, by simp [addObject]⟩
  have hint : integrateAll (addObject (addObject e o) o) dt h
      = integrateAll (addObject e o) dt h := by
    have hst : ((addObject e o).physicsObjects.foldl
        (fun h a => if (h a).isStatic then h else updateObjectPhysics e a dt h) h o).isStatic
        = true := by
      rw [integrate_static e dt o]
      exact hs
    show ((addObject e o).physicsObjects ++ [o]).foldl
        (fun h a => if (h a).isStatic then h else updateObjectPhysics e a dt h) h
      = (addObject e o).physicsObjects.foldl
        (fun h a => if (h a).isStatic then h else updateObjectPhysics e a dt h) h
    rw [List.foldl_append, List.foldl_cons, List.foldl_nil, if_pos hst]
  have hcon : ∀ g : Heap K, constrainAll (addObject (addObject e o) o) g
      = constrainAll (addObject e o) g := by
    intro g
    show ((e.physicsObjects ++ [o]) ++ [o]).foldl (fun h a => applyConstraints e a h) g
      = (e.physicsObjects ++ [o]).foldl (fun h a => applyConstraints e a h) g
    rw [List.foldl_append, List.foldl_cons, List.foldl_nil, List.foldl_append, List.foldl_cons,
      List.foldl_nil]
    exact applyConstraints_twice e o _ hw
  have hc1 : (addObject (addObject e o) o).collisionDetectionEnabled = false := hc
  have hc2 : (addObject e o).collisionDetectionEnabled = false := hc
  simp only [step, hint, hc1, hc2, Bool.false_eq_true, if_false]
  exact hcon _

end Registration

/-! ## Duplicate registration: evaluations -/

/-- C30, counterexample: on `driftHeap`, with collisions off and the default drag `0.1`,
the moving object behind handle `0` registered twice is integrated twice by one
`step(1)` and ends at `x = 171/100`; registered once it ends at `x = 9/10`. -/
theorem addObject_twice_not_idempotent :
    (step Rat.sqrt (addObject (addObject quietEngine 0) 0) 1 driftHeap 0).position.x = 171 / 100 ∧
    (step Rat.sqrt (addObject quietEngine 0) 1 driftHeap 0).position.x = 9 / 10 ∧
    ¬ (step Rat.sqrt (addObject (addObject quietEngine 0) 0) 1 driftHeap
      = step Rat.sqrt (addObject quietEngine 0) 1 driftHeap) := by
  have h2 : (step Rat.sqrt (addObject (addObject quietEngine 0) 0) 1 driftHeap 0).position.x
      = 171 / 100 := by
    norm_num [step, integrateAll, constrainAll, addObject, quietEngine, PhysicsEngine.new,
      updateObjectPhysics, applyConstraints, setPosition, setVelocity, setAcceleration, Heap.set,
      driftHeap, heap2, ball, AnimationObject.new, Vec3.add, Vec3.smul, Vec3.zero]
  have h1 : (step Rat.sqrt (addObject quietEngine 0) 1 driftHeap 0).position.x = 9 / 10 := by
    norm_num [step, integrateAll, constrainAll, addObject, quietEngine, PhysicsEngine.new,
      updateObjectPhysics, applyConstraints, setPosition, setVelocity, setAcceleration, Heap.set,
      driftHeap, heap2, ball, AnimationObject.new, Vec3.add, Vec3.smul, Vec3.zero]
  refine ⟨h2, h1, fun h => ?_⟩
  rw [h] at h2
  rw [h1] at h2
  norm_num at h2

/-- The amended C30 at the static object of `driftHeap`. -/
theorem addObject_twice_static_idempotent_witness :
    step Rat.sqrt (addObject (addObject quietEngine 1) 1) 1 driftHeap
      = step Rat.sqrt (addObject quietEngine 1) 1 driftHeap ∧
    (addObject (addObject quietEngine 1) 1).physicsObjects = [1, 1] :=
  addObject_twice_static_idempotent Rat.sqrt quietEngine 1 1 driftHeap rfl rfl rfl

/-! ## Attributes, progress and `parallel`: evaluations -/

/-- C23 at `stageState`: one object against two animations changes nothing; two
objects against two animations leave the second animation on the second object. -/
theorem parallel_pairs_witness :
    parallel [some 0] [some animA, some animB] 5 stageState = stageState ∧
    (parallel [some 0, some 1] [some animA, some animB] 5 stageState).callbacks 1
      = some (fun progress h => animB none progress h) := by
  have key1 := parallel_pairs [some 0] [some animA, some animB] (5 : ℚ) stageState
  have key2 := parallel_pairs [some 0, some 1] [some animA, some animB] (5 : ℚ) stageState
  exact ⟨key1.1 (by decide),
    key2.2.2 [0, 1] [animA, animB] rfl rfl rfl (by decide) 1 (by decide) (by decide)⟩

/-- C28 at `attributeOps`: the four attributes end in range, at `0.001`, `1`, `0`
and `1/2`. -/
theorem attributes_clamped_witness :
    (1 / 1000 ≤ (attributeOps.foldl AttributeOp.apply AnimationObject.new).mass ∧
      0 ≤ (attributeOps.foldl AttributeOp.apply AnimationObject.new).bounce ∧
      (attributeOps.foldl AttributeOp.apply AnimationObject.new).bounce ≤ 1 ∧
      0 ≤ (attributeOps.foldl AttributeOp.apply AnimationObject.new).friction ∧
      (attributeOps.foldl AttributeOp.apply AnimationObject.new).friction ≤ 1 ∧
      0 ≤ (attributeOps.foldl AttributeOp.apply AnimationObject.new).opacity ∧
      (attributeOps.foldl AttributeOp.apply AnimationObject.new).opacity ≤ 1) ∧
    (attributeOps.foldl AttributeOp.apply AnimationObject.new).mass = 1 / 1000 ∧
    (attributeOps.foldl AttributeOp.apply AnimationObject.new).bounce = 1 ∧
    (attributeOps.foldl AttributeOp.apply AnimationObject.new).friction = 0 ∧
    (attributeOps.foldl AttributeOp.apply AnimationObject.new).opacity = 1 / 2 := by
  refine ⟨(attributes_clamped attributeOps).1, ?_, ?_, ?_, ?_⟩ <;>
    norm_num [attributeOps, AttributeOp.apply, AnimationObject.setMass,
      AnimationObject.setBounce, AnimationObject.setFriction, AnimationObject.setOpacity,
      AnimationObject.new]

/-- C29 at `progressOps`: the progress ends in `[0, 1]`. -/
theorem progress_normalized_witness :
    0 ≤ (progressOps.foldl ProgressOp.apply AnimationObject.new).animationProgress ∧
    (progressOps.foldl ProgressOp.apply AnimationObject.new).animationProgress ≤ 1 := by
  have key := progress_normalized progressOps (by
    intro op hop
    simp only [progressOps, List.mem_cons, List.mem_singleton, List.not_mem_nil, or_false] at hop
    rcases hop with h | h | h | h <;> rw [h] <;> simp [ProgressOp.Forward])
  exact ⟨key.1, key.2.1⟩

/-! ## Spatial queries (`getObjectsInArea`, `getObjectsInBox`) -/

section Queries

variable {K : Type} [LinearOrderedField K]

/-- A loop that appends the elements passing a test computes a filter. -/
theorem foldl_append_filter {α : Type} (p : α → Prop) [DecidablePred p] :
    ∀ (l acc : List α),
      l.foldl (fun result a => if p a then result ++ [a] else result) acc
        = acc ++ l.filter (fun a => decide (p a)) := by
  intro l
  induction l with
  | nil => intro acc; simp
  | cons a l ih =>
    intro acc
    rw [List.foldl_cons, ih]
    by_cases ha : p a
    · simp [ha, List.filter_cons]
    · simp [ha, List.filter_cons]

/-- C31: `getObjectsInBox(min, max)` returns, in registration order, exactly the
registered objects whose position lies between `min` and `max` in all three
coordinates, bounds included, and `getObjectsInArea(center, radius)` returns, in
registration order, exactly those whose distance `length(pos - center)` is
`≤ radius`; both only read the engine and the objects. -/
theorem spatial_queries_filter (sqrt : K → K) (e : PhysicsEngine K) (center min max : Vec3 K)
    (radius : K) (h : Heap K) :
    getObjectsInBox e min max h
      = e.physicsObjects.filter (fun o => decide
          (min.x ≤ (h o).position.x ∧ (h o).position.x ≤ max.x ∧
            min.y ≤ (h o).position.y ∧ (h o).position.y ≤ max.y ∧
            min.z ≤ (h o).position.z ∧ (h o).position.z ≤ max.z)) ∧
    getObjectsInArea sqrt e center radius h
      = e.physicsObjects.filter (fun o => decide
          (Vec3.length sqrt (Vec3.sub (h o).position center) ≤ radius)) := by
  constructor
  · have key := foldl_append_filter
      (fun o => (h o).position.x ≥ min.x ∧ (h o).position.x ≤ max.x ∧
        (h o).position.y ≥ min.y ∧ (h o).position.y ≤ max.y ∧
        (h o).position.z ≥ min.z ∧ (h o).position.z ≤ max.z) e.physicsObjects []
    rw [List.nil_append] at key
    exact key
  · have key := foldl_append_filter
      (fun o => Vec3.length sqrt (Vec3.sub (h o).position center) ≤ radius) e.physicsObjects []
    rw [List.nil_append] at key
    exact key

end Queries

/-! ## Termination of the sub-stepping loop (`setTimeStep`, `update`) -/

section Termination

variable {K : Type} [LinearOrderedField K]

/-- Every public call keeps the time step at or above `0.001`. -/
theorem engine_apply_timeStep (e : PhysicsEngine K) (op : EngineOp K)
    (he : 1 / 1000 ≤ e.timeStep) : 1 / 1000 ≤ (EngineOp.apply e op).timeStep := by
  cases op with
  | setTimeStep timeStep => exact le_max_left _ _
  | _ => exact he

/-- The time step is at least `0.001` in every state reached from the constructor. -/
theorem engine_run_timeStep (ops : List (EngineOp K)) :
    (1 / 1000 : K) ≤ ((PhysicsEngine.new : PhysicsEngine K).run ops).timeStep := by
  have key : ∀ (l : List (EngineOp K)) (e : PhysicsEngine K), 1 / 1000 ≤ e.timeStep →
      1 / 1000 ≤ (e.run l).timeStep := by
    intro l
    induction l with
    | nil => intro e he; exact he
    | cons op l ih => intro e he; exact ih (EngineOp.apply e op) (engine_apply_timeStep e op he)
  exact key ops PhysicsEngine.new (by norm_num [PhysicsEngine.new])

/-- With a positive time step the loop of `update` ends within `floor(dt / h) + 1`
tests of its condition. -/
theorem updateLoop_terminates [FloorRing K] (sqrt : K → K) (e : PhysicsEngine K)
    (hh : 0 < e.timeStep) (dt : K) (h : Heap K) (fuel : Nat)
    (hf : ⌊dt / e.timeStep⌋₊ < fuel) :
    ∃ r g, updateLoop sqrt e fuel dt h = some (r, g) ∧ r < e.timeStep := by
  rcases le_or_lt 0 dt with hdt | hdt
  · have hq : 0 ≤ dt / e.timeStep := div_nonneg hdt hh.le
    have h1 : (⌊dt / e.timeStep⌋₊ : K) * e.timeStep ≤ dt :=
      (le_div_iff₀ hh).mp (Nat.floor_le hq)
    have h2 : dt < ((⌊dt / e.timeStep⌋₊ : K) + 1) * e.timeStep :=
      (div_lt_iff₀ hh).mp (Nat.lt_floor_add_one _)
    have hl := updateLoop_iterate sqrt e (dt - ⌊dt / e.timeStep⌋₊ * e.timeStep)
      (by linarith) (by linarith) ⌊dt / e.timeStep⌋₊ fuel h hf
    rw [show (⌊dt / e.timeStep⌋₊ : K) * e.timeStep + (dt - ⌊dt / e.timeStep⌋₊ * e.timeStep) = dt
      by ring] at hl
    exact ⟨_, _, hl, by linarith⟩
  · obtain ⟨f, rfl⟩ := Nat.exists_eq_succ_of_ne_zero (Nat.not_eq_zero_of_lt hf)
    exact ⟨dt, h, updateLoop_exit sqrt e f dt h (lt_trans hdt hh), lt_trans hdt hh⟩

/-- Termination in exact arithmetic: in every state reached from the constructor by
public calls, `setTimeStep` with arbitrary arguments among them, the time step is
`≥ 0.001`; for every
`deltaTime` the loop of `update(deltaTime)` ends as soon as the iteration bound
exceeds `floor(deltaTime / timeStep)`, with a remaining time below the time step, and
`update` returns; each iteration takes the time step off the remaining time, which
strictly decreases. -/
theorem update_terminates [FloorRing K] (sqrt : K → K) (ops : List (EngineOp K)) :
    (1 / 1000 : K) ≤ ((PhysicsEngine.new : PhysicsEngine K).run ops).timeStep ∧
    (∀ (deltaTime : K) (h : Heap K) (fuel : Nat),
      ⌊deltaTime / ((PhysicsEngine.new : PhysicsEngine K).run ops).timeStep⌋₊ < fuel →
      (∃ r g, updateLoop sqrt ((PhysicsEngine.new : PhysicsEngine K).run ops) fuel deltaTime h
          = some (r, g) ∧ r < ((PhysicsEngine.new : PhysicsEngine K).run ops).timeStep) ∧
      (update sqrt ((PhysicsEngine.new : PhysicsEngine K).run ops) fuel deltaTime h).isSome
        = true) ∧
    (∀ (remainingTime : K) (h : Heap K) (fuel : Nat),
      remainingTime ≥ ((PhysicsEngine.new : PhysicsEngine K).run ops).timeStep →
      updateLoop sqrt ((PhysicsEngine.new : PhysicsEngine K).run ops) (fuel + 1) remainingTime h
        = updateLoop sqrt ((PhysicsEngine.new : PhysicsEngine K).run ops) fuel
          (remainingTime - ((PhysicsEngine.new : PhysicsEngine K).run ops).timeStep)
          (step sqrt ((PhysicsEngine.new : PhysicsEngine K).run ops)
            ((PhysicsEngine.new : PhysicsEngine K).run ops).timeStep h) ∧
      remainingTime - ((PhysicsEngine.new : PhysicsEngine K).run ops).timeStep < remainingTime) := by
  have hts := engine_run_timeStep ops
  generalize (PhysicsEngine.new : PhysicsEngine K).run ops = e at hts ⊢
  have hh : 0 < e.timeStep := lt_of_lt_of_le (by norm_num) hts
  refine ⟨hts, fun deltaTime h fuel hf => ?_, fun remainingTime h fuel hr => ?_⟩
  · obtain ⟨r, g, hl, hr⟩ := updateLoop_terminates sqrt e hh deltaTime h fuel hf
    refine ⟨⟨r, g, hl, hr⟩, ?_⟩
    simp only [update, hl]
    split_ifs <;> rfl
  · constructor
    · rw [updateLoop, if_pos hr]
    · linarith

end Termination

/-! ## Restitution and kinetic energy (`resolveCollision`) -/

section Restitution

variable {K : Type} [LinearOrderedField K]

/-- Distinct positions have a non-zero squared distance. -/
theorem dot_sub_pos (p1 p2 : Vec3 K) (hpos : p1 ≠ p2) :
    Vec3.dot (Vec3.sub p1 p2) (Vec3.sub p1 p2) ≠ 0 := by
  intro hz
  apply hpos
  simp only [Vec3.dot, Vec3.sub] at hz
  obtain ⟨hx, hy, hz'⟩ := sum_three_squares_eq_zero _ _ _ hz
  exact Vec3.ext (sub_eq_zero.mp hx) (sub_eq_zero.mp hy) (sub_eq_zero.mp hz')

/-- The normal of `resolveCollision` is a unit vector for distinct positions, where the
square root is exact. -/
theorem collisionNormal_unit (sqrt : K → K) (a b : AnimationObject K)
    (hpos : a.position ≠ b.position)
    (hsqrt : sqrt (Vec3.dot (Vec3.sub a.position b.position) (Vec3.sub a.position b.position))
      * sqrt (Vec3.dot (Vec3.sub a.position b.position) (Vec3.sub a.position b.position))
      = Vec3.dot (Vec3.sub a.position b.position) (Vec3.sub a.position b.position)) :
    Vec3.dot (calculateCollisionNormal sqrt a b) (calculateCollisionNormal sqrt a b) = 1 := by
  have hd := dot_sub_pos a.position b.position hpos
  have hs0 : sqrt (Vec3.dot (Vec3.sub a.position b.position) (Vec3.sub a.position b.position))
      ≠ 0 := by
    intro hz
    rw [hz, mul_zero] at hsqrt
    exact hd hsqrt.symm
  exact unit_normal sqrt _ _ rfl hs0 hsqrt

/-- The relative normal velocity after an impulse `J` along `n`. -/
theorem impulse_relative (v1 v2 n : Vec3 K) (J m1 m2 : K) :
    Vec3.dot (Vec3.sub (Vec3.add v1 (Vec3.sdiv (Vec3.smul n J) m1))
        (Vec3.sub v2 (Vec3.sdiv (Vec3.smul n J) m2))) n
      = Vec3.dot (Vec3.sub v1 v2) n + J * (1 / m1 + 1 / m2) * Vec3.dot n n := by
  simp only [Vec3.dot, Vec3.sub, Vec3.add, Vec3.sdiv, Vec3.smul]
  ring

/-- An impulse along `n` leaves the components orthogonal to `n` as they are. -/
theorem impulse_tangent (v n t : Vec3 K) (J m : K) (ht : Vec3.dot t n = 0) :
    Vec3.dot (Vec3.add v (Vec3.sdiv (Vec3.smul n J) m)) t = Vec3.dot v t ∧
    Vec3.dot (Vec3.sub v (Vec3.sdiv (Vec3.smul n J) m)) t = Vec3.dot v t := by
  simp only [Vec3.dot, Vec3.sub, Vec3.add, Vec3.sdiv, Vec3.smul] at ht ⊢
  constructor
  · linear_combination (J / m) * ht
  · linear_combination (-(J / m)) * ht

/-- The kinetic energy (twice) after an impulse `J` along `n`. -/
theorem impulse_energy (v1 v2 n : Vec3 K) (J m1 m2 : K) (h1 : m1 ≠ 0) (h2 : m2 ≠ 0) :
    m1 * Vec3.dot (Vec3.add v1 (Vec3.sdiv (Vec3.smul n J) m1))
        (Vec3.add v1 (Vec3.sdiv (Vec3.smul n J) m1))
      + m2 * Vec3.dot (Vec3.sub v2 (Vec3.sdiv (Vec3.smul n J) m2))
        (Vec3.sub v2 (Vec3.sdiv (Vec3.smul n J) m2))
      = m1 * Vec3.dot v1 v1 + m2 * Vec3.dot v2 v2
        + (2 * J * Vec3.dot (Vec3.sub v1 v2) n + J * J * (1 / m1 + 1 / m2) * Vec3.dot n n) := by
  simp only [Vec3.dot, Vec3.sub, Vec3.add, Vec3.sdiv, Vec3.smul]
  field_simp
  ring

/-- The impulse of `resolveCollision` times the sum of the inverse masses. -/
theorem impulseOf_mul (sqrt : K → K) (a b : AnimationObject K) (hm1 : 0 < a.mass)
    (hm2 : 0 < b.mass) :
    0 < 1 / a.mass + 1 / b.mass ∧
    impulseOf sqrt a b * (1 / a.mass + 1 / b.mass)
      = -(1 + min a.bounce b.bounce) * relativeVelOf sqrt a b := by
  have hD : 0 < 1 / a.mass + 1 / b.mass :=
    add_pos (one_div_pos.mpr hm1) (one_div_pos.mpr hm2)
  exact ⟨hD, by rw [impulseOf, div_mul_cancel₀ _ hD.ne']⟩

/-- C35: for two non-static objects at distinct positions, with positive masses, whose
relative velocity along the unit normal `n` is `u = (v1 - v2) . n ≤ 0`,
`resolveCollision` yields `(v1' - v2') . n = -e * u` with `e = min(bounce1, bounce2)`
and leaves the components of `v1` and `v2` along every direction orthogonal to `n`
unchanged.  The square root is exact at the squared centre distance. -/
theorem resolveCollision_restitution (sqrt : K → K) (o1 o2 : Nat) (h : Heap K)
    (hs1 : (h o1).isStatic = false) (hs2 : (h o2).isStatic = false)
    (hm1 : 0 < (h o1).mass) (hm2 : 0 < (h o2).mass)
    (hpos : (h o1).position ≠ (h o2).position)
    (hsqrt : sqrt (Vec3.dot (Vec3.sub (h o1).position (h o2).position)
        (Vec3.sub (h o1).position (h o2).position))
      * sqrt (Vec3.dot (Vec3.sub (h o1).position (h o2).position)
        (Vec3.sub (h o1).position (h o2).position))
      = Vec3.dot (Vec3.sub (h o1).position (h o2).position)
        (Vec3.sub (h o1).position (h o2).position))
    (happroach : relativeVelOf sqrt (h o1) (h o2) ≤ 0) :
    Vec3.dot (calculateCollisionNormal sqrt (h o1) (h o2))
      (calculateCollisionNormal sqrt (h o1) (h o2)) = 1 ∧
    Vec3.dot (Vec3.sub (resolveCollision sqrt o1 o2 h o1).velocity
        (resolveCollision sqrt o1 o2 h o2).velocity) (calculateCollisionNormal sqrt (h o1) (h o2))
      = -(min (h o1).bounce (h o2).bounce) * relativeVelOf sqrt (h o1) (h o2) ∧
    ∀ t : Vec3 K, Vec3.dot t (calculateCollisionNormal sqrt (h o1) (h o2)) = 0 →
      Vec3.dot (resolveCollision sqrt o1 o2 h o1).velocity t = Vec3.dot (h o1).velocity t ∧
      Vec3.dot (resolveCollision sqrt o1 o2 h o2).velocity t = Vec3.dot (h o2).velocity t := by
  have hne : o1 ≠ o2 := fun e => hpos (by rw [e])
  have hrel : ¬ 0 < relativeVelOf sqrt (h o1) (h o2) := not_lt.mpr happroach
  have hunit := collisionNormal_unit sqrt (h o1) (h o2) hpos hsqrt
  have hJ := (impulseOf_mul sqrt (h o1) (h o2) hm1 hm2).2
  have hv1 : (resolveCollision sqrt o1 o2 h o1).velocity
      = Vec3.add (h o1).velocity (Vec3.sdiv
          (Vec3.smul (calculateCollisionNormal sqrt (h o1) (h o2)) (impulseOf sqrt (h o1) (h o2)))
          (h o1).mass) := by
    rw [resolveCollision_fst sqrt o1 o2 h hne]
    simp only [hrel, hs1, false_or, Bool.false_eq_true, if_false]
  have hv2 : (resolveCollision sqrt o1 o2 h o2).velocity
      = Vec3.sub (h o2).velocity (Vec3.sdiv
          (Vec3.smul (calculateCollisionNormal sqrt (h o1) (h o2)) (impulseOf sqrt (h o1) (h o2)))
          (h o2).mass) := by
    rw [resolveCollision_snd sqrt o1 o2 h hne]
    simp only [hrel, hs2, false_or, Bool.false_eq_true, if_false]
  refine ⟨hunit, ?_, fun t ht => ?_⟩
  · rw [hv1, hv2, impulse_relative, hunit, mul_one, hJ]
    have hu : Vec3.dot (Vec3.sub (h o1).velocity (h o2).velocity)
        (calculateCollisionNormal sqrt (h o1) (h o2)) = relativeVelOf sqrt (h o1) (h o2) := rfl
    rw [hu]
    ring
  · rw [hv1, hv2]
    exact ⟨(impulse_tangent _ _ t _ _ ht).1, (impulse_tangent _ _ t _ _ ht).2⟩

/-- C36: for two non-static objects at distinct positions with masses `≥ 0.001` and
bounce coefficients in `[0, 1]`, `resolveCollision` yields
`m1 * |v1'|^2 + m2 * |v2'|^2 ≤ m1 * |v1|^2 + m2 * |v2|^2`, with equality when
`min(bounce1, bounce2) = 1`.  The square root is exact at the squared centre
distance. -/
theorem resolveCollision_energy_nonincreasing (sqrt : K → K) (o1 o2 : Nat) (h : Heap K)
    (hs1 : (h o1).isStatic = false) (hs2 : (h o2).isStatic = false)
    (hm1 : 1 / 1000 ≤ (h o1).mass) (hm2 : 1 / 1000 ≤ (h o2).mass)
    (hb1 : 0 ≤ (h o1).bounce ∧ (h o1).bounce ≤ 1) (hb2 : 0 ≤ (h o2).bounce ∧ (h o2).bounce ≤ 1)
    (hpos : (h o1).position ≠ (h o2).position)
    (hsqrt : sqrt (Vec3.dot (Vec3.sub (h o1).position (h o2).position)
        (Vec3.sub (h o1).position (h o2).position))
      * sqrt (Vec3.dot (Vec3.sub (h o1).position (h o2).position)
        (Vec3.sub (h o1).position (h o2).position))
      = Vec3.dot (Vec3.sub (h o1).position (h o2).position)
        (Vec3.sub (h o1).position (h o2).position)) :
    (h o1).mass * Vec3.dot (resolveCollision sqrt o1 o2 h o1).velocity
          (resolveCollision sqrt o1 o2 h o1).velocity
        + (h o2).mass * Vec3.dot (resolveCollision sqrt o1 o2 h o2).velocity
          (resolveCollision sqrt o1 o2 h o2).velocity
      ≤ (h o1).mass * Vec3.dot (h o1).velocity (h o1).velocity
        + (h o2).mass * Vec3.dot (h o2).velocity (h o2).velocity ∧
    (min (h o1).bounce (h o2).bounce = 1 →
      (h o1).mass * Vec3.dot (resolveCollision sqrt o1 o2 h o1).velocity
          (resolveCollision sqrt o1 o2 h o1).velocity
        + (h o2).mass * Vec3.dot (resolveCollision sqrt o1 o2 h o2).velocity
          (resolveCollision sqrt o1 o2 h o2).velocity
      = (h o1).mass * Vec3.dot (h o1).velocity (h o1).velocity
        + (h o2).mass * Vec3.dot (h o2).velocity (h o2).velocity) := by
  have hne : o1 ≠ o2 := fun e => hpos (by rw [e])
  have hp1 : 0 < (h o1).mass := lt_of_lt_of_le (by norm_num) hm1
  have hp2 : 0 < (h o2).mass := lt_of_lt_of_le (by norm_num) hm2
  by_cases hrel : 0 < relativeVelOf sqrt (h o1) (h o2)
  · have hv1 : (resolveCollision sqrt o1 o2 h o1).velocity = (h o1).velocity := by
      rw [resolveCollision_fst sqrt o1 o2 h hne]
      simp only [hrel, true_or, if_true]
    have hv2 : (resolveCollision sqrt o1 o2 h o2).velocity = (h o2).velocity := by
      rw [resolveCollision_snd sqrt o1 o2 h hne]
      simp only [hrel, true_or, if_true]
    rw [hv1, hv2]
    exact ⟨le_rfl, fun _ => rfl⟩
  · have hunit := collisionNormal_unit sqrt (h o1) (h o2) hpos hsqrt
    obtain ⟨hD, hJ⟩ := impulseOf_mul sqrt (h o1) (h o2) hp1 hp2
    have hv1 : (resolveCollision sqrt o1 o2 h o1).velocity
        = Vec3.add (h o1).velocity (Vec3.sdiv
            (Vec3.smul (calculateCollisionNormal sqrt (h o1) (h o2)) (impulseOf sqrt (h o1) (h o2)))
            (h o1).mass) := by
      rw [resolveCollision_fst sqrt o1 o2 h hne]
      simp only [hrel, hs1, false_or, Bool.false_eq_true, if_false]
    have hv2 : (resolveCollision sqrt o1 o2 h o2).velocity
        = Vec3.sub (h o2).velocity (Vec3.sdiv
            (Vec3.smul (calculateCollisionNormal sqrt (h o1) (h o2)) (impulseOf sqrt (h o1) (h o2)))
            (h o2).mass) := by
      rw [resolveCollision_snd sqrt o1 o2 h hne]
      simp only [hrel, hs2, false_or, Bool.false_eq_true, if_false]
    have hu : Vec3.dot (Vec3.sub (h o1).velocity (h o2).velocity)
        (calculateCollisionNormal sqrt (h o1) (h o2)) = relativeVelOf sqrt (h o1) (h o2) := rfl
    have he0 : 0 ≤ min (h o1).bounce (h o2).bounce := le_min hb1.1 hb2.1
    have he1 : min (h o1).bounce (h o2).bounce ≤ 1 := le_trans (min_le_left _ _) hb1.2
    rw [hv1, hv2, impulse_energy _ _ _ _ _ _ hp1.ne' hp2.ne', hunit, mul_one, hu]
    set J := impulseOf sqrt (h o1) (h o2) with hJdef
    set u := relativeVelOf sqrt (h o1) (h o2) with hudef
    set e := min (h o1).bounce (h o2).bounce with hedef
    set D := 1 / (h o1).mass + 1 / (h o2).mass with hDdef
    have hchange : 2 * J * u + J * J * D = -((1 - e) * (1 + e) * (u * u)) / D := by
      have hJ' : J = -(1 + e) * u / D := by
        rw [eq_div_iff hD.ne']
        exact hJ
      rw [hJ']
      field_simp
      ring
    rw [hchange]
    constructor
    · have hnum : 0 ≤ (1 - e) * (1 + e) * (u * u) :=
        mul_nonneg (mul_nonneg (by linarith) (by linarith)) (mul_self_nonneg u)
      have : -((1 - e) * (1 + e) * (u * u)) / D ≤ 0 :=
        div_nonpos_of_nonpos_of_nonneg (by linarith) hD.le
      linarith
    · intro h1
      rw [h1]
      simp

end Restitution

/-! ## Seeking and the duration bound (`Timeline`) -/

section Seek

variable {K : Type} [LinearOrderedField K]

/-- C38: on a timeline whose duration is 0, `setCurrentTime(t)` stores 0 for every
`t`, and `jumpToMarker` of a marker that is found stores 0 whatever the marker's
time. -/
theorem timeline_unbounded_seek (t : Timeline K) (hD : t.m_duration = 0) (time : K) :
    (t.setCurrentTime time).m_currentTime = 0 ∧
    ∀ (name : String) (marker : Marker K),
      t.m_markers.find? (fun marker => marker.name == name) = some marker →
      (t.jumpToMarker name).m_currentTime = 0 := by
  have key : ∀ x : K, (t.setCurrentTime x).m_currentTime = 0 := by
    intro x
    simp only [Timeline.setCurrentTime, hD]
    rcases le_total x 0 with hx | hx
    · rw [min_eq_left hx, max_eq_left hx]
    · rw [min_eq_right hx, max_self]
  refine ⟨key time, fun name marker hm => ?_⟩
  simp only [Timeline.jumpToMarker, hm]
  exact key marker.time

/-- Every public call keeps the current time within a positive duration. -/
theorem timeline_apply_bounded (sort : List (Marker K) → List (Marker K)) (t : Timeline K)
    (op : TimelineOp K) (ht : 0 < t.m_duration → t.m_currentTime ≤ t.m_duration) :
    0 < (TimelineOp.apply sort t op).m_duration →
      (TimelineOp.apply sort t op).m_currentTime ≤ (TimelineOp.apply sort t op).m_duration := by
  have hset : ∀ x : K, 0 < (t.setCurrentTime x).m_duration →
      (t.setCurrentTime x).m_currentTime ≤ (t.setCurrentTime x).m_duration := by
    intro x hd
    simp only [Timeline.setCurrentTime] at hd ⊢
    exact max_le hd.le (min_le_right _ _)
  cases op with
  | play => exact ht
  | pause => exact ht
  | reset => intro hd; exact le_of_lt hd
  | stop => intro hd; exact le_of_lt hd
  | setTimeScale scale => exact ht
  | setCurrentTime time => exact hset time
  | setDuration duration =>
    simp only [TimelineOp.apply, Timeline.setDuration]
    split_ifs with hgt
    · intro _; exact le_rfl
    · intro _; exact not_lt.mp hgt
  | update deltaTime =>
    by_cases hp : t.isPlaying = true
    · show 0 < (t.update deltaTime).m_duration →
        (t.update deltaTime).m_currentTime ≤ (t.update deltaTime).m_duration
      rw [timeline_update_playing t deltaTime hp]
      split_ifs with hc
      · intro _; exact le_rfl
      · intro hd
        have hd' : 0 < t.m_duration := hd
        by_contra hgt
        exact hc ⟨le_of_lt (not_le.mp hgt), hd'⟩
    · show 0 < (t.update deltaTime).m_duration →
        (t.update deltaTime).m_currentTime ≤ (t.update deltaTime).m_duration
      rw [timeline_update_not_playing t deltaTime (Bool.eq_false_iff.mpr hp)]
      exact ht
  | addMarker time name => exact ht
  | removeMarker name => exact ht
  | jumpToMarker name =>
    simp only [TimelineOp.apply, Timeline.jumpToMarker]
    cases hm : t.m_markers.find? (fun marker => marker.name == name) with
    | none => exact ht
    | some marker => exact hset marker.time
  | addTimeCallback time callback => exact ht
  | removeTimeCallback time => exact ht

/-- C39: in every state reached from a new timeline by public calls (`play`, `pause`,
`reset`, `stop`, `update`, `setCurrentTime`, `setDuration`, `setTimeScale`, and the
marker and callback calls), a positive duration bounds the current time. -/
theorem timeline_never_overruns (sort : List (Marker K) → List (Marker K)) (ops : List (TimelineOp K)) :
    0 < ((Timeline.new : Timeline K).run sort ops).m_duration →
      ((Timeline.new : Timeline K).run sort ops).m_currentTime
        ≤ ((Timeline.new : Timeline K).run sort ops).m_duration := by
  have key : ∀ (l : List (TimelineOp K)) (t : Timeline K),
      (0 < t.m_duration → t.m_currentTime ≤ t.m_duration) →
      0 < (t.run sort l).m_duration → (t.run sort l).m_currentTime ≤ (t.run sort l).m_duration := by
    intro l
    induction l with
    | nil => intro t ht; exact ht
    | cons op l ih =>
      intro t ht
      exact ih (TimelineOp.apply sort t op) (timeline_apply_bounded sort t op ht)
  exact key ops Timeline.new (fun h0 => absurd h0 (lt_irrefl _))

end Seek

/-! ## The engine time scale (`AnimationEngine`) -/

section Speed

variable {K : Type} [LinearOrderedField K]

/-- One `AnimationEngine::update(dt)` after `set_speed(s)`, on a playing, unbounded
timeline: the time scale enters twice. -/
theorem animationEngine_update_advance (e : AnimationEngine K) (s dt : K)
    (hp : e.m_timeline.isPlaying = true) (hD : e.m_timeline.m_duration = 0) :
    ((e.set_speed s).update dt).m_timeline.m_currentTime
      = e.m_timeline.m_currentTime + dt * s * s := by
  have hp' : (e.m_timeline.setTimeScale s).isPlaying = true := hp
  simp only [AnimationEngine.set_speed, AnimationEngine.setTimeScale, AnimationEngine.update]
  rw [timeline_update_playing _ _ hp']
  have hno : ¬ ((e.m_timeline.setTimeScale s).m_currentTime
      + dt * s * (e.m_timeline.setTimeScale s).m_timeScale ≥ (e.m_timeline.setTimeScale s).m_duration
      ∧ (e.m_timeline.setTimeScale s).m_duration > 0) := by
    intro hc
    have h0 : (e.m_timeline.setTimeScale s).m_duration = 0 := hD
    rw [h0] at hc
    exact lt_irrefl _ hc.2
  rw [if_neg hno]
  rfl

end Speed

/-! ## Queries, termination, collisions, circles, speed and forces: evaluations -/

/-- The rational square root of 9. -/
theorem rat_sqrt_nine : Rat.sqrt 9 = 3 := by
  have h := Rat.sqrt_eq 3
  rw [abs_of_pos (by norm_num)] at h
  rw [← h]
  norm_num

/-- The rational square root of 0. -/
theorem rat_sqrt_zero : Rat.sqrt 0 = 0 := by
  have h := Rat.sqrt_eq 0
  rwa [mul_zero, abs_zero] at h

/-- Termination in exact arithmetic at `timeStepOps`: the time step is `0.001` and
`update(1/400)` returns within three tests of the loop condition. -/
theorem update_terminates_witness :
    (1 / 1000 : ℚ) ≤ ((PhysicsEngine.new : PhysicsEngine ℚ).run timeStepOps).timeStep ∧
    (update Rat.sqrt ((PhysicsEngine.new : PhysicsEngine ℚ).run timeStepOps) 3 (1 / 400)
      demoHeap).isSome = true := by
  have hts : ((PhysicsEngine.new : PhysicsEngine ℚ).run timeStepOps).timeStep = 1 / 1000 := by
    norm_num [timeStepOps, PhysicsEngine.run, EngineOp.apply, setTimeStep, addObject, setEnabled,
      PhysicsEngine.new]
  have hk : ⌊(1 / 400 : ℚ) / ((PhysicsEngine.new : PhysicsEngine ℚ).run timeStepOps).timeStep⌋₊
      = 2 := by
    rw [hts, Nat.floor_eq_iff (by norm_num)]
    norm_num
  exact ⟨(update_terminates Rat.sqrt timeStepOps).1,
    ((update_terminates Rat.sqrt timeStepOps).2.1 (1 / 400) demoHeap 3 (by rw [hk]; decide)).2⟩

/-- C35 on `unequalHeap`: the relative normal velocity `-3` becomes `3/2`, with
`e = 1/2`. -/
theorem resolveCollision_restitution_witness :
    Vec3.dot (Vec3.sub (resolveCollision Rat.sqrt 0 1 unequalHeap 0).velocity
        (resolveCollision Rat.sqrt 0 1 unequalHeap 1).velocity)
        (calculateCollisionNormal Rat.sqrt (unequalHeap 0) (unequalHeap 1))
      = -(min (unequalHeap 0).bounce (unequalHeap 1).bounce)
        * relativeVelOf Rat.sqrt (unequalHeap 0) (unequalHeap 1) :=
  (resolveCollision_restitution Rat.sqrt 0 1 unequalHeap rfl rfl
    (by norm_num [unequalHeap, heap2, ball]) (by norm_num [unequalHeap, heap2, ball])
    (by norm_num [unequalHeap, heap2, ball])
    (by norm_num [unequalHeap, heap2, ball, Vec3.sub, Vec3.dot, rat_sqrt_nine_quarters])
    (by norm_num [relativeVelOf, calculateCollisionNormal, Vec3.normalize, Vec3.smul, unequalHeap,
      heap2, ball, Vec3.sub, Vec3.dot, rat_sqrt_nine_quarters])).2.1

/-- C36 on `unequalHeap`: the kinetic energy does not grow. -/
theorem resolveCollision_energy_nonincreasing_witness :
    (unequalHeap 0).mass * Vec3.dot (resolveCollision Rat.sqrt 0 1 unequalHeap 0).velocity
          (resolveCollision Rat.sqrt 0 1 unequalHeap 0).velocity
        + (unequalHeap 1).mass * Vec3.dot (resolveCollision Rat.sqrt 0 1 unequalHeap 1).velocity
          (resolveCollision Rat.sqrt 0 1 unequalHeap 1).velocity
      ≤ (unequalHeap 0).mass * Vec3.dot (unequalHeap 0).velocity (unequalHeap 0).velocity
        + (unequalHeap 1).mass * Vec3.dot (unequalHeap 1).velocity (unequalHeap 1).velocity :=
  (resolveCollision_energy_nonincreasing Rat.sqrt 0 1 unequalHeap rfl rfl
    (by norm_num [unequalHeap, heap2, ball]) (by norm_num [unequalHeap, heap2, ball])
    (by norm_num [unequalHeap, heap2, ball]) (by norm_num [unequalHeap, heap2, ball])
    (by norm_num [unequalHeap, heap2, ball])
    (by norm_num [unequalHeap, heap2, ball, Vec3.sub, Vec3.dot, rat_sqrt_nine_quarters])).1

/-- C38 on a new timeline with the marker `a` at 3: seeking to 7 and jumping to `a`
both leave the current time 0. -/
theorem timeline_unbounded_seek_witness :
    ((Timeline.new.addMarker markerSort 3 "a" : Timeline ℚ).setCurrentTime 7).m_currentTime = 0 ∧
    ((Timeline.new.addMarker markerSort 3 "a" : Timeline ℚ).jumpToMarker "a").m_currentTime = 0 :=
  ⟨(timeline_unbounded_seek (Timeline.new.addMarker markerSort 3 "a") rfl 7).1,
    (timeline_unbounded_seek (Timeline.new.addMarker markerSort 3 "a") rfl 7).2 "a" ⟨3, "a"⟩
      (by simp [Timeline.addMarker, Timeline.sortMarkers, Timeline.new, markerSort])⟩

/-- C39 at `overrunOps`: the duration is 5 and bounds the current time. -/
theorem timeline_never_overruns_witness :
    (0 : ℚ) < ((Timeline.new : Timeline ℚ).run markerSort overrunOps).m_duration ∧
    ((Timeline.new : Timeline ℚ).run markerSort overrunOps).m_currentTime
      ≤ ((Timeline.new : Timeline ℚ).run markerSort overrunOps).m_duration := by
  have hd : ((Timeline.new : Timeline ℚ).run markerSort overrunOps).m_duration = 5 := by
    norm_num [overrunOps, Timeline.run, TimelineOp.apply, Timeline.new, Timeline.play,
      Timeline.update, Timeline.setDuration, Timeline.setCurrentTime, Timeline.checkCallbacks]
  have hpos : (0 : ℚ) < ((Timeline.new : Timeline ℚ).run markerSort overrunOps).m_duration := by
    rw [hd]; norm_num
  exact ⟨hpos, timeline_never_overruns markerSort overrunOps hpos⟩

/-- C32 at the failing input: after `play()` and `set_speed(2)` one `update(1)`
advances the unbounded, playing timeline from 0 to 4, not 2, and after
`set_speed(0.5)` to `1/4`, not `1/2`. -/
theorem animationEngine_update_scales_twice :
    (((AnimationEngine.new : AnimationEngine ℚ).play.set_speed 2).update 1).m_timeline.m_currentTime
      = 4 ∧
    (((AnimationEngine.new : AnimationEngine ℚ).play.set_speed (1 / 2)).update 1).m_timeline.m_currentTime
      = 1 / 4 ∧
    ((AnimationEngine.new : AnimationEngine ℚ).play.set_speed 2).m_timeline.isPlaying = true ∧
    ((AnimationEngine.new : AnimationEngine ℚ).play.set_speed 2).m_timeline.m_duration = 0 := by
  refine ⟨?_, ?_, rfl, rfl⟩
  · rw [animationEngine_update_advance (AnimationEngine.new : AnimationEngine ℚ).play 2 1 rfl rfl]
    norm_num [AnimationEngine.new, AnimationEngine.play, Timeline.new, Timeline.play]
  · rw [animationEngine_update_advance (AnimationEngine.new : AnimationEngine ℚ).play (1 / 2) 1
      rfl rfl]
    norm_num [AnimationEngine.new, AnimationEngine.play, Timeline.new, Timeline.play]

/-- C40 at the failing inputs: on a non-static object of mass 2 `apply_force(obj, 4, 0)`
adds `(4, 0, 0)` to the acceleration where `applyForce(obj, (4, 0, 0))` adds
`(2, 0, 0)`; on a static object `apply_force` adds `(4, 0, 0)` where `applyForce`
changes nothing. -/
theorem apply_force_ignores_mass :
    (unequalHeap 0).isStatic = false ∧ (unequalHeap 0).mass = 2 ∧
    (unequalHeap 0).acceleration = ⟨0, 0, 0⟩ ∧
    (apply_force (some 0) 4 0 unequalHeap 0).acceleration = ⟨4, 0, 0⟩ ∧
    (applyForce (some 0) ⟨4, 0, 0⟩ unequalHeap 0).acceleration = ⟨2, 0, 0⟩ ∧
    (staticHeap 0).isStatic = true ∧
    (apply_force (some 0) 4 0 staticHeap 0).acceleration = ⟨4, 0, 0⟩ ∧
    applyForce (some 0) ⟨4, 0, 0⟩ staticHeap = staticHeap := by
  refine ⟨rfl, rfl, rfl, ?_, ?_, rfl, ?_, ?_⟩
  · norm_num [apply_force, setAcceleration, Heap.set, unequalHeap, heap2, ball, AnimationObject.new]
  · norm_num [applyForce, setAcceleration, Heap.set, unequalHeap, heap2, ball, AnimationObject.new,
      Vec3.add, Vec3.sdiv]
  · norm_num [apply_force, setAcceleration, Heap.set, staticHeap, heap2, ball, AnimationObject.new]
  · simp [applyForce, staticHeap, heap2, ball]

/-- C37 at the failing input: `Circle(0, 0, 1)` and `Circle(3, 0, 1)` have radius 1 and
centres 3 apart, yet `intersects` is true, and the point `(3/2, 0)` is inside the
first: the constructor leaves `scale.x = 2`, so the tests use the radius `1 * 2`. -/
theorem circle_intersects_scaled_radius :
    (Circle.new (0 : ℚ) 0 1).getRadius = 1 ∧ (Circle.new (3 : ℚ) 0 1).getRadius = 1 ∧
    Vec3.length Rat.sqrt (Vec3.sub (Circle.new (0 : ℚ) 0 1).position (Circle.new (3 : ℚ) 0 1).position)
      = 3 ∧
    Circle.intersects Rat.sqrt (Circle.new 0 0 1) (Circle.new 3 0 1) = true ∧
    Circle.pointInside (Circle.new (0 : ℚ) 0 1) (3 / 2) 0 = true := by
  have hd : Vec3.length Rat.sqrt
      (Vec3.sub (Circle.new (0 : ℚ) 0 1).position (Circle.new (3 : ℚ) 0 1).position) = 3 := by
    have : Vec3.dot (Vec3.sub (Circle.new (0 : ℚ) 0 1).position (Circle.new (3 : ℚ) 0 1).position)
        (Vec3.sub (Circle.new (0 : ℚ) 0 1).position (Circle.new (3 : ℚ) 0 1).position) = 9 := by
      norm_num [Circle.new, Circle.setSize, Vec3.dot, Vec3.sub]
    rw [Vec3.length, this, rat_sqrt_nine]
  refine ⟨?_, ?_, hd, ?_, ?_⟩
  · norm_num [Circle.new, Circle.setSize, Circle.getRadius]
  · norm_num [Circle.new, Circle.setSize, Circle.getRadius]
  · simp only [Circle.intersects, hd]
    norm_num [Circle.new, Circle.setSize, Circle.getRadius]
  · norm_num [Circle.pointInside, Circle.new, Circle.setSize]

/-- C33 at the failing input: two objects as constructed, both registered; after the
integration pass of `step(1)` the pair passes `checkCollision`, the vector
`pos1 - pos2` that `resolveCollision` normalises is zero, and the divisor
`sqrt(dot(pos1 - pos2, pos1 - pos2))` of `normalize` is 0. -/
theorem step_normalises_zero_vector :
    checkCollision Rat.sqrt (integrateAll rectEngine 1 coincidentHeap 0)
      (integrateAll rectEngine 1 coincidentHeap 1) = true ∧
    Vec3.sub (integrateAll rectEngine 1 coincidentHeap 0).position
      (integrateAll rectEngine 1 coincidentHeap 1).position = Vec3.zero ∧
    Rat.sqrt (Vec3.dot
      (Vec3.sub (integrateAll rectEngine 1 coincidentHeap 0).position
        (integrateAll rectEngine 1 coincidentHeap 1).position)
      (Vec3.sub (integrateAll rectEngine 1 coincidentHeap 0).position
        (integrateAll rectEngine 1 coincidentHeap 1).position)) = 0 := by
  have h0 : (integrateAll rectEngine 1 coincidentHeap 0).position = ⟨0, 0, 0⟩ := by
    norm_num [integrateAll, rectEngine, addObject, PhysicsEngine.new, updateObjectPhysics,
      setPosition, setVelocity, setAcceleration, Heap.set, coincidentHeap, heap2,
      AnimationObject.new, Vec3.add, Vec3.smul, Vec3.zero]
  have h1 : (integrateAll rectEngine 1 coincidentHeap 1).position = ⟨0, 0, 0⟩ := by
    norm_num [integrateAll, rectEngine, addObject, PhysicsEngine.new, updateObjectPhysics,
      setPosition, setVelocity, setAcceleration, Heap.set, coincidentHeap, heap2,
      AnimationObject.new, Vec3.add, Vec3.smul, Vec3.zero]
  have hs0 : (integrateAll rectEngine 1 coincidentHeap 0).scale = ⟨1, 1, 1⟩ := by
    norm_num [integrateAll, rectEngine, addObject, PhysicsEngine.new, updateObjectPhysics,
      setPosition, setVelocity, setAcceleration, Heap.set, coincidentHeap, heap2,
      AnimationObject.new, Vec3.add, Vec3.smul, Vec3.zero]
  have hs1 : (integrateAll rectEngine 1 coincidentHeap 1).scale = ⟨1, 1, 1⟩ := by
    norm_num [integrateAll, rectEngine, addObject, PhysicsEngine.new, updateObjectPhysics,
      setPosition, setVelocity, setAcceleration, Heap.set, coincidentHeap, heap2,
      AnimationObject.new, Vec3.add, Vec3.smul, Vec3.zero]
  have hdot : Vec3.dot (Vec3.sub (⟨0, 0, 0⟩ : Vec3 ℚ) ⟨0, 0, 0⟩) (Vec3.sub ⟨0, 0, 0⟩ ⟨0, 0, 0⟩) = 0 := by
    norm_num [Vec3.dot, Vec3.sub]
  refine ⟨?_, ?_, ?_⟩
  · simp only [checkCollision, Vec3.length, h0, h1, hs0, hs1, hdot, rat_sqrt_zero]
    norm_num
  · rw [h0, h1]; norm_num [Vec3.sub, Vec3.zero]
  · rw [h0, h1, hdot, rat_sqrt_zero]

/-! ## Binary32: what rounding changes in `update` and in `sequence` -/

section Binary32

set_option maxRecDepth 100000

/-- The default time step in binary32 is `8947849 * 2^-29`, just above `1/60`. -/
theorem defaultTimeStep32_units :
    defaultTimeStep32 = ⟨((8947849 * 2 ^ 120 : Nat) : Int)⟩ := by decide

/-- The default time step as a rational number. -/
theorem defaultTimeStep32_toRat : defaultTimeStep32.toRat = 8947849 / 536870912 := by
  rw [defaultTimeStep32_units]
  norm_num [F32.toRat]

/-- The value `1.0f` as a rational number. -/
theorem one32_toRat : (F32.ofNat 1).toRat = 1 := by
  have h : F32.ofNat 1 = ⟨((2 ^ 149 : Nat) : Int)⟩ := by decide
  rw [h]
  norm_num [F32.toRat]

/-- C2, counterexample: in binary32, with the default time step `h = fl(1/60)`,
`update(1.0f)` calls `step(h)` 60 times and then `step(r)` with
`r = 199384199367737380935571059042051686400 * 2^-149` (about `2.8e-7`), while
`floor(1 / h) = 59`. -/
theorem update32_one_second_sixty_steps :
    update32 recordStep true defaultTimeStep32 61 (F32.ofNat 1) []
      = some (List.replicate 60 defaultTimeStep32
          ++ [⟨((199384199367737380935571059042051686400 : Nat) : Int)⟩]) ∧
    ⌊(F32.ofNat 1).toRat / defaultTimeStep32.toRat⌋₊ = 59 := by
  refine ⟨by decide, ?_⟩
  rw [one32_toRat, defaultTimeStep32_toRat, Nat.floor_eq_iff (by norm_num)]
  norm_num

/-- C34 at the failing input: in binary32, with the default time step `h = fl(1/60)`,
`600000.0f - h` rounds to `600000.0f`, so the loop of `update(600000.0f)` reaches
every iteration bound: it never exits, whatever `step` does. -/
theorem update32_never_exits {σ : Type} (step : F32 → σ → σ) (fuel : Nat) (s : σ) :
    F32.sub (F32.ofNat 600000) defaultTimeStep32 = F32.ofNat 600000 ∧
    updateLoop32 step defaultTimeStep32 fuel (F32.ofNat 600000) s = none ∧
    update32 step true defaultTimeStep32 fuel (F32.ofNat 600000) s = none := by
  have hsub : F32.sub (F32.ofNat 600000) defaultTimeStep32 = F32.ofNat 600000 := by decide
  have hge : (F32.ofNat 600000).units ≥ defaultTimeStep32.units := by decide
  have hloop : ∀ (n : Nat) (t : σ),
      updateLoop32 step defaultTimeStep32 n (F32.ofNat 600000) t = none := by
    intro n
    induction n with
    | zero => intro t; rfl
    | succ n ih =>
      intro t
      rw [updateLoop32, if_pos hge, hsub]
      exact ih _
  refine ⟨hsub, hloop fuel s, ?_⟩
  simp [update32, hloop fuel s]

/-- C21, counterexample: in binary32, `sequence` of 14 animations at `p = 0.5` calls
animation 6 with local progress `16777207 * 2^-24` (about `0.9999995`), not animation
`floor(0.5 * 14) = 7` with 0; and `sequence` of 25 animations at
`p = 16777215 * 2^-24 < 1` calls no animation. -/
theorem sequence32_rounds_index :
    sequence32 (recorders 14) none (F32.div (F32.ofNat 1) (F32.ofNat 2)) []
      = [(6, ⟨((16777207 * 2 ^ 125 : Nat) : Int)⟩)] ∧
    (F32.div (F32.ofNat 1) (F32.ofNat 2)).toRat = 1 / 2 ∧
    sequence32 (recorders 25) none ⟨(((2 ^ 24 - 1) * 2 ^ 125 : Nat) : Int)⟩ [] = [] ∧
    (⟨(((2 ^ 24 - 1) * 2 ^ 125 : Nat) : Int)⟩ : F32).toRat = 16777215 / 16777216 := by
  refine ⟨by decide, ?_, by decide, ?_⟩
  · have h : F32.div (F32.ofNat 1) (F32.ofNat 2) = ⟨((2 ^ 148 : Nat) : Int)⟩ := by decide
    rw [h]
    norm_num [F32.toRat]
  · norm_num [F32.toRat]

/-- C22, counterexample: `sequence([A, B])` at progress 1 does not do what `B` does at
progress 1, in exact arithmetic, and in binary32 `sequence` of two animations at
`1.0f` calls no animation. -/
theorem sequence_end_point_not_last :
    ¬ (sequence [animA, animB] (some 0) 1 stageHeap = animB (some 0) 1 stageHeap) ∧
    sequence32 (recorders 2) none (F32.ofNat 1) [] = [] :=
  ⟨sequence_at_one_not_last, by decide⟩

/-- In binary32, `sequence` of 7 animations at `1.0f` computes the index 6 and calls
the last animation with local progress `16777207 * 2^-24`. -/
theorem sequence32_seven_at_one :
    sequence32 (recorders 7) none (F32.ofNat 1) []
      = [(6, ⟨((16777207 * 2 ^ 125 : Nat) : Int)⟩)] := by decide

end Binary32

/-! ## The ground clamp on coincident objects -/

/-- C10 at the failing input: on `demoEngine` (ground at `y = 0`, collisions on,
handles `0` and `1` registered) and two objects as constructed, after the integration
pass of `step(1)` the pair passes `checkCollision`, the vector `pos1 - pos2` that
`resolveCollision` normalises is zero, and the divisor
`sqrt(dot(pos1 - pos2, pos1 - pos2))` of `normalize` is 0. -/
theorem step_ground_clamp_coincident :
    demoEngine.groundConstraintEnabled = true ∧
    demoEngine.collisionDetectionEnabled = true ∧
    demoEngine.physicsObjects = [0, 1] ∧
    checkCollision Rat.sqrt (integrateAll demoEngine 1 coincidentHeap 0)
      (integrateAll demoEngine 1 coincidentHeap 1) = true ∧
    Vec3.sub (integrateAll demoEngine 1 coincidentHeap 0).position
      (integrateAll demoEngine 1 coincidentHeap 1).position = Vec3.zero ∧
    Rat.sqrt (Vec3.dot
      (Vec3.sub (integrateAll demoEngine 1 coincidentHeap 0).position
        (integrateAll demoEngine 1 coincidentHeap 1).position)
      (Vec3.sub (integrateAll demoEngine 1 coincidentHeap 0).position
        (integrateAll demoEngine 1 coincidentHeap 1).position)) = 0 := by
  have h0 : (integrateAll demoEngine 1 coincidentHeap 0).position = ⟨0, 0, 0⟩ := by
    norm_num [integrateAll, demoEngine, addGroundConstraint, addObject, PhysicsEngine.new,
      updateObjectPhysics, setPosition, setVelocity, setAcceleration, Heap.set, coincidentHeap,
      heap2, AnimationObject.new, Vec3.add, Vec3.smul, Vec3.zero]
  have h1 : (integrateAll demoEngine 1 coincidentHeap 1).position = ⟨0, 0, 0⟩ := by
    norm_num [integrateAll, demoEngine, addGroundConstraint, addObject, PhysicsEngine.new,
      updateObjectPhysics, setPosition, setVelocity, setAcceleration, Heap.set, coincidentHeap,
      heap2, AnimationObject.new, Vec3.add, Vec3.smul, Vec3.zero]
  have hs0 : (integrateAll demoEngine 1 coincidentHeap 0).scale = ⟨1, 1, 1⟩ := by
    norm_num [integrateAll, demoEngine, addGroundConstraint, addObject, PhysicsEngine.new,
      updateObjectPhysics, setPosition, setVelocity, setAcceleration, Heap.set, coincidentHeap,
      heap2, AnimationObject.new, Vec3.add, Vec3.smul, Vec3.zero]
  have hs1 : (integrateAll demoEngine 1 coincidentHeap 1).scale = ⟨1, 1, 1⟩ := by
    norm_num [integrateAll, demoEngine, addGroundConstraint, addObject, PhysicsEngine.new,
      updateObjectPhysics, setPosition, setVelocity, setAcceleration, Heap.set, coincidentHeap,
      heap2, AnimationObject.new, Vec3.add, Vec3.smul, Vec3.zero]
  have hdot : Vec3.dot (Vec3.sub (⟨0, 0, 0⟩ : Vec3 ℚ) ⟨0, 0, 0⟩) (Vec3.sub ⟨0, 0, 0⟩ ⟨0, 0, 0⟩) = 0 := by
    norm_num [Vec3.dot, Vec3.sub]
  refine ⟨rfl, rfl, ?_, ?_, ?_, ?_⟩
  · simp [demoEngine, addGroundConstraint, addObject, PhysicsEngine.new]
  · simp only [checkCollision, Vec3.length, h0, h1, hs0, hs1, hdot, rat_sqrt_zero]
    norm_num
  · rw [h0, h1]; norm_num [Vec3.sub, Vec3.zero]
  · rw [h0, h1, hdot, rat_sqrt_zero]

end Kalem
